import Mathlib

/-!
# BodyTracking: the inverse-kinematics controller (`InverseKinematics.cpp`)

A shallow embedding of `BodyModel/Sources/InverseKinematics.cpp`.

Modelling conventions.

* `float` values are rationals (`ℚ`); infinities and NaN are not modelled.  `FLT_MAX` is the
  exact value of the largest finite single-precision number.  The control flow only compares
  floats, which is exact.  The arithmetic on the statistics exists twice: `record` and
  `getAverageIter`, `getAverageReached`, `getAverageError` compute in exact arithmetic (the
  value before rounding); `recordF` and `getAverageIterF`, `getAverageReachedF`,
  `getAverageErrorF` round every `float` operation to single precision with `roundFloat`,
  as the machine does.  What is stated about the numeric value of an average is stated about
  the rounded one.
* `BoneNode*` is an index into `heap`, the list of all `BoneNode` objects.  Dereferencing an
  index outside the heap, and indexing a `std::vector` outside its size, is `Outcome.fault`.
* The `while` loops that walk the parent pointers take a fuel argument; running out of fuel
  is `Outcome.timeout`.
* The quaternion and matrix operations and the Euler conversions live in headers that are
  not part of `InverseKinematics.cpp`; they are the fields of `KoreMath`, over abstract
  types `Q` (quaternions) and `M` (4x4 matrices).
* The limb solvers (`jacobianHand`, `jacobianFoot`) are state machines over an abstract
  state `σ`: `calcDeltaTheta` reads the skeleton and moves the solver to a new state,
  `getError` reads the solver state.
* The constants of `Settings.h` and of the class declaration are the fields of `Settings`.
* The integer counters `totalNum`, `sumIter`, `sumReached` hold the exact sums as unbounded
  integers; they are the `int` fields of the code as long as they are at most `INT_MAX`,
  which the theorems about their values assume or establish.
* `evals` and `steps` are ghost counters: `evals` counts the calls of `calcDeltaTheta`,
  `steps` counts the executions of the `else` branch (lines 39-41).
-/

namespace BodyTracking

/-! ## Data model -/

/-- Two floats, `Kore::vec2`: a joint range `(min, max)`. -/
structure vec2 where
  x : ℚ
  y : ℚ
deriving DecidableEq, Repr

/-- Three floats, `Kore::vec3`. -/
structure vec3 where
  x : ℚ
  y : ℚ
  z : ℚ
deriving DecidableEq, Repr

/-- Scaling of a `vec2` by a float, `v * f`. -/
def vec2.scale (v : vec2) (f : ℚ) : vec2 := ⟨v.x * f, v.y * f⟩

/-- The largest finite `float`, `(2 - 2^(-23)) * 2^127`. -/
def FLT_MAX : ℚ := 340282346638528859811704183484516925440

/-- One `BoneNode` object; `parent` is a pointer (an index into the heap). -/
structure BoneNode (Q M : Type) where
  nodeIndex : Int
  parent : Nat
  initialized : Bool
  axes : vec3
  constrain : List vec2
  quaternion : Q
  transform : M
  local_ : M
  combined : M
deriving DecidableEq, Repr

/-- The quaternion, matrix and Euler-angle operations used by the controller. -/
structure KoreMath (Q M : Type) where
  /-- The quaternion of a rotation about `axis` by `radians`: `Kore::Quaternion(axis, radians)`. -/
  axisAngle : vec3 → ℚ → Q
  /-- The result of `q.rotate(r)`. -/
  rotate : Q → Q → Q
  /-- The result of `q.normalize()`. -/
  normalize : Q → Q
  /-- The matrix of a quaternion, `q.matrix()`. -/
  matrix : Q → M
  /-- The transposed matrix, `m.Transpose()`. -/
  transpose : M → M
  /-- The matrix product. -/
  mul : M → M → M
  /-- The Euler angles of a quaternion, `RotationUtility::quatToEuler`. -/
  quatToEuler : Q → vec3
  /-- The quaternion of three Euler angles, `RotationUtility::eulerToQuat`. -/
  eulerToQuat : ℚ → ℚ → ℚ → Q

/-- One limb solver class: `calcDeltaTheta(targetBone, desPosition, desRotation, ikMode)` and
`getError()`, acting on a solver object of state `σ`. -/
structure Jacobian (σ Q M : Type) where
  calcDeltaTheta : σ → List (BoneNode Q M) → Nat → vec3 → Q → Int → σ × List ℚ
  getError : σ → ℚ

/-- The constants the controller reads (`Settings.h` and the class declaration). -/
structure Settings where
  maxSteps : Int
  errorMax : ℚ
  handJointDOFs : Int
  handIkMode : Int
  footIkMode : Int
  leftHandBoneIndex : Int
  rightHandBoneIndex : Int
  leftFootBoneIndex : Int
  rightFootBoneIndex : Int
  /-- The constant `Kore::pi`. -/
  pi : ℚ
deriving DecidableEq, Repr

/-- Everything the code of the controller is parameterised by. -/
structure Env (σ Q M : Type) where
  settings : Settings
  kore : KoreMath Q M
  hand : Jacobian σ Q M
  foot : Jacobian σ Q M

/-- The memory the controller works on: the bone objects, and the fields of the
`InverseKinematics` object, with the two ghost counters. -/
structure World (σ Q M : Type) where
  heap : List (BoneNode Q M)
  bones : List Nat
  jacobianHand : σ
  jacobianFoot : σ
  totalNum : Int
  sumIter : Int
  sumReached : Int
  sumError : ℚ
  minError : ℚ
  maxError : ℚ
  evals : Nat
  steps : Nat
deriving DecidableEq, Repr

/-- The result of running a piece of code: a value, an invalid memory access, or no answer
within the fuel. -/
inductive Outcome (α : Type) where
  | ok (a : α)
  | fault
  | timeout
deriving DecidableEq, Repr

/-- Sequencing of two computations. -/
def Outcome.bind {α β : Type} (x : Outcome α) (f : α → Outcome β) : Outcome β :=
  match x with
  | .ok a => f a
  | .fault => .fault
  | .timeout => .timeout

variable {σ Q M : Type}

/-! ## `clampValue` (lines 88-104) -/

/-- The function `clampValue(minVal, maxVal, &value)`: the returned flag and the value left
in `*value`. -/
def clampValue (minVal maxVal value : ℚ) : Bool × ℚ :=
  let lo := if minVal > maxVal then maxVal else minVal
  let hi := if minVal > maxVal then minVal else maxVal
  if value < lo then (true, lo)
  else if value > hi then (true, hi)
  else (false, value)

/-! ## `applyChanges` (lines 48-65) -/

/-- One of the lines 56-58: when the axis is flagged (`flag == 1.0`) and `i < size`, rotate the
quaternion about `axis` by `deltaTheta[i]` and advance `i`. -/
def rotateAxis (K : KoreMath Q M) (deltaTheta : List ℚ) (flag : ℚ) (axis : vec3)
    (qi : Q × Nat) : Q × Nat :=
  if flag = 1 then
    if h : qi.2 < deltaTheta.length then
      (K.rotate qi.1 (K.axisAngle axis (deltaTheta.get ⟨qi.2, h⟩)), qi.2 + 1)
    else qi
  else qi

/-- The `while` loop of `applyChanges`, entered with counter `i` at `bone`. -/
def applyChangesLoop (K : KoreMath Q M) (deltaTheta : List ℚ) :
    Nat → Nat → Nat → List (BoneNode Q M) → Outcome (List (BoneNode Q M))
  | 0, _, _, _ => .timeout
  | fuel + 1, i, bone, heap =>
    match heap[bone]? with
    | none => .fault
    | some b =>
      if b.initialized = true ∧ i < deltaTheta.length then
        let qx := rotateAxis K deltaTheta b.axes.x ⟨1, 0, 0⟩ (b.quaternion, i)
        let qy := rotateAxis K deltaTheta b.axes.y ⟨0, 1, 0⟩ qx
        let qz := rotateAxis K deltaTheta b.axes.z ⟨0, 0, 1⟩ qy
        let q := K.normalize qz.1
        applyChangesLoop K deltaTheta fuel qz.2 b.parent
          (heap.set bone
            { b with quaternion := q, local_ := K.mul b.transform (K.transpose (K.matrix q)) })
      else .ok heap

/-- The function `applyChanges(deltaTheta, targetBone)`. -/
def applyChanges (K : KoreMath Q M) (fuel : Nat) (deltaTheta : List ℚ) (targetBone : Nat)
    (heap : List (BoneNode Q M)) : Outcome (List (BoneNode Q M)) :=
  applyChangesLoop K deltaTheta fuel 0 targetBone heap

/-! ## `applyJointConstraints` (lines 67-86) -/

/-- One of the lines 75-77: when the axis is flagged, clamp `value` against `constrain[k]`. -/
def clampAxis (flag : ℚ) (constrain : List vec2) (k : Nat) (value : ℚ) : Outcome ℚ :=
  if flag = 1 then
    match constrain[k]? with
    | none => .fault
    | some c => .ok (clampValue c.x c.y value).2
  else .ok value

/-- Lines 75-77: the clamping of the three Euler angles of one bone. -/
def clampAxes (axes : vec3) (constrain : List vec2) (rot : vec3) : Outcome vec3 :=
  (clampAxis axes.x constrain 0 rot.x).bind fun x =>
  (clampAxis axes.y constrain 1 rot.y).bind fun y =>
  (clampAxis axes.z constrain 2 rot.z).bind fun z =>
  .ok ⟨x, y, z⟩

/-- The function `applyJointConstraints(targetBone)`: its `while` loop entered at `bone`. -/
def applyJointConstraints (K : KoreMath Q M) :
    Nat → Nat → List (BoneNode Q M) → Outcome (List (BoneNode Q M))
  | 0, _, _ => .timeout
  | fuel + 1, bone, heap =>
    match heap[bone]? with
    | none => .fault
    | some b =>
      if b.initialized = true then
        match clampAxes b.axes b.constrain (K.quatToEuler b.quaternion) with
        | .ok rot =>
          let q := K.normalize (K.eulerToQuat rot.x rot.y rot.z)
          applyJointConstraints K fuel b.parent
            (heap.set bone
              { b with quaternion := q, local_ := K.mul b.transform (K.transpose (K.matrix q)) })
        | .fault => .fault
        | .timeout => .timeout
      else .ok heap

/-! ## `updateBonePosition` (lines 106-108) and the propagation loop (line 41) -/

/-- The function `updateBonePosition(bone)`. -/
def updateBonePosition (K : KoreMath Q M) (bone : Nat) (heap : List (BoneNode Q M)) :
    Outcome (List (BoneNode Q M)) :=
  match heap[bone]? with
  | none => .fault
  | some b =>
    match heap[b.parent]? with
    | none => .fault
    | some p => .ok (heap.set bone { b with combined := K.mul p.combined b.local_ })

/-- Line 41: `updateBonePosition(bones[i])` for every entry of `bones`, in vector order. -/
def updateBones (K : KoreMath Q M) :
    List Nat → List (BoneNode Q M) → Outcome (List (BoneNode Q M))
  | [], heap => .ok heap
  | bone :: rest, heap => (updateBonePosition K bone heap).bind (updateBones K rest)

/-! ## `inverseKinematics` (lines 13-46) -/

/-- The values of the loop variables `deltaTheta` and `error` together with the memory. -/
structure Iter (σ Q M : Type) where
  deltaTheta : List ℚ
  error : ℚ
  world : World σ Q M

/-- Lines 20-26: the solver evaluation at the head of the loop body. -/
def evaluate (E : Env σ Q M) (nodeIndex : Int) (targetBone : Nat) (desPosition : vec3)
    (desRotation : Q) (it : Iter σ Q M) : Iter σ Q M :=
  if nodeIndex = E.settings.leftHandBoneIndex ∨ nodeIndex = E.settings.rightHandBoneIndex then
    let r := E.hand.calcDeltaTheta it.world.jacobianHand it.world.heap targetBone desPosition
      desRotation E.settings.handIkMode
    { deltaTheta := r.2
      error := E.hand.getError r.1
      world := { it.world with jacobianHand := r.1, evals := it.world.evals + 1 } }
  else if nodeIndex = E.settings.leftFootBoneIndex ∨
      nodeIndex = E.settings.rightFootBoneIndex then
    let r := E.foot.calcDeltaTheta it.world.jacobianFoot it.world.heap targetBone desPosition
      desRotation E.settings.footIkMode
    { deltaTheta := r.2
      error := E.foot.getError r.1
      world := { it.world with jacobianFoot := r.1, evals := it.world.evals + 1 } }
  else it

/-- Lines 30-35: the update of the statistics at the terminal step `i`. -/
def record (errorMax : ℚ) (i : Int) (error : ℚ) (w : World σ Q M) : World σ Q M :=
  { w with
    sumIter := w.sumIter + i
    sumReached := w.sumReached + (if error < errorMax then 1 else 0)
    sumError := w.sumError + error
    minError := if error < w.minError then error else w.minError
    maxError := if error > w.maxError then error else w.maxError
    totalNum := w.totalNum + 1 }

/-- Lines 39-41: apply the deltas, clamp the chain, propagate the transforms. -/
def applyStep (K : KoreMath Q M) (fuel : Nat) (deltaTheta : List ℚ) (targetBone : Nat)
    (w : World σ Q M) : Outcome (World σ Q M) :=
  (applyChanges K fuel deltaTheta targetBone w.heap).bind fun h1 =>
  (applyJointConstraints K fuel targetBone h1).bind fun h2 =>
  (updateBones K w.bones h2).bind fun h3 =>
  .ok { w with heap := h3, steps := w.steps + 1 }

/-- The `for` loop of `inverseKinematics`, entered with counter `i`; `n` bounds the number of
loop tests, `fuel` is handed to the `while` loops of the body. -/
def ikLoop (E : Env σ Q M) (fuel : Nat) (targetBone : Nat) (desPosition : vec3)
    (desRotation : Q) : Nat → Int → Iter σ Q M → Outcome (Bool × World σ Q M)
  | 0, _, _ => .timeout
  | n + 1, i, it =>
    if i ≤ E.settings.maxSteps then
      match it.world.heap[targetBone]? with
      | none => .fault
      | some tb =>
        let ev := evaluate E tb.nodeIndex targetBone desPosition desRotation it
        if ev.error < E.settings.errorMax ∨ i = E.settings.maxSteps then
          .ok (decide (ev.error < E.settings.errorMax),
               record E.settings.errorMax i ev.error ev.world)
        else
          match applyStep E.kore fuel ev.deltaTheta targetBone ev.world with
          | .ok w =>
            ikLoop E fuel targetBone desPosition desRotation n (i + 1) { ev with world := w }
          | .fault => .fault
          | .timeout => .timeout
    else .ok (false, it.world)

/-- The function `inverseKinematics(targetBone, desPosition, desRotation)`; every loop may
run for `fuel` iterations. -/
def inverseKinematics (E : Env σ Q M) (fuel : Nat) (targetBone : Nat) (desPosition : vec3)
    (desRotation : Q) (w : World σ Q M) : Outcome (Bool × World σ Q M) :=
  match w.heap[targetBone]? with
  | none => .fault
  | some tb =>
    if tb.initialized = false then .ok (false, w)
    else ikLoop E fuel targetBone desPosition desRotation fuel 0
      { deltaTheta := [], error := FLT_MAX, world := w }

/-! ## `setJointConstraints` (lines 110-171) -/

/-- The pointer `bones[k]`. -/
def boneAt (bones : List Nat) (k : Nat) : Outcome Nat :=
  match bones[k]? with
  | none => .fault
  | some node => .ok node

/-- The value `node->axes`. -/
def axesOf (node : Nat) (heap : List (BoneNode Q M)) : Outcome vec3 :=
  match heap[node]? with
  | none => .fault
  | some b => .ok b.axes

/-- The value `node->constrain[k]`. -/
def constrainAt (node k : Nat) (heap : List (BoneNode Q M)) : Outcome vec2 :=
  match heap[node]? with
  | none => .fault
  | some b =>
    match b.constrain[k]? with
    | none => .fault
    | some c => .ok c

/-- The assignment `node->axes = axes`. -/
def setAxes (node : Nat) (axes : vec3) (heap : List (BoneNode Q M)) :
    Outcome (List (BoneNode Q M)) :=
  match heap[node]? with
  | none => .fault
  | some b => .ok (heap.set node { b with axes := axes })

/-- The call `node->constrain.push_back(c)`. -/
def pushConstrain (node : Nat) (c : vec2) (heap : List (BoneNode Q M)) :
    Outcome (List (BoneNode Q M)) :=
  match heap[node]? with
  | none => .fault
  | some b => .ok (heap.set node { b with constrain := b.constrain ++ [c] })

/-- The statements `nodeRight->axes = nodeLeft->axes` (lines 122, 133, 144, 157, 169). -/
def copyAxes (nodeLeft nodeRight : Nat) (heap : List (BoneNode Q M)) :
    Outcome (List (BoneNode Q M)) :=
  (axesOf nodeLeft heap).bind fun a => setAxes nodeRight a heap

/-- The statements `nodeRight->constrain.push_back(nodeLeft->constrain[k] * f)`; lines
123, 134, 145, 158 and 170 push the entry itself (`f = 1`). -/
def copyConstrain (nodeLeft nodeRight k : Nat) (f : ℚ) (heap : List (BoneNode Q M)) :
    Outcome (List (BoneNode Q M)) :=
  (constrainAt nodeLeft k heap).bind fun c => pushConstrain nodeRight (c.scale f) heap

/-- Lines 114-125: the shoulder joints. -/
def setShoulders (pi : ℚ) (bones : List Nat) (heap : List (BoneNode Q M)) :
    Outcome (List (BoneNode Q M)) :=
  (boneAt bones (12 - 1)).bind fun nodeLeft =>
  (setAxes nodeLeft ⟨1, 1, 1⟩ heap).bind fun heap =>
  (pushConstrain nodeLeft ⟨-5 * pi / 18, pi⟩ heap).bind fun heap =>
  (pushConstrain nodeLeft ⟨-pi / 2, pi / 2⟩ heap).bind fun heap =>
  (pushConstrain nodeLeft ⟨-13 * pi / 18, pi / 2⟩ heap).bind fun heap =>
  (boneAt bones (22 - 1)).bind fun nodeRight =>
  (copyAxes nodeLeft nodeRight heap).bind fun heap =>
  (copyConstrain nodeLeft nodeRight 0 1 heap).bind fun heap =>
  (copyConstrain nodeLeft nodeRight 1 (-1) heap).bind fun heap =>
  copyConstrain nodeLeft nodeRight 2 (-1) heap

/-- Lines 127-134: the elbow joints. -/
def setElbows (pi : ℚ) (bones : List Nat) (heap : List (BoneNode Q M)) :
    Outcome (List (BoneNode Q M)) :=
  (boneAt bones (13 - 1)).bind fun nodeLeft =>
  (setAxes nodeLeft ⟨1, 0, 0⟩ heap).bind fun heap =>
  (pushConstrain nodeLeft ⟨-pi / 18, 7 * pi / 9⟩ heap).bind fun heap =>
  (boneAt bones (23 - 1)).bind fun nodeRight =>
  (copyAxes nodeLeft nodeRight heap).bind fun heap =>
  copyConstrain nodeLeft nodeRight 0 1 heap

/-- Lines 138-146: the hand joints (the body of `if (handJointDOFs == 6)`). -/
def setHands (pi : ℚ) (bones : List Nat) (heap : List (BoneNode Q M)) :
    Outcome (List (BoneNode Q M)) :=
  (boneAt bones (14 - 1)).bind fun nodeLeft =>
  (setAxes nodeLeft ⟨1, 0, 1⟩ heap).bind fun heap =>
  (pushConstrain nodeLeft ⟨-2 * pi / 9, pi / 6⟩ heap).bind fun heap =>
  (pushConstrain nodeLeft ⟨-7 * pi / 18, pi / 3⟩ heap).bind fun heap =>
  (boneAt bones (24 - 1)).bind fun nodeRight =>
  (copyAxes nodeLeft nodeRight heap).bind fun heap =>
  (copyConstrain nodeLeft nodeRight 0 1 heap).bind fun heap =>
  copyConstrain nodeLeft nodeRight 1 (-1) heap

/-- Lines 149-160: the hip joints. -/
def setThighs (pi : ℚ) (bones : List Nat) (heap : List (BoneNode Q M)) :
    Outcome (List (BoneNode Q M)) :=
  (boneAt bones (4 - 1)).bind fun nodeLeft =>
  (setAxes nodeLeft ⟨1, 1, 1⟩ heap).bind fun heap =>
  (pushConstrain nodeLeft ⟨-13 * pi / 18, pi / 6⟩ heap).bind fun heap =>
  (pushConstrain nodeLeft ⟨-pi / 3, 2 * pi / 9⟩ heap).bind fun heap =>
  (pushConstrain nodeLeft ⟨-5 * pi / 18, 5 * pi / 18⟩ heap).bind fun heap =>
  (boneAt bones (29 - 1)).bind fun nodeRight =>
  (copyAxes nodeLeft nodeRight heap).bind fun heap =>
  (copyConstrain nodeLeft nodeRight 0 1 heap).bind fun heap =>
  (copyConstrain nodeLeft nodeRight 1 (-1) heap).bind fun heap =>
  copyConstrain nodeLeft nodeRight 2 (-1) heap

/-- Lines 162-170: the knee joints. -/
def setCalves (pi : ℚ) (bones : List Nat) (heap : List (BoneNode Q M)) :
    Outcome (List (BoneNode Q M)) :=
  (boneAt bones (5 - 1)).bind fun nodeLeft =>
  (setAxes nodeLeft ⟨1, 0, 0⟩ heap).bind fun heap =>
  (pushConstrain nodeLeft ⟨0, 7 * pi / 9⟩ heap).bind fun heap =>
  (boneAt bones (30 - 1)).bind fun nodeRight =>
  (copyAxes nodeLeft nodeRight heap).bind fun heap =>
  copyConstrain nodeLeft nodeRight 0 1 heap

/-- The function `setJointConstraints()`. -/
def setJointConstraints (S : Settings) (bones : List Nat) (heap : List (BoneNode Q M)) :
    Outcome (List (BoneNode Q M)) :=
  (setShoulders S.pi bones heap).bind fun heap =>
  (setElbows S.pi bones heap).bind fun heap =>
  (if S.handJointDOFs = 6 then setHands S.pi bones heap else .ok heap).bind fun heap =>
  (setThighs S.pi bones heap).bind fun heap =>
  setCalves S.pi bones heap

/-! ## The accessors (lines 173-195) -/

/-- The function `getTotalNum()`. -/
def getTotalNum (w : World σ Q M) : Int := w.totalNum

/-- The function `getAverageIter()` in exact arithmetic: the quotient before the casts and
the division are rounded (`getAverageIterF` is the float returned). -/
def getAverageIter (w : World σ Q M) : ℚ :=
  if w.totalNum ≠ 0 then (w.sumIter : ℚ) / (w.totalNum : ℚ) else -1

/-- The function `getAverageReached()` in exact arithmetic (`getAverageReachedF` is the
float returned). -/
def getAverageReached (w : World σ Q M) : ℚ :=
  if w.totalNum ≠ 0 then (w.sumReached : ℚ) / (w.totalNum : ℚ) else -1

/-- The function `getAverageError()` in exact arithmetic (`getAverageErrorF` is the float
returned). -/
def getAverageError (w : World σ Q M) : ℚ :=
  if w.totalNum ≠ 0 then w.sumError / (w.totalNum : ℚ) else -1

/-- The function `getMinError()`. -/
def getMinError (w : World σ Q M) : ℚ := w.minError

/-- The function `getMaxError()`. -/
def getMaxError (w : World σ Q M) : ℚ := w.maxError

/-! ## Well-formed memory, and the run of the loop

The predicates under which the code performs no invalid access and its `while` loops end, and
the sequence of memories the `for` loop passes through. -/

/-- The fields of a bone that the controller only reads. -/
def BoneNode.shape (b : BoneNode Q M) : Int × Nat × Bool × vec3 × List vec2 :=
  (b.nodeIndex, b.parent, b.initialized, b.axes, b.constrain)

/-- Two heaps hold the same bones up to rotation and transforms. -/
def SameShape (h h' : List (BoneNode Q M)) : Prop :=
  h.map BoneNode.shape = h'.map BoneNode.shape

/-- Every flagged axis of the bone has its entry in `constrain`: index 0 for x, 1 for y, 2 for
z, the indices of lines 75-77. -/
def limitsPresent (axes : vec3) (constrain : List vec2) : Bool :=
  decide ((axes.x = 1 → 0 < constrain.length) ∧ (axes.y = 1 → 1 < constrain.length) ∧
    (axes.z = 1 → 2 < constrain.length))

/-- The parent chain from `bone` reaches a bone with `initialized == false` after at most `d`
parent links, through valid pointers and bones whose flagged axes have their limits. -/
def chainEnds (heap : List (BoneNode Q M)) : Nat → Nat → Bool
  | 0, bone =>
    match heap[bone]? with
    | none => false
    | some b => !b.initialized
  | d + 1, bone =>
    match heap[bone]? with
    | none => false
    | some b => !b.initialized || (limitsPresent b.axes b.constrain && chainEnds heap d b.parent)

/-- Every pointer in `bones` and the parent pointer of the bone it points to are valid. -/
def bonesValid (heap : List (BoneNode Q M)) (bones : List Nat) : Bool :=
  bones.all fun bone =>
    match heap[bone]? with
    | none => false
    | some b => (heap[b.parent]?).isSome

/-- The bone with this node index is a hand or a foot: one of the two solver branches of
lines 20-26 is taken. -/
def isLimb (S : Settings) (nodeIndex : Int) : Prop :=
  nodeIndex = S.leftHandBoneIndex ∨ nodeIndex = S.rightHandBoneIndex ∨
    nodeIndex = S.leftFootBoneIndex ∨ nodeIndex = S.rightFootBoneIndex

/-- The statistics fields of the controller. -/
def stats (w : World σ Q M) : Int × Int × Int × ℚ × ℚ × ℚ :=
  (w.totalNum, w.sumIter, w.sumReached, w.sumError, w.minError, w.maxError)

/-- The loop variables on entry to `inverseKinematics`'s loop (lines 14-15). -/
def start (w : World σ Q M) : Iter σ Q M :=
  { deltaTheta := [], error := FLT_MAX, world := w }

/-- The loop variables after `j` passes through the loop body none of which was terminal: each
pass is the evaluation of lines 20-26 followed by the step of lines 39-41. -/
def rounds (E : Env σ Q M) (fuel : Nat) (nodeIndex : Int) (targetBone : Nat)
    (desPosition : vec3) (desRotation : Q) : Nat → Iter σ Q M → Outcome (Iter σ Q M)
  | 0, it => .ok it
  | j + 1, it =>
    let ev := evaluate E nodeIndex targetBone desPosition desRotation it
    (applyStep E.kore fuel ev.deltaTheta targetBone ev.world).bind fun w =>
      rounds E fuel nodeIndex targetBone desPosition desRotation j { ev with world := w }

/-- The error the `j`-th evaluation of the run reports (counting from 0), when the run gets
that far. -/
def errorAt (E : Env σ Q M) (fuel : Nat) (nodeIndex : Int) (targetBone : Nat)
    (desPosition : vec3) (desRotation : Q) (j : Nat) (it : Iter σ Q M) : Outcome ℚ :=
  (rounds E fuel nodeIndex targetBone desPosition desRotation j it).bind fun x =>
    .ok (evaluate E nodeIndex targetBone desPosition desRotation x).error

/-! ## The ordering contract of `deltaTheta`

The consumer of `deltaTheta` as the specification words it, to be compared with
`applyChanges`. -/

/-- The free axes of a bone in the producer's order: x before y before z, among the flagged
ones. -/
def freeAxes (axes : vec3) : List vec3 :=
  (if axes.x = 1 then [⟨1, 0, 0⟩] else []) ++ (if axes.y = 1 then [⟨0, 1, 0⟩] else []) ++
    (if axes.z = 1 then [⟨0, 0, 1⟩] else [])

/-- The rotations `q.rotate(Quaternion(axis, delta))` for a list of pairs `(axis, delta)`, in
list order. -/
def rotateAll (K : KoreMath Q M) (q : Q) (pairs : List (vec3 × ℚ)) : Q :=
  pairs.foldl (fun q p => K.rotate q (K.axisAngle p.1 p.2)) q

/-- The consumer in the producer's order.  The free axes of the chain are enumerated from the
target bone upward through its initialized ancestors, within a bone x before y before z.
`k` is the number of axes enumerated before `bone`: the free axes of `bone` are number `k`,
`k + 1`, ... of the enumeration and are paired, in order, with `deltaTheta[k]`,
`deltaTheta[k + 1]`, ..., as long as entries are left; each pair is one rotation. -/
def applyInOrder (K : KoreMath Q M) (deltaTheta : List ℚ) :
    Nat → Nat → Nat → List (BoneNode Q M) → Outcome (List (BoneNode Q M))
  | 0, _, _, _ => .timeout
  | fuel + 1, k, bone, heap =>
    match heap[bone]? with
    | none => .fault
    | some b =>
      if b.initialized = true ∧ k < deltaTheta.length then
        let pairs := (freeAxes b.axes).zip (deltaTheta.drop k)
        let q := K.normalize (rotateAll K b.quaternion pairs)
        applyInOrder K deltaTheta fuel (k + pairs.length) b.parent
          (heap.set bone
            { b with quaternion := q, local_ := K.mul b.transform (K.transpose (K.matrix q)) })
      else .ok heap

/-! ## Sequences of recorded outcomes and of calls -/

/-- The memory after the terminal steps `(i, error)` of a sequence of calls have been
recorded, each by lines 30-35. -/
def recordAll (errorMax : ℚ) (outcomes : List (Int × ℚ)) (w : World σ Q M) : World σ Q M :=
  outcomes.foldl (fun w o => record errorMax o.1 o.2 w) w

/-- One call of `inverseKinematics`: its three arguments. -/
structure Request (Q : Type) where
  targetBone : Nat
  desPosition : vec3
  desRotation : Q

/-- A sequence of calls of `inverseKinematics` on the same controller, one after the other. -/
def solveAll (E : Env σ Q M) (fuel : Nat) : List (Request Q) → World σ Q M →
    Outcome (World σ Q M)
  | [], w => .ok w
  | r :: rest, w =>
    (inverseKinematics E fuel r.targetBone r.desPosition r.desRotation w).bind fun res =>
      solveAll E fuel rest res.2

/-! ## Propagation order -/

/-- The list names every bone after its parent: the parent of an entry is neither the entry
itself nor a later entry. -/
def parentsFirst (heap : List (BoneNode Q M)) : List Nat → Bool
  | [] => true
  | bone :: rest =>
    (match heap[bone]? with
      | none => false
      | some b => decide (b.parent ≠ bone ∧ b.parent ∉ rest)) && parentsFirst heap rest

/-- The equation `combined(b) == combined(parent(b)) * local(b)` holds for `bone` in `heap`. -/
def propagated (K : KoreMath Q M) (heap : List (BoneNode Q M)) (bone : Nat) : Prop :=
  ∃ b p, heap[bone]? = some b ∧ heap[b.parent]? = some p ∧
    b.combined = K.mul p.combined b.local_

/-! ## The joints configured by `setJointConstraints` -/

/-- The positions in `bones` of the left and right joint of every pair that
`setJointConstraints` configures: shoulders, elbows, hands (when `handJointDOFs == 6`),
thighs, calves. -/
def jointPairs (S : Settings) : List (Nat × Nat) :=
  [(12 - 1, 22 - 1), (13 - 1, 23 - 1)] ++
    (if S.handJointDOFs = 6 then [(14 - 1, 24 - 1)] else []) ++ [(4 - 1, 29 - 1), (5 - 1, 30 - 1)]

/-- The positions in `bones` of all joints that `setJointConstraints` configures. -/
def jointSlots (S : Settings) : List Nat :=
  (jointPairs S).map (fun p => p.1) ++ (jointPairs S).map (fun p => p.2)

/-- The joints to configure are distinct bones, their pointers are valid and their limit lists
are empty. -/
def freshJoints (S : Settings) (bones : List Nat) (heap : List (BoneNode Q M)) : Bool :=
  decide ((jointSlots S).map (fun k => bones[k]?)).Nodup &&
    (jointSlots S).all fun k =>
      match bones[k]? with
      | none => false
      | some node =>
        match heap[node]? with
        | none => false
        | some b => b.constrain.isEmpty

/-- The joints at positions `kl` and `kr` of `bones` both have the free axes `axes`; the left
one has the limits `left`, the right one the limits `right`. -/
def jointPair (heap : List (BoneNode Q M)) (bones : List Nat) (kl kr : Nat) (axes : vec3)
    (left right : List vec2) : Prop :=
  ∃ nl nr bl br, bones[kl]? = some nl ∧ bones[kr]? = some nr ∧ heap[nl]? = some bl ∧
    heap[nr]? = some br ∧ bl.axes = axes ∧ br.axes = axes ∧ bl.constrain = left ∧
    br.constrain = right

/-- The limits `right` mirror the limits `left`: the lists have the same length and the same
first entry, and every later entry of `right` is the entry of `left` multiplied by -1, so
stored as `(-min, -max)` with its first component above its second (for `pi > 0`), and
clamping `-v` against it gives the negation of clamping `v` against the left entry, with the
same flag. -/
def mirroredLimits (pi : ℚ) (left right : List vec2) : Prop :=
  right.length = left.length ∧ right[0]? = left[0]? ∧
    ∀ (j : Nat) (cl : vec2), 1 ≤ j → left[j]? = some cl →
      ∃ cr, right[j]? = some cr ∧ cr = cl.scale (-1) ∧ cr.x = -cl.x ∧ cr.y = -cl.y ∧
        (0 < pi → cr.y < cr.x) ∧
        ∀ v, clampValue cr.x cr.y (-v) =
          ((clampValue cl.x cl.y v).1, -(clampValue cl.x cl.y v).2)

/-! ## The chain walked by `applyJointConstraints` -/

/-- The bones from `bone` upward to, and excluding, the first bone with
`initialized == false`, following at most `d` parent links. -/
def chainBones (heap : List (BoneNode Q M)) : Nat → Nat → List Nat
  | 0, _ => []
  | d + 1, bone =>
    match heap[bone]? with
    | none => []
    | some b => if b.initialized = true then bone :: chainBones heap d b.parent else []

/-- Lines 70-82 for one bone: its Euler angles are clamped, its rotation is rebuilt from them
and normalized, and its local transform is recomputed; nothing but the bone itself is read. -/
def constrained (K : KoreMath Q M) (b : BoneNode Q M) : BoneNode Q M :=
  match clampAxes b.axes b.constrain (K.quatToEuler b.quaternion) with
  | .ok rot =>
    { b with
      quaternion := K.normalize (K.eulerToQuat rot.x rot.y rot.z)
      local_ := K.mul b.transform
        (K.transpose (K.matrix (K.normalize (K.eulerToQuat rot.x rot.y rot.z)))) }
  | .fault => b
  | .timeout => b

/-- The bounds on the integer counters: `0 <= sumReached <= totalNum` and
`0 <= sumIter <= maxSteps * totalNum`. -/
def countersBounded (maxSteps : Int) (w : World σ Q M) : Prop :=
  0 ≤ w.totalNum ∧ 0 ≤ w.sumReached ∧ w.sumReached ≤ w.totalNum ∧ 0 ≤ w.sumIter ∧
    w.sumIter ≤ maxSteps * w.totalNum

/-! ## Machine arithmetic: rounding to `float` and the range of `int`

The accessors and the accumulation of `sumError` as the machine computes them: every `float`
operation is the exact operation followed by rounding to IEEE binary32 (24-bit significand,
round to nearest, ties to even; the exponent range is not modelled, so the rounding is the
machine's for values of magnitude between `2^-126` and `FLT_MAX`).  The `int` counters are
the exact integers as long as they stay at most `INT_MAX`.  `recordF` differs from `record`
in the field `sumError` only, which nothing but `getAverageError` reads. -/

/-- The nearest integer, ties to the even one. -/
def roundEven (x : ℚ) : Int :=
  if x - ⌊x⌋ < 1 / 2 then ⌊x⌋
  else if 1 / 2 < x - ⌊x⌋ then ⌊x⌋ + 1
  else if ⌊x⌋ % 2 = 0 then ⌊x⌋ else ⌊x⌋ + 1

/-- The `float` nearest to `q`: with `e` the exponent of the binade of `|q|`
(`2^e <= |q| < 2^(e+1)`), the significand `|q| / 2^(e-23)` is rounded to an integer. -/
def roundFloat (q : ℚ) : ℚ :=
  if q = 0 then 0
  else if 0 < q then (roundEven (q / 2 ^ (Int.log 2 q - 23)) : ℚ) * 2 ^ (Int.log 2 q - 23)
  else -((roundEven (-q / 2 ^ (Int.log 2 (-q) - 23)) : ℚ) * 2 ^ (Int.log 2 (-q) - 23))

/-- The largest `int`. -/
def INT_MAX : Int := 2147483647

/-- The `int` that two's-complement arithmetic keeps of an exact integer: the value modulo
`2^32` in the range from `-2^31` to `2^31 - 1`.  Signed overflow is undefined in C++; this is
what the addition of line 30 leaves on the usual targets. -/
def wrapInt (n : Int) : Int := (n + 2147483648) % 4294967296 - 2147483648

/-- The `float` that `getAverageIter()` returns: `(float) sumIter / (float) totalNum`, both
casts and the division rounded. -/
def getAverageIterF (w : World σ Q M) : ℚ :=
  if w.totalNum ≠ 0 then roundFloat (roundFloat (w.sumIter : ℚ) / roundFloat (w.totalNum : ℚ))
  else -1

/-- The `float` that `getAverageReached()` returns. -/
def getAverageReachedF (w : World σ Q M) : ℚ :=
  if w.totalNum ≠ 0 then
    roundFloat (roundFloat (w.sumReached : ℚ) / roundFloat (w.totalNum : ℚ))
  else -1

/-- The `float` that `getAverageError()` returns: `sumError / (float) totalNum`. -/
def getAverageErrorF (w : World σ Q M) : ℚ :=
  if w.totalNum ≠ 0 then roundFloat (w.sumError / roundFloat (w.totalNum : ℚ)) else -1

/-- Lines 30-35 with the `float` addition of line 32 rounded: `sumError += error`. -/
def recordF (errorMax : ℚ) (i : Int) (error : ℚ) (w : World σ Q M) : World σ Q M :=
  { record errorMax i error w with sumError := roundFloat (w.sumError + error) }

/-- The memory after a sequence of terminal steps has been recorded, in machine arithmetic. -/
def recordAllF (errorMax : ℚ) (outcomes : List (Int × ℚ)) (w : World σ Q M) : World σ Q M :=
  outcomes.foldl (fun w o => recordF errorMax o.1 o.2 w) w

/-- The sum of a list of floats as line 32 accumulates it: from the left, rounded after
every addition. -/
def floatSum (errors : List ℚ) : ℚ :=
  errors.foldl (fun s e => roundFloat (s + e)) 0

/-- The exact arithmetic mean of the recorded iteration counts. -/
def meanIter (outcomes : List (Int × ℚ)) : ℚ :=
  (((outcomes.map (fun o => o.1)).sum : Int) : ℚ) / (outcomes.length : ℚ)

/-- The exact fraction of the recorded outcomes whose error is below `errorMax`. -/
def meanReached (errorMax : ℚ) (outcomes : List (Int × ℚ)) : ℚ :=
  ((outcomes.filter (fun o => decide (o.2 < errorMax))).length : ℚ) / (outcomes.length : ℚ)

/-- The exact arithmetic mean of the recorded errors. -/
def meanError (outcomes : List (Int × ℚ)) : ℚ :=
  (outcomes.map (fun o => o.2)).sum / (outcomes.length : ℚ)

/-! ## Example data

A skeleton of four bones over a planar rotation model (a rotation is its angle about the x
axis), and limb solvers that count their calls. -/

/-- Rotations in a plane: a quaternion is an angle, a matrix is an angle. -/
def planar : KoreMath ℚ ℚ where
  axisAngle := fun _ a => a
  rotate := fun q r => q + r
  normalize := fun q => q
  matrix := fun q => q
  transpose := fun m => m
  mul := fun a b => a + b
  quatToEuler := fun q => ⟨q, 0, 0⟩
  eulerToQuat := fun x _ _ => x

/-- A solver that returns the delta `[-1/4]` and the error `1`, whatever it is asked. -/
def stuckSolver : Jacobian Nat ℚ ℚ where
  calcDeltaTheta := fun s _ _ _ _ _ => (s + 1, [-1 / 4])
  getError := fun _ => 1

/-- A solver whose error halves with every call: `1/2`, `1/4`, ... -/
def halvingSolver : Jacobian Nat ℚ ℚ where
  calcDeltaTheta := fun s _ _ _ _ _ => (s + 1, [1 / 8])
  getError := fun s => 1 / 2 ^ s

/-- Settings with the given `maxSteps`, `errorMax = 1/10`, hands 14 and 24, feet 6 and 31. -/
def exampleSettings (maxSteps : Int) : Settings where
  maxSteps := maxSteps
  errorMax := 1 / 10
  handJointDOFs := 4
  handIkMode := 0
  footIkMode := 0
  leftHandBoneIndex := 14
  rightHandBoneIndex := 24
  leftFootBoneIndex := 6
  rightFootBoneIndex := 31
  pi := 22 / 7

/-- The example environment with solver `J` for both limbs. -/
def exampleEnv (J : Jacobian Nat ℚ ℚ) (maxSteps : Int) : Env Nat ℚ ℚ where
  settings := exampleSettings maxSteps
  kore := planar
  hand := J
  foot := J

/-- An arm: bone 0 the uninitialized root, bone 1 a shoulder with an x hinge in `[0, 2]`,
bone 2 the left hand (node index 14) without free axes, bone 3 an uninitialized bone. -/
def armHeap : List (BoneNode ℚ ℚ) :=
  [ { nodeIndex := 0, parent := 0, initialized := false, axes := ⟨0, 0, 0⟩, constrain := [],
      quaternion := 0, transform := 0, local_ := 0, combined := 0 },
    { nodeIndex := 12, parent := 0, initialized := true, axes := ⟨1, 0, 0⟩,
      constrain := [⟨0, 2⟩], quaternion := 1, transform := 0, local_ := 1, combined := 1 },
    { nodeIndex := 14, parent := 1, initialized := true, axes := ⟨0, 0, 0⟩, constrain := [],
      quaternion := 0, transform := 0, local_ := 0, combined := 1 },
    { nodeIndex := 15, parent := 2, initialized := false, axes := ⟨0, 0, 0⟩, constrain := [],
      quaternion := 0, transform := 0, local_ := 0, combined := 1 } ]

/-- A controller over `heap` that has recorded no call yet, with fresh solvers. -/
def exampleWorld (heap : List (BoneNode ℚ ℚ)) (bones : List Nat) : World Nat ℚ ℚ where
  heap := heap
  bones := bones
  jacobianHand := 0
  jacobianFoot := 0
  totalNum := 0
  sumIter := 0
  sumReached := 0
  sumError := 0
  minError := FLT_MAX
  maxError := 0
  evals := 0
  steps := 0

/-- Settings with `handJointDOFs == 6`. -/
def sixDofSettings : Settings :=
  { exampleSettings 10 with handJointDOFs := 6 }

/-- A body of thirty initialized bones without limits, all children of the uninitialized
bone 30. -/
def bodyHeap : List (BoneNode ℚ ℚ) :=
  List.replicate 30
      { nodeIndex := 1, parent := 30, initialized := true, axes := ⟨0, 0, 0⟩, constrain := [],
        quaternion := 0, transform := 0, local_ := 0, combined := 0 } ++
    [{ nodeIndex := 0, parent := 30, initialized := false, axes := ⟨0, 0, 0⟩, constrain := [],
       quaternion := 0, transform := 0, local_ := 0, combined := 0 }]

/-! ## Facts about `clampValue` -/

/-- The swap of lines 89-93 makes `clampValue` clamp to `[min lo hi, max lo hi]`. -/
theorem clampValue_eq (lo hi v : ℚ) :
    clampValue lo hi v =
      if v < min lo hi then (true, min lo hi)
      else if max lo hi < v then (true, max lo hi)
      else (false, v) := by
  unfold clampValue
  rcases lt_or_le hi lo with h | h
  · simp only [gt_iff_lt, h, if_true, min_eq_right h.le, max_eq_left h.le]
  · simp only [gt_iff_lt, not_lt.mpr h, if_false, min_eq_left h, max_eq_right h]

/-- The value left by `clampValue` lies between the smaller and the larger bound. -/
theorem clampValue_bounds (lo hi v : ℚ) :
    min lo hi ≤ (clampValue lo hi v).2 ∧ (clampValue lo hi v).2 ≤ max lo hi := by
  have hmm : min lo hi ≤ max lo hi := min_le_max
  rw [clampValue_eq]
  split_ifs with h1 h2
  · exact ⟨le_refl _, hmm⟩
  · exact ⟨hmm, le_refl _⟩
  · exact ⟨not_lt.mp h1, not_lt.mp h2⟩

/-- C6: for every pair of bounds, in either order, and every value, the value left by
`clampValue` lies in `[min lo hi, max lo hi]`, and exchanging the two bounds changes neither
the value left nor the returned flag. -/
theorem clampValue_within (lo hi v : ℚ) :
    min lo hi ≤ (clampValue lo hi v).2 ∧ (clampValue lo hi v).2 ≤ max lo hi ∧
      (clampValue hi lo v).2 = (clampValue lo hi v).2 ∧
      (clampValue hi lo v).1 = (clampValue lo hi v).1 := by
  refine ⟨(clampValue_bounds lo hi v).1, (clampValue_bounds lo hi v).2, ?_, ?_⟩
  · rw [clampValue_eq, clampValue_eq, min_comm hi lo, max_comm hi lo]
  · rw [clampValue_eq, clampValue_eq, min_comm hi lo, max_comm hi lo]

/-- C7: `clampValue` returns `true` exactly when it changed the value, which is exactly when
the value lies outside `[min lo hi, max lo hi]`; when it returns `false` the value is
unchanged.  The hinge with range `[0, 140°]` (`(0, 7 * pi / 9)`, the knee of line 166, free
axis x only) at angle 0 that receives a step of -20° (`-(pi / 9)`) is clamped to 0 and
`clampValue` returns `true`. -/
theorem clampValue_flag (lo hi v pi : ℚ) (hpi : 0 < pi) :
    ((clampValue lo hi v).1 = true ↔ (clampValue lo hi v).2 ≠ v) ∧
      ((clampValue lo hi v).1 = true ↔ ¬ (min lo hi ≤ v ∧ v ≤ max lo hi)) ∧
      ((clampValue lo hi v).1 = false → (clampValue lo hi v).2 = v) ∧
      clampValue 0 (7 * pi / 9) (0 + -(pi / 9)) = (true, 0) ∧
      clampAxes ⟨1, 0, 0⟩ [⟨0, 7 * pi / 9⟩] ⟨0 + -(pi / 9), 0, 0⟩ = .ok ⟨0, 0, 0⟩ := by
  have hmm : min lo hi ≤ max lo hi := min_le_max
  have hinge : clampValue 0 (7 * pi / 9) (0 + -(pi / 9)) = (true, 0) := by
    have h1 : (0 : ℚ) ≤ 7 * pi / 9 := by positivity
    have h2 : 0 + -(pi / 9) < 0 := by linarith
    rw [clampValue_eq, min_eq_left h1, if_pos h2]
  refine ⟨?_, ?_, ?_, hinge, ?_⟩
  · rw [clampValue_eq]
    split_ifs with h1 h2
    · simpa using (ne_of_lt h1).symm
    · simpa using ne_of_lt h2
    · simp
  · rw [clampValue_eq]
    split_ifs with h1 h2
    · exact ⟨fun _ h => absurd h.1 (not_le.mpr h1), fun _ => rfl⟩
    · exact ⟨fun _ h => absurd h.2 (not_le.mpr h2), fun _ => rfl⟩
    · exact ⟨fun h => absurd h (by simp), fun h => absurd ⟨not_lt.mp h1, not_lt.mp h2⟩ h⟩
  · rw [clampValue_eq]
    split_ifs with h1 h2 <;> simp
  · simp only [clampAxes, clampAxis, if_true, List.getElem?_cons_zero, hinge, Outcome.bind]
    norm_num

/-- C7, at the bounds `(0, 1)`, the value `2` and `pi = 22 / 7`. -/
theorem clampValue_flag_witness :
    ((clampValue 0 1 2).1 = true ↔ (clampValue 0 1 2).2 ≠ 2) ∧
      ((clampValue 0 1 2).1 = true ↔ ¬ (min (0 : ℚ) 1 ≤ 2 ∧ (2 : ℚ) ≤ max 0 1)) ∧
      ((clampValue 0 1 2).1 = false → (clampValue 0 1 2).2 = 2) ∧
      clampValue 0 (7 * (22 / 7) / 9) (0 + -((22 / 7) / 9)) = (true, 0) ∧
      clampAxes ⟨1, 0, 0⟩ [⟨0, 7 * (22 / 7) / 9⟩] ⟨0 + -((22 / 7) / 9), 0, 0⟩ = .ok ⟨0, 0, 0⟩ :=
  clampValue_flag 0 1 2 (22 / 7) (by norm_num)

/-- Clamping one axis a second time changes nothing. -/
theorem clampAxis_fixed (flag : ℚ) (constrain : List vec2) (k : Nat) (v v' : ℚ)
    (h : clampAxis flag constrain k v = .ok v') : clampAxis flag constrain k v' = .ok v' := by
  unfold clampAxis at h ⊢
  split_ifs at h ⊢ with hf
  · cases hc : constrain[k]? with
    | none => simp [hc] at h
    | some c =>
      simp only [hc, Outcome.ok.injEq] at h ⊢
      subst h
      have hw := clampValue_bounds c.x c.y v
      rw [clampValue_eq c.x c.y (clampValue c.x c.y v).2, if_neg (not_lt.mpr hw.1),
        if_neg (not_lt.mpr hw.2)]
  · simp only [Outcome.ok.injEq] at h
    subst h
    rfl

/-- C8: clamping twice in succession yields no further change: `clampValue` applied to the
value a first `clampValue` with the same bounds left returns `false` and leaves it unchanged;
hence the Euler angles produced by the clamping step of `applyJointConstraints` for a bone
(lines 75-77) are a fixed point of that step. -/
theorem clampValue_idempotent (lo hi v : ℚ) (axes : vec3) (constrain : List vec2)
    (rot rot' : vec3) (h : clampAxes axes constrain rot = .ok rot') :
    clampValue lo hi (clampValue lo hi v).2 = (false, (clampValue lo hi v).2) ∧
      clampAxes axes constrain rot' = .ok rot' := by
  constructor
  · have hw := clampValue_bounds lo hi v
    rw [clampValue_eq lo hi (clampValue lo hi v).2, if_neg (not_lt.mpr hw.1),
      if_neg (not_lt.mpr hw.2)]
  · unfold clampAxes at h ⊢
    cases hx : clampAxis axes.x constrain 0 rot.x with
    | fault => simp [hx, Outcome.bind] at h
    | timeout => simp [hx, Outcome.bind] at h
    | ok x =>
      cases hy : clampAxis axes.y constrain 1 rot.y with
      | fault => simp [hx, hy, Outcome.bind] at h
      | timeout => simp [hx, hy, Outcome.bind] at h
      | ok y =>
        cases hz : clampAxis axes.z constrain 2 rot.z with
        | fault => simp [hx, hy, hz, Outcome.bind] at h
        | timeout => simp [hx, hy, hz, Outcome.bind] at h
        | ok z =>
          simp only [hx, hy, hz, Outcome.bind, Outcome.ok.injEq] at h
          subst h
          simp only [clampAxis_fixed _ _ _ _ _ hx, clampAxis_fixed _ _ _ _ _ hy,
            clampAxis_fixed _ _ _ _ _ hz, Outcome.bind]

/-- C8, at the shoulder ranges with `pi = 22 / 7` and the angles `(4, -2, 0)`. -/
theorem clampValue_idempotent_witness :
    clampValue (-1) 1 (clampValue (-1) 1 5).2 = (false, (clampValue (-1) 1 5).2) ∧
      clampAxes ⟨1, 1, 1⟩ [⟨-5 * (22 / 7) / 18, 22 / 7⟩, ⟨-(22 / 7) / 2, (22 / 7) / 2⟩,
        ⟨-13 * (22 / 7) / 18, (22 / 7) / 2⟩] ⟨22 / 7, -(11 / 7), 0⟩ = .ok ⟨22 / 7, -(11 / 7), 0⟩ :=
  clampValue_idempotent (-1) 1 5 ⟨1, 1, 1⟩ [⟨-5 * (22 / 7) / 18, 22 / 7⟩,
    ⟨-(22 / 7) / 2, (22 / 7) / 2⟩, ⟨-13 * (22 / 7) / 18, (22 / 7) / 2⟩] ⟨4, -2, 0⟩
    ⟨22 / 7, -(11 / 7), 0⟩ (by
      simp only [clampAxes, clampAxis, Outcome.bind, clampValue_eq]
      norm_num [Outcome.bind])

/-! ## The bone shapes are never written -/

theorem SameShape.refl (h : List (BoneNode Q M)) : SameShape h h := rfl

theorem SameShape.trans {a b c : List (BoneNode Q M)} (hab : SameShape a b)
    (hbc : SameShape b c) : SameShape a c := Eq.trans hab hbc

theorem SameShape.lookup {h h' : List (BoneNode Q M)} (hs : SameShape h h') (p : Nat) :
    h[p]?.map BoneNode.shape = h'[p]?.map BoneNode.shape := by
  have := congrArg (fun l => l[p]?) hs
  simpa [List.getElem?_map] using this

theorem sameShape_set (h : List (BoneNode Q M)) (p : Nat) (b b' : BoneNode Q M)
    (hb : h[p]? = some b) (hsh : b'.shape = b.shape) : SameShape h (h.set p b') := by
  unfold SameShape
  apply List.ext_getElem?
  intro n
  rw [List.map_set, List.getElem?_set]
  split_ifs with h1 h2
  · subst h1
    simp [List.getElem?_map, hb, hsh]
  · subst h1
    simp only [List.length_map, not_lt] at h2
    simp [List.getElem?_map, List.getElem?_eq_none h2]
  · rfl

theorem SameShape.cases {h h' : List (BoneNode Q M)} (hs : SameShape h h') (p : Nat) :
    (h[p]? = none ∧ h'[p]? = none) ∨
      ∃ b b', h[p]? = some b ∧ h'[p]? = some b' ∧ b'.shape = b.shape := by
  have hl := hs.lookup p
  cases h1 : h[p]? with
  | none =>
    cases h2 : h'[p]? with
    | none => exact Or.inl ⟨rfl, rfl⟩
    | some b' => simp [h1, h2] at hl
  | some b =>
    cases h2 : h'[p]? with
    | none => simp [h1, h2] at hl
    | some b' =>
      simp only [h1, h2, Option.map_some', Option.some.injEq] at hl
      exact Or.inr ⟨b, b', rfl, rfl, hl.symm⟩

theorem shape_eq_iff {b b' : BoneNode Q M} :
    b'.shape = b.shape ↔ b'.nodeIndex = b.nodeIndex ∧ b'.parent = b.parent ∧
      b'.initialized = b.initialized ∧ b'.axes = b.axes ∧ b'.constrain = b.constrain := by
  simp [BoneNode.shape, Prod.ext_iff]

theorem chainEnds_congr {h h' : List (BoneNode Q M)} (hs : SameShape h h') :
    ∀ d p, chainEnds h d p = chainEnds h' d p := by
  intro d
  induction d with
  | zero =>
    intro p
    rcases hs.cases p with ⟨h1, h2⟩ | ⟨b, b', h1, h2, hsh⟩
    · simp [chainEnds, h1, h2]
    · rw [shape_eq_iff] at hsh
      simp [chainEnds, h1, h2, hsh.2.2.1]
  | succ d ih =>
    intro p
    rcases hs.cases p with ⟨h1, h2⟩ | ⟨b, b', h1, h2, hsh⟩
    · simp [chainEnds, h1, h2]
    · rw [shape_eq_iff] at hsh
      simp [chainEnds, h1, h2, hsh.2.2.1, hsh.2.1, hsh.2.2.2.1, hsh.2.2.2.2, ih]

theorem bonesValid_congr {h h' : List (BoneNode Q M)} (hs : SameShape h h') (bones : List Nat) :
    bonesValid h bones = bonesValid h' bones := by
  unfold bonesValid
  congr 1
  funext p
  rcases hs.cases p with ⟨h1, h2⟩ | ⟨b, b', h1, h2, hsh⟩
  · simp [h1, h2]
  · rw [shape_eq_iff] at hsh
    simp only [h1, h2, hsh.2.1]
    rcases hs.cases b.parent with ⟨h3, h4⟩ | ⟨c, c', h3, h4, _⟩
    · simp [h3, h4]
    · simp [h3, h4]

/-! ## The `while` loops end on a well-formed chain -/

theorem applyChangesLoop_ok (K : KoreMath Q M) (deltaTheta : List ℚ) :
    ∀ (d fuel i bone : Nat) (heap : List (BoneNode Q M)),
      chainEnds heap d bone = true → d < fuel →
      ∃ h', applyChangesLoop K deltaTheta fuel i bone heap = .ok h' ∧ SameShape heap h' := by
  intro d
  induction d with
  | zero =>
    intro fuel i bone heap hc hf
    obtain ⟨f, rfl⟩ : ∃ f, fuel = f + 1 := ⟨fuel - 1, by omega⟩
    unfold applyChangesLoop
    cases hb : heap[bone]? with
    | none => simp [chainEnds, hb] at hc
    | some b =>
      simp only [chainEnds, hb, Bool.not_eq_true'] at hc
      simp only [hc, Bool.false_eq_true, false_and, if_false]
      exact ⟨heap, rfl, SameShape.refl heap⟩
  | succ d ih =>
    intro fuel i bone heap hc hf
    obtain ⟨f, rfl⟩ : ∃ f, fuel = f + 1 := ⟨fuel - 1, by omega⟩
    unfold applyChangesLoop
    cases hb : heap[bone]? with
    | none => simp [chainEnds, hb] at hc
    | some b =>
      simp only [chainEnds, hb, Bool.or_eq_true, Bool.not_eq_true', Bool.and_eq_true] at hc
      simp only []
      split_ifs with hcond
      · rcases hc with hc | hc
        · rw [hc] at hcond
          exact absurd hcond.1 (by simp)
        · have hsh := sameShape_set heap bone b ({ b with
              quaternion := K.normalize (rotateAxis K deltaTheta b.axes.z ⟨0, 0, 1⟩
                (rotateAxis K deltaTheta b.axes.y ⟨0, 1, 0⟩
                  (rotateAxis K deltaTheta b.axes.x ⟨1, 0, 0⟩ (b.quaternion, i)))).1,
              local_ := K.mul b.transform (K.transpose (K.matrix (K.normalize
                (rotateAxis K deltaTheta b.axes.z ⟨0, 0, 1⟩
                (rotateAxis K deltaTheta b.axes.y ⟨0, 1, 0⟩
                  (rotateAxis K deltaTheta b.axes.x ⟨1, 0, 0⟩ (b.quaternion, i)))).1))) })
            hb rfl
          obtain ⟨h', h1, h2⟩ := ih f _ b.parent _
            ((chainEnds_congr hsh d b.parent).symm.trans hc.2) (by omega)
          exact ⟨h', h1, hsh.trans h2⟩
      · exact ⟨heap, rfl, SameShape.refl heap⟩

theorem clampAxis_ok (flag : ℚ) (constrain : List vec2) (k : Nat) (v : ℚ)
    (h : flag = 1 → k < constrain.length) : ∃ r, clampAxis flag constrain k v = .ok r := by
  unfold clampAxis
  split_ifs with hf
  · rw [List.getElem?_eq_getElem (h hf)]
    exact ⟨_, rfl⟩
  · exact ⟨_, rfl⟩

theorem clampAxes_ok (axes : vec3) (constrain : List vec2) (rot : vec3)
    (h : limitsPresent axes constrain = true) : ∃ r, clampAxes axes constrain rot = .ok r := by
  simp only [limitsPresent, decide_eq_true_eq] at h
  obtain ⟨x, hx⟩ := clampAxis_ok axes.x constrain 0 rot.x h.1
  obtain ⟨y, hy⟩ := clampAxis_ok axes.y constrain 1 rot.y h.2.1
  obtain ⟨z, hz⟩ := clampAxis_ok axes.z constrain 2 rot.z h.2.2
  exact ⟨⟨x, y, z⟩, by simp [clampAxes, hx, hy, hz, Outcome.bind]⟩

theorem applyJointConstraints_ok (K : KoreMath Q M) :
    ∀ (d fuel bone : Nat) (heap : List (BoneNode Q M)),
      chainEnds heap d bone = true → d < fuel →
      ∃ h', applyJointConstraints K fuel bone heap = .ok h' ∧ SameShape heap h' := by
  intro d
  induction d with
  | zero =>
    intro fuel bone heap hc hf
    obtain ⟨f, rfl⟩ : ∃ f, fuel = f + 1 := ⟨fuel - 1, by omega⟩
    unfold applyJointConstraints
    cases hb : heap[bone]? with
    | none => simp [chainEnds, hb] at hc
    | some b =>
      simp only [chainEnds, hb, Bool.not_eq_true'] at hc
      simp only [hc, Bool.false_eq_true, if_false]
      exact ⟨heap, rfl, SameShape.refl heap⟩
  | succ d ih =>
    intro fuel bone heap hc hf
    obtain ⟨f, rfl⟩ : ∃ f, fuel = f + 1 := ⟨fuel - 1, by omega⟩
    unfold applyJointConstraints
    cases hb : heap[bone]? with
    | none => simp [chainEnds, hb] at hc
    | some b =>
      simp only [chainEnds, hb, Bool.or_eq_true, Bool.not_eq_true', Bool.and_eq_true] at hc
      simp only []
      split_ifs with hcond
      · rcases hc with hc | hc
        · rw [hc] at hcond
          exact absurd hcond (by simp)
        · obtain ⟨rot, hrot⟩ := clampAxes_ok b.axes b.constrain (K.quatToEuler b.quaternion) hc.1
          simp only [hrot]
          have hsh := sameShape_set heap bone b ({ b with
              quaternion := K.normalize (K.eulerToQuat rot.x rot.y rot.z),
              local_ := K.mul b.transform (K.transpose (K.matrix
                (K.normalize (K.eulerToQuat rot.x rot.y rot.z)))) }) hb rfl
          obtain ⟨h', h1, h2⟩ := ih f b.parent _
            ((chainEnds_congr hsh d b.parent).symm.trans hc.2) (by omega)
          exact ⟨h', h1, hsh.trans h2⟩
      · exact ⟨heap, rfl, SameShape.refl heap⟩

theorem updateBonePosition_ok (K : KoreMath Q M) (bone : Nat) (heap : List (BoneNode Q M))
    (h : bonesValid heap [bone] = true) :
    ∃ h', updateBonePosition K bone heap = .ok h' ∧ SameShape heap h' := by
  unfold updateBonePosition
  simp only [bonesValid, List.all_cons, List.all_nil, Bool.and_true] at h
  cases hb : heap[bone]? with
  | none => simp [hb] at h
  | some b =>
    simp only [hb] at h
    simp only []
    cases hp : heap[b.parent]? with
    | none => simp [hp] at h
    | some p => exact ⟨_, rfl, sameShape_set _ _ _ _ hb rfl⟩

theorem updateBones_ok (K : KoreMath Q M) :
    ∀ (bones : List Nat) (heap : List (BoneNode Q M)), bonesValid heap bones = true →
      ∃ h', updateBones K bones heap = .ok h' ∧ SameShape heap h' := by
  intro bones
  induction bones with
  | nil => intro heap _; exact ⟨heap, rfl, SameShape.refl heap⟩
  | cons bone rest ih =>
    intro heap hv
    have hv1 : bonesValid heap [bone] = true := by
      simp only [bonesValid, List.all_cons, Bool.and_eq_true] at hv
      simp [bonesValid, hv.1]
    have hv2 : bonesValid heap rest = true := by
      simp only [bonesValid, List.all_cons, Bool.and_eq_true] at hv
      exact hv.2
    obtain ⟨h1, e1, s1⟩ := updateBonePosition_ok K bone heap hv1
    obtain ⟨h2, e2, s2⟩ := ih h1 ((bonesValid_congr s1 rest).symm.trans hv2)
    exact ⟨h2, by simp [updateBones, e1, e2, Outcome.bind], s1.trans s2⟩

/-! ## The loop body -/

theorem applyStep_frame (K : KoreMath Q M) (fuel : Nat) (deltaTheta : List ℚ) (targetBone : Nat)
    (w w' : World σ Q M) (h : applyStep K fuel deltaTheta targetBone w = .ok w') :
    w' = { w with heap := w'.heap, steps := w.steps + 1 } := by
  unfold applyStep at h
  cases h1 : applyChanges K fuel deltaTheta targetBone w.heap with
  | fault => simp [h1, Outcome.bind] at h
  | timeout => simp [h1, Outcome.bind] at h
  | ok a =>
    cases h2 : applyJointConstraints K fuel targetBone a with
    | fault => simp [h1, h2, Outcome.bind] at h
    | timeout => simp [h1, h2, Outcome.bind] at h
    | ok b =>
      cases h3 : updateBones K w.bones b with
      | fault => simp [h1, h2, h3, Outcome.bind] at h
      | timeout => simp [h1, h2, h3, Outcome.bind] at h
      | ok c =>
        simp only [h1, h2, h3, Outcome.bind, Outcome.ok.injEq] at h
        subst h
        rfl

theorem applyStep_ok (K : KoreMath Q M) (fuel d : Nat) (deltaTheta : List ℚ) (targetBone : Nat)
    (w : World σ Q M) (hc : chainEnds w.heap d targetBone = true)
    (hv : bonesValid w.heap w.bones = true) (hf : d < fuel) :
    ∃ w', applyStep K fuel deltaTheta targetBone w = .ok w' ∧ SameShape w.heap w'.heap := by
  obtain ⟨h1, e1, s1⟩ := applyChangesLoop_ok K deltaTheta d fuel 0 targetBone w.heap hc hf
  obtain ⟨h2, e2, s2⟩ := applyJointConstraints_ok K d fuel targetBone h1
    ((chainEnds_congr s1 d targetBone).symm.trans hc) hf
  obtain ⟨h3, e3, s3⟩ := updateBones_ok K w.bones h2
    ((bonesValid_congr (s1.trans s2) w.bones).symm.trans hv)
  exact ⟨{ w with heap := h3, steps := w.steps + 1 },
    by simp [applyStep, applyChanges, e1, e2, e3, Outcome.bind], (s1.trans s2).trans s3⟩

theorem evaluate_frame (E : Env σ Q M) (nodeIndex : Int) (targetBone : Nat) (desPosition : vec3)
    (desRotation : Q) (it : Iter σ Q M) :
    (evaluate E nodeIndex targetBone desPosition desRotation it).world.heap = it.world.heap ∧
      (evaluate E nodeIndex targetBone desPosition desRotation it).world.bones = it.world.bones ∧
      stats (evaluate E nodeIndex targetBone desPosition desRotation it).world = stats it.world ∧
      (evaluate E nodeIndex targetBone desPosition desRotation it).world.steps = it.world.steps := by
  unfold evaluate
  split_ifs <;> exact ⟨rfl, rfl, rfl, rfl⟩

theorem evaluate_evals (E : Env σ Q M) (nodeIndex : Int) (targetBone : Nat) (desPosition : vec3)
    (desRotation : Q) (it : Iter σ Q M) :
    (evaluate E nodeIndex targetBone desPosition desRotation it).world.evals ≤
        it.world.evals + 1 ∧
      (isLimb E.settings nodeIndex →
        (evaluate E nodeIndex targetBone desPosition desRotation it).world.evals =
          it.world.evals + 1) := by
  unfold evaluate isLimb
  split_ifs with h1 h2
  · exact ⟨le_refl _, fun _ => rfl⟩
  · exact ⟨le_refl _, fun _ => rfl⟩
  · refine ⟨Nat.le_succ _, fun h => ?_⟩
    rcases h with h | h | h | h
    · exact absurd (Or.inl h) h1
    · exact absurd (Or.inr h) h1
    · exact absurd (Or.inl h) h2
    · exact absurd (Or.inr h) h2

theorem rounds_frame (E : Env σ Q M) (fuel : Nat) (nodeIndex : Int) (targetBone : Nat)
    (desPosition : vec3) (desRotation : Q) :
    ∀ (k : Nat) (it x : Iter σ Q M),
      rounds E fuel nodeIndex targetBone desPosition desRotation k it = .ok x →
      x.world.bones = it.world.bones ∧ stats x.world = stats it.world ∧
        x.world.steps = it.world.steps + k ∧ x.world.evals ≤ it.world.evals + k ∧
        (isLimb E.settings nodeIndex → x.world.evals = it.world.evals + k) := by
  intro k
  induction k with
  | zero =>
    intro it x h
    simp only [rounds, Outcome.ok.injEq] at h
    subst h
    exact ⟨rfl, rfl, rfl, le_refl _, fun _ => rfl⟩
  | succ k ih =>
    intro it x h
    simp only [rounds] at h
    cases hs : applyStep E.kore fuel
        (evaluate E nodeIndex targetBone desPosition desRotation it).deltaTheta targetBone
        (evaluate E nodeIndex targetBone desPosition desRotation it).world with
    | fault => simp [hs, Outcome.bind] at h
    | timeout => simp [hs, Outcome.bind] at h
    | ok w =>
      simp only [hs, Outcome.bind] at h
      obtain ⟨b1, b2, b3, b4, b5⟩ := ih _ x h
      have hfr := applyStep_frame _ _ _ _ _ _ hs
      obtain ⟨e1, e2, e3, e4⟩ := evaluate_frame E nodeIndex targetBone desPosition desRotation it
      obtain ⟨e5, e6⟩ := evaluate_evals E nodeIndex targetBone desPosition desRotation it
      simp only [] at b1 b2 b3 b4 b5
      have hw1 : w.bones = it.world.bones := by rw [hfr]; exact e2
      have hw2 : stats w = stats it.world := by rw [hfr]; exact e3
      have hw3 : w.steps = it.world.steps + 1 := by rw [hfr]; simp [e4]
      have hw4 : w.evals =
          (evaluate E nodeIndex targetBone desPosition desRotation it).world.evals := by
        rw [hfr]
      refine ⟨b1.trans hw1, b2.trans hw2, by omega, by omega, fun hl => ?_⟩
      have := b5 hl
      have := e6 hl
      omega

theorem SameShape.nodeIndex {h h' : List (BoneNode Q M)} (hs : SameShape h h') {p : Nat}
    {idx : Int} (ht : ∃ tb, h[p]? = some tb ∧ tb.nodeIndex = idx) :
    ∃ tb, h'[p]? = some tb ∧ tb.nodeIndex = idx := by
  obtain ⟨tb, h1, h2⟩ := ht
  rcases hs.cases p with ⟨h3, _⟩ | ⟨b, b', h3, h4, hsh⟩
  · rw [h1] at h3
    exact absurd h3 (by simp)
  · rw [h1, Option.some.injEq] at h3
    subst h3
    exact ⟨b', h4, (shape_eq_iff.mp hsh).1.trans h2⟩

/-! ## The `for` loop -/

/-- The `for` loop, entered at counter `i` with `m` steps left before `maxSteps`, runs `k ≤ m`
non-terminal rounds, the first `k` for which the error of the evaluation is below `errorMax`
(or `m`), and records the outcome of that evaluation. -/
theorem ikLoop_spec (E : Env σ Q M) (fuel d targetBone : Nat) (desPosition : vec3)
    (desRotation : Q) (idx : Int) (hf : d < fuel) :
    ∀ (m n : Nat) (i : Int) (it : Iter σ Q M), m < n → i + m = E.settings.maxSteps →
      (∃ tb, it.world.heap[targetBone]? = some tb ∧ tb.nodeIndex = idx) →
      chainEnds it.world.heap d targetBone = true →
      bonesValid it.world.heap it.world.bones = true →
      ∃ k x, k ≤ m ∧ rounds E fuel idx targetBone desPosition desRotation k it = .ok x ∧
        (∀ j, j < k → ∃ y, rounds E fuel idx targetBone desPosition desRotation j it = .ok y ∧
          ¬ (evaluate E idx targetBone desPosition desRotation y).error < E.settings.errorMax) ∧
        ((evaluate E idx targetBone desPosition desRotation x).error < E.settings.errorMax ∨
          k = m) ∧
        ikLoop E fuel targetBone desPosition desRotation n i it =
          .ok (decide ((evaluate E idx targetBone desPosition desRotation x).error <
                E.settings.errorMax),
            record E.settings.errorMax (i + k)
              (evaluate E idx targetBone desPosition desRotation x).error
              (evaluate E idx targetBone desPosition desRotation x).world) := by
  intro m
  induction m with
  | zero =>
    intro n i it hn hi ht hc hv
    obtain ⟨n', rfl⟩ : ∃ n', n = n' + 1 := ⟨n - 1, by omega⟩
    obtain ⟨tb, ht1, ht2⟩ := ht
    have hi' : i = E.settings.maxSteps := by simpa using hi
    refine ⟨0, it, le_refl _, rfl, fun j hj => absurd hj (Nat.not_lt_zero j), Or.inr rfl, ?_⟩
    unfold ikLoop
    simp only [hi', le_refl, if_true, ht1, ht2, or_true, Nat.cast_zero, add_zero]
  | succ m ih =>
    intro n i it hn hi ht hc hv
    obtain ⟨n', rfl⟩ : ∃ n', n = n' + 1 := ⟨n - 1, by omega⟩
    obtain ⟨tb, ht1, ht2⟩ := ht
    have hlt : i < E.settings.maxSteps := by
      rw [← hi]; push_cast; omega
    by_cases herr : (evaluate E idx targetBone desPosition desRotation it).error <
        E.settings.errorMax
    · refine ⟨0, it, Nat.zero_le _, rfl, fun j hj => absurd hj (Nat.not_lt_zero j),
        Or.inl herr, ?_⟩
      unfold ikLoop
      simp only [le_of_lt hlt, if_true, ht1, ht2, herr, true_or, Nat.cast_zero, add_zero]
    · obtain ⟨e1, e2, _, _⟩ := evaluate_frame E idx targetBone desPosition desRotation it
      obtain ⟨w, hw, hsh⟩ := applyStep_ok E.kore fuel d
        (evaluate E idx targetBone desPosition desRotation it).deltaTheta targetBone
        (evaluate E idx targetBone desPosition desRotation it).world
        (by rw [e1]; exact hc) (by rw [e1, e2]; exact hv) hf
      have hwb : w.bones = it.world.bones := by
        rw [applyStep_frame _ _ _ _ _ _ hw]; exact e2
      rw [e1] at hsh
      obtain ⟨k, x, hk, hr, hall, hstop, hloop⟩ := ih n' (i + 1)
        { evaluate E idx targetBone desPosition desRotation it with world := w }
        (by omega) (by rw [← hi]; push_cast; ring)
        (hsh.nodeIndex ⟨tb, ht1, ht2⟩)
        ((chainEnds_congr hsh d targetBone).symm.trans hc)
        (by
          show bonesValid w.heap w.bones = true
          rw [hwb]
          exact (bonesValid_congr hsh it.world.bones).symm.trans hv)
      have hstep : ∀ j, rounds E fuel idx targetBone desPosition desRotation (j + 1) it =
          rounds E fuel idx targetBone desPosition desRotation j
            { evaluate E idx targetBone desPosition desRotation it with world := w } := by
        intro j
        simp only [rounds, hw, Outcome.bind]
      refine ⟨k + 1, x, by omega, (hstep k).trans hr, ?_, ?_, ?_⟩
      · intro j hj
        cases j with
        | zero => exact ⟨it, rfl, herr⟩
        | succ j =>
          obtain ⟨y, hy1, hy2⟩ := hall j (by omega)
          exact ⟨y, (hstep j).trans hy1, hy2⟩
      · rcases hstop with h | h
        · exact Or.inl h
        · exact Or.inr (by omega)
      · unfold ikLoop
        simp only [le_of_lt hlt, if_true, ht1, ht2, herr, ne_of_lt hlt, or_self, if_false, hw]
        rw [hloop]
        have : i + 1 + (k : Int) = i + ((k + 1 : Nat) : Int) := by push_cast; ring
        rw [this]

theorem errorAt_of_rounds (E : Env σ Q M) (fuel : Nat) (idx : Int) (targetBone : Nat)
    (desPosition : vec3) (desRotation : Q) (j : Nat) (it x : Iter σ Q M)
    (h : rounds E fuel idx targetBone desPosition desRotation j it = .ok x) :
    errorAt E fuel idx targetBone desPosition desRotation j it =
      .ok (evaluate E idx targetBone desPosition desRotation x).error := by
  simp only [errorAt, h, Outcome.bind]

/-- An accepted call of `inverseKinematics` on well-formed memory: the number `k` of
non-terminal rounds, the loop variables `x` after them, and the recorded result. -/
theorem inverseKinematics_run (E : Env σ Q M) (fuel d targetBone : Nat) (desPosition : vec3)
    (desRotation : Q) (w : World σ Q M) (tb : BoneNode Q M)
    (hb : w.heap[targetBone]? = some tb) (hinit : tb.initialized = true)
    (hc : chainEnds w.heap d targetBone = true) (hv : bonesValid w.heap w.bones = true)
    (hs : 0 ≤ E.settings.maxSteps) (hf : d < fuel) (hn : E.settings.maxSteps < fuel) :
    ∃ (k : Nat) (x : Iter σ Q M), (k : Int) ≤ E.settings.maxSteps ∧
      rounds E fuel tb.nodeIndex targetBone desPosition desRotation k (start w) = .ok x ∧
      (∀ j : Nat, j < k →
        ∃ e, errorAt E fuel tb.nodeIndex targetBone desPosition desRotation j (start w) = .ok e ∧
          ¬ e < E.settings.errorMax) ∧
      ((evaluate E tb.nodeIndex targetBone desPosition desRotation x).error <
          E.settings.errorMax ∨ (k : Int) = E.settings.maxSteps) ∧
      inverseKinematics E fuel targetBone desPosition desRotation w =
        .ok (decide ((evaluate E tb.nodeIndex targetBone desPosition desRotation x).error <
              E.settings.errorMax),
          record E.settings.errorMax k
            (evaluate E tb.nodeIndex targetBone desPosition desRotation x).error
            (evaluate E tb.nodeIndex targetBone desPosition desRotation x).world) := by
  obtain ⟨m, hm⟩ : ∃ m : Nat, (m : Int) = E.settings.maxSteps :=
    ⟨E.settings.maxSteps.toNat, Int.toNat_of_nonneg hs⟩
  obtain ⟨k, x, hk, hr, hall, hstop, hloop⟩ :=
    ikLoop_spec E fuel d targetBone desPosition desRotation tb.nodeIndex hf m fuel 0 (start w)
      (by omega) (by omega) ⟨tb, hb, rfl⟩ hc hv
  refine ⟨k, x, by omega, hr, ?_, ?_, ?_⟩
  · intro j hj
    obtain ⟨y, hy1, hy2⟩ := hall j hj
    exact ⟨_, errorAt_of_rounds E fuel _ targetBone desPosition desRotation j _ y hy1, hy2⟩
  · rcases hstop with h | h
    · exact Or.inl h
    · exact Or.inr (by omega)
  · unfold inverseKinematics
    simp only [hb, hinit, Bool.true_eq_false, if_false]
    rw [zero_add] at hloop
    exact hloop

/-- C1: a request whose target bone has `initialized == false` returns `false` and leaves
the whole memory as it was: the rotation, local and combined transform of every bone, the six
statistics fields, the solver objects and the count of solver evaluations. -/
theorem inverseKinematics_uninitialized (E : Env σ Q M) (fuel targetBone : Nat)
    (desPosition : vec3) (desRotation : Q) (w : World σ Q M) (tb : BoneNode Q M)
    (hb : w.heap[targetBone]? = some tb) (hinit : tb.initialized = false) :
    inverseKinematics E fuel targetBone desPosition desRotation w = .ok (false, w) := by
  unfold inverseKinematics
  simp only [hb, hinit, if_true]

/-- C1, for the uninitialized bone 3 of the example arm. -/
theorem inverseKinematics_uninitialized_witness :
    inverseKinematics (exampleEnv halvingSolver 10) 20 3 ⟨0, 0, 0⟩ 0
        (exampleWorld armHeap [1, 2]) = .ok (false, exampleWorld armHeap [1, 2]) :=
  inverseKinematics_uninitialized (exampleEnv halvingSolver 10) 20 3 ⟨0, 0, 0⟩ 0
    (exampleWorld armHeap [1, 2])
    { nodeIndex := 15, parent := 2, initialized := false, axes := ⟨0, 0, 0⟩, constrain := [],
      quaternion := 0, transform := 0, local_ := 0, combined := 1 } rfl rfl

/-- C2: on well-formed memory (valid pointers, a parent chain that reaches an uninitialized
bone, limits present for the flagged axes) and with `maxSteps >= 0`, whatever the limb
solvers return, one call of `inverseKinematics` returns, and it has performed at most
`maxSteps + 1` solver evaluations. -/
theorem inverseKinematics_evaluations_bounded (E : Env σ Q M) (fuel d targetBone : Nat)
    (desPosition : vec3) (desRotation : Q) (w : World σ Q M) (tb : BoneNode Q M)
    (hb : w.heap[targetBone]? = some tb)
    (hc : chainEnds w.heap d targetBone = true) (hv : bonesValid w.heap w.bones = true)
    (hs : 0 ≤ E.settings.maxSteps) (hf : d < fuel) (hn : E.settings.maxSteps < fuel) :
    ∃ r w', inverseKinematics E fuel targetBone desPosition desRotation w = .ok (r, w') ∧
      (w'.evals : Int) ≤ w.evals + (E.settings.maxSteps + 1) := by
  cases hinit : tb.initialized with
  | false =>
    refine ⟨false, w, ?_, by omega⟩
    unfold inverseKinematics
    simp only [hb, hinit, if_true]
  | true =>
    obtain ⟨k, x, hk, hr, _, _, hrun⟩ :=
      inverseKinematics_run E fuel d targetBone desPosition desRotation w tb hb hinit hc hv hs
        hf hn
    obtain ⟨_, _, _, hx, _⟩ := rounds_frame E fuel _ targetBone desPosition desRotation k _ x hr
    obtain ⟨he, _⟩ := evaluate_evals E tb.nodeIndex targetBone desPosition desRotation x
    refine ⟨_, _, hrun, ?_⟩
    show ((evaluate E tb.nodeIndex targetBone desPosition desRotation x).world.evals : Int) ≤ _
    have hx' : x.world.evals ≤ w.evals + k := hx
    omega

/-- C2, for the left hand of the example arm with `maxSteps = 10`. -/
theorem inverseKinematics_evaluations_bounded_witness :
    ∃ r w', inverseKinematics (exampleEnv halvingSolver 10) 20 2 ⟨0, 0, 0⟩ 0
        (exampleWorld armHeap [1, 2]) = .ok (r, w') ∧
      (w'.evals : Int) ≤ (exampleWorld armHeap [1, 2]).evals +
        ((exampleEnv halvingSolver 10).settings.maxSteps + 1) :=
  inverseKinematics_evaluations_bounded (exampleEnv halvingSolver 10) 20 2 2 ⟨0, 0, 0⟩ 0
    (exampleWorld armHeap [1, 2]) _ rfl (by decide) (by decide) (by decide) (by decide)
    (by decide)

/-- A run in which no evaluation reports an error below `errorMax` goes through all
`maxSteps` rounds. -/
theorem inverseKinematics_exhausted (E : Env σ Q M) (fuel d targetBone : Nat)
    (desPosition : vec3) (desRotation : Q) (w : World σ Q M) (tb : BoneNode Q M)
    (hb : w.heap[targetBone]? = some tb) (hinit : tb.initialized = true)
    (hc : chainEnds w.heap d targetBone = true) (hv : bonesValid w.heap w.bones = true)
    (hs : 0 ≤ E.settings.maxSteps) (hf : d < fuel) (hn : E.settings.maxSteps < fuel)
    (hnever : ∀ (j : Nat) (e : ℚ), (j : Int) ≤ E.settings.maxSteps →
      errorAt E fuel tb.nodeIndex targetBone desPosition desRotation j (start w) = .ok e →
      ¬ e < E.settings.errorMax) :
    ∃ x : Iter σ Q M,
      rounds E fuel tb.nodeIndex targetBone desPosition desRotation E.settings.maxSteps.toNat
        (start w) = .ok x ∧
      inverseKinematics E fuel targetBone desPosition desRotation w =
        .ok (false, record E.settings.errorMax E.settings.maxSteps
          (evaluate E tb.nodeIndex targetBone desPosition desRotation x).error
          (evaluate E tb.nodeIndex targetBone desPosition desRotation x).world) := by
  obtain ⟨k, x, hk, hr, _, hstop, hrun⟩ :=
    inverseKinematics_run E fuel d targetBone desPosition desRotation w tb hb hinit hc hv hs
      hf hn
  have hne := hnever k _ hk
    (errorAt_of_rounds E fuel _ targetBone desPosition desRotation k _ x hr)
  have hk' : (k : Int) = E.settings.maxSteps := by
    rcases hstop with h | h
    · exact absurd h hne
    · exact h
  have hk'' : E.settings.maxSteps.toNat = k := by omega
  refine ⟨x, by rw [hk'']; exact hr, ?_⟩
  rw [hrun, hk']
  simp only [hne, decide_False]

/-- C10: every accepted call (target initialized, `maxSteps >= 0`, well-formed memory) records
exactly one outcome: with `k` the terminal step (the number of steps executed before it) and
`e` the error of the last evaluation, `totalNum` grows by 1, `sumIter` by `k`, `sumReached` by
1 if `e < errorMax` and by 0 otherwise, `sumError` by `e`, `minError` becomes
`min minError e` and `maxError` becomes `max maxError e`; before the terminal step no
statistics field has changed, neither by a step nor by an evaluation. -/
theorem inverseKinematics_records_once (E : Env σ Q M) (fuel d targetBone : Nat)
    (desPosition : vec3) (desRotation : Q) (w : World σ Q M) (tb : BoneNode Q M)
    (hb : w.heap[targetBone]? = some tb) (hinit : tb.initialized = true)
    (hc : chainEnds w.heap d targetBone = true) (hv : bonesValid w.heap w.bones = true)
    (hs : 0 ≤ E.settings.maxSteps) (hf : d < fuel) (hn : E.settings.maxSteps < fuel) :
    ∃ (k : Nat) (e : ℚ) (w' : World σ Q M), (k : Int) ≤ E.settings.maxSteps ∧
      errorAt E fuel tb.nodeIndex targetBone desPosition desRotation k (start w) = .ok e ∧
      inverseKinematics E fuel targetBone desPosition desRotation w =
        .ok (decide (e < E.settings.errorMax), w') ∧
      w'.steps = w.steps + k ∧
      w'.totalNum = w.totalNum + 1 ∧
      w'.sumIter = w.sumIter + k ∧
      w'.sumReached = w.sumReached + (if e < E.settings.errorMax then 1 else 0) ∧
      w'.sumError = w.sumError + e ∧
      w'.minError = min w.minError e ∧
      w'.maxError = max w.maxError e ∧
      ∀ (j : Nat) (y : Iter σ Q M),
        rounds E fuel tb.nodeIndex targetBone desPosition desRotation j (start w) = .ok y →
        stats y.world = stats w ∧
          stats (evaluate E tb.nodeIndex targetBone desPosition desRotation y).world =
            stats w := by
  obtain ⟨k, x, hk, hr, _, _, hrun⟩ :=
    inverseKinematics_run E fuel d targetBone desPosition desRotation w tb hb hinit hc hv hs
      hf hn
  obtain ⟨_, hst, hsteps, _, _⟩ :=
    rounds_frame E fuel _ targetBone desPosition desRotation k _ x hr
  obtain ⟨_, _, hes, hev⟩ := evaluate_frame E tb.nodeIndex targetBone desPosition desRotation x
  have h1 := hes.trans hst
  simp only [stats, start, Prod.mk.injEq] at h1
  obtain ⟨a1, a2, a3, a4, a5, a6⟩ := h1
  refine ⟨k, _, _, hk, errorAt_of_rounds E fuel _ targetBone desPosition desRotation k _ x hr,
    hrun, ?_, ?_, ?_, ?_, ?_, ?_, ?_, ?_⟩
  · show (evaluate E tb.nodeIndex targetBone desPosition desRotation x).world.steps = _
    rw [hev, hsteps]
    rfl
  · simp only [record, a1]
  · simp only [record, a2]
  · simp only [record, a3]
  · simp only [record, a4]
  · simp only [record, a5, min_def]
    split_ifs with c1 c2 c2
    · exact absurd c1 (not_lt.mpr c2)
    · rfl
    · rfl
    · exact le_antisymm (not_lt.mp c1) (not_le.mp c2).le
  · simp only [record, a6, max_def, gt_iff_lt]
    split_ifs with c1 c2 c2
    · rfl
    · exact absurd c1 (not_lt.mpr (not_le.mp c2).le)
    · exact le_antisymm c2 (not_lt.mp c1)
    · rfl
  · intro j y hy
    obtain ⟨_, hy1, _⟩ := rounds_frame E fuel _ targetBone desPosition desRotation j _ y hy
    obtain ⟨_, _, hy2, _⟩ :=
      evaluate_frame E tb.nodeIndex targetBone desPosition desRotation y
    exact ⟨hy1, hy2.trans hy1⟩

/-- C10, for the left hand of the example arm and the halving solver. -/
theorem inverseKinematics_records_once_witness :
    ∃ (k : Nat) (e : ℚ) (w' : World Nat ℚ ℚ),
      (k : Int) ≤ (exampleEnv halvingSolver 10).settings.maxSteps ∧
      errorAt (exampleEnv halvingSolver 10) 20 14 2 ⟨0, 0, 0⟩ 0 k
        (start (exampleWorld armHeap [1, 2])) = .ok e ∧
      inverseKinematics (exampleEnv halvingSolver 10) 20 2 ⟨0, 0, 0⟩ 0
          (exampleWorld armHeap [1, 2]) =
        .ok (decide (e < (exampleEnv halvingSolver 10).settings.errorMax), w') ∧
      w'.steps = (exampleWorld armHeap [1, 2]).steps + k ∧
      w'.totalNum = (exampleWorld armHeap [1, 2]).totalNum + 1 ∧
      w'.sumIter = (exampleWorld armHeap [1, 2]).sumIter + k ∧
      w'.sumReached = (exampleWorld armHeap [1, 2]).sumReached +
        (if e < (exampleEnv halvingSolver 10).settings.errorMax then 1 else 0) ∧
      w'.sumError = (exampleWorld armHeap [1, 2]).sumError + e ∧
      w'.minError = min (exampleWorld armHeap [1, 2]).minError e ∧
      w'.maxError = max (exampleWorld armHeap [1, 2]).maxError e ∧
      ∀ (j : Nat) (y : Iter Nat ℚ ℚ),
        rounds (exampleEnv halvingSolver 10) 20 14 2 ⟨0, 0, 0⟩ 0 j
          (start (exampleWorld armHeap [1, 2])) = .ok y →
        stats y.world = stats (exampleWorld armHeap [1, 2]) ∧
          stats (evaluate (exampleEnv halvingSolver 10) 14 2 ⟨0, 0, 0⟩ 0 y).world =
            stats (exampleWorld armHeap [1, 2]) :=
  inverseKinematics_records_once (exampleEnv halvingSolver 10) 20 2 2 ⟨0, 0, 0⟩ 0
    (exampleWorld armHeap [1, 2])
    { nodeIndex := 14, parent := 1, initialized := true, axes := ⟨0, 0, 0⟩, constrain := [],
      quaternion := 0, transform := 0, local_ := 0, combined := 1 }
    rfl rfl (by decide) (by decide) (by decide) (by decide) (by decide)

/-! ## `applyChanges` consumes `deltaTheta` in order -/

theorem zip_append_drop {α β : Type} :
    ∀ (l1 l2 : List α) (ds : List β),
      (l1 ++ l2).zip ds = l1.zip ds ++ l2.zip (ds.drop (l1.zip ds).length) := by
  intro l1
  induction l1 with
  | nil => intro l2 ds; simp
  | cons a l1 ih =>
    intro l2 ds
    cases ds with
    | nil => simp
    | cons d ds => simp [ih l2 ds]

theorem rotateAxis_eq (K : KoreMath Q M) (deltaTheta : List ℚ) (flag : ℚ) (axis : vec3) (q : Q)
    (i : Nat) :
    rotateAxis K deltaTheta flag axis (q, i) =
      (rotateAll K q ((if flag = 1 then [axis] else []).zip (deltaTheta.drop i)),
        i + ((if flag = 1 then [axis] else []).zip (deltaTheta.drop i)).length) := by
  unfold rotateAxis rotateAll
  by_cases hf : flag = 1
  · by_cases hi : i < deltaTheta.length
    · simp only [hf, if_true, hi, dif_pos, List.drop_eq_getElem_cons hi, List.zip_cons_cons,
        List.zip_nil_left, List.foldl_cons, List.foldl_nil, List.length_singleton,
        List.get_eq_getElem]
    · simp only [hf, if_true, hi, dif_neg, not_false_eq_true,
        List.drop_eq_nil_of_le (not_lt.mp hi), List.zip_nil_right, List.foldl_nil,
        List.length_nil, add_zero]
  · simp only [hf, if_false, List.zip_nil_left, List.foldl_nil, List.length_nil, add_zero]

theorem rotateAxis_three (K : KoreMath Q M) (deltaTheta : List ℚ) (axes : vec3) (q : Q)
    (i : Nat) :
    rotateAxis K deltaTheta axes.z ⟨0, 0, 1⟩
        (rotateAxis K deltaTheta axes.y ⟨0, 1, 0⟩
          (rotateAxis K deltaTheta axes.x ⟨1, 0, 0⟩ (q, i))) =
      (rotateAll K q ((freeAxes axes).zip (deltaTheta.drop i)),
        i + ((freeAxes axes).zip (deltaTheta.drop i)).length) := by
  rw [rotateAxis_eq, rotateAxis_eq, rotateAxis_eq]
  unfold freeAxes
  rw [zip_append_drop, zip_append_drop]
  simp only [rotateAll, List.foldl_append, List.length_append, List.drop_drop, add_assoc]

theorem applyChangesLoop_eq (K : KoreMath Q M) (deltaTheta : List ℚ) :
    ∀ (fuel i bone : Nat) (heap : List (BoneNode Q M)),
      applyChangesLoop K deltaTheta fuel i bone heap =
        applyInOrder K deltaTheta fuel i bone heap := by
  intro fuel
  induction fuel with
  | zero => intro i bone heap; rfl
  | succ fuel ih =>
    intro i bone heap
    unfold applyChangesLoop applyInOrder
    cases hb : heap[bone]? with
    | none => rfl
    | some b =>
      simp only []
      split_ifs with hcond
      · rw [rotateAxis_three, ih]
      · rfl

/-- C9: `applyChanges` consumes `deltaTheta` in exactly the producer's order.  It equals the
consumer `applyInOrder`, which walks from the target bone upward through its initialized
ancestors and, at a bone before which `k` free axes were enumerated, pairs the flagged axes of
the bone, x before y before z, with `deltaTheta[k]`, `deltaTheta[k + 1]`, ...: the free axis
number `t` of the bone is rotated by the entry `k + t` and by no other, and the next bone
starts after the entries that were used. -/
theorem applyChanges_in_order (K : KoreMath Q M) (fuel : Nat) (deltaTheta : List ℚ)
    (targetBone : Nat) (heap : List (BoneNode Q M)) :
    applyChanges K fuel deltaTheta targetBone heap =
        applyInOrder K deltaTheta fuel 0 targetBone heap ∧
      (∀ (i bone : Nat) (h : List (BoneNode Q M)),
        applyChangesLoop K deltaTheta fuel i bone h = applyInOrder K deltaTheta fuel i bone h) ∧
      (∀ (axes : vec3) (k t : Nat) (p : vec3 × ℚ),
        ((freeAxes axes).zip (deltaTheta.drop k))[t]? = some p ↔
          (freeAxes axes)[t]? = some p.1 ∧ deltaTheta[k + t]? = some p.2) ∧
      (∀ (axes : vec3) (k : Nat),
        ((freeAxes axes).zip (deltaTheta.drop k)).length =
          min (freeAxes axes).length (deltaTheta.length - k)) := by
  refine ⟨applyChangesLoop_eq K deltaTheta fuel 0 targetBone heap,
    fun i bone h => applyChangesLoop_eq K deltaTheta fuel i bone h, ?_, ?_⟩
  · intro axes k t p
    rw [List.getElem?_zip_eq_some, List.getElem?_drop]
  · intro axes k
    rw [List.length_zip, List.length_drop]

/-! ## The statistics after a sequence of recorded outcomes -/

theorem recordAll_extremes (errorMax : ℚ) :
    ∀ (outcomes : List (Int × ℚ)) (w : World σ Q M),
      (recordAll errorMax outcomes w).minError =
          (outcomes.map (fun o => o.2)).foldl min w.minError ∧
        (recordAll errorMax outcomes w).maxError =
          (outcomes.map (fun o => o.2)).foldl max w.maxError := by
  intro outcomes
  induction outcomes with
  | nil => intro w; exact ⟨rfl, rfl⟩
  | cons o rest ih =>
    intro w
    obtain ⟨h1, h2⟩ := ih (record errorMax o.1 o.2 w)
    have hstep : recordAll errorMax (o :: rest) w =
        recordAll errorMax rest (record errorMax o.1 o.2 w) := rfl
    have hmin : (record errorMax o.1 o.2 w).minError = min w.minError o.2 := by
      simp only [record, min_def]
      split_ifs with c1 c2 c2
      · exact absurd c1 (not_lt.mpr c2)
      · rfl
      · rfl
      · exact le_antisymm (not_lt.mp c1) (not_le.mp c2).le
    have hmax : (record errorMax o.1 o.2 w).maxError = max w.maxError o.2 := by
      simp only [record, max_def, gt_iff_lt]
      split_ifs with c1 c2 c2
      · rfl
      · exact absurd c1 (not_lt.mpr (not_le.mp c2).le)
      · exact le_antisymm c2 (not_lt.mp c1)
      · rfl
    rw [hstep, h1, h2, hmin, hmax]
    exact ⟨rfl, rfl⟩

theorem foldl_min_spec : ∀ (es : List ℚ) (a : ℚ),
    es.foldl min a ≤ a ∧ (∀ e ∈ es, es.foldl min a ≤ e) ∧
      (es.foldl min a = a ∨ es.foldl min a ∈ es) := by
  intro es
  induction es with
  | nil => intro a; simp
  | cons e rest ih =>
    intro a
    obtain ⟨h1, h2, h3⟩ := ih (min a e)
    simp only [List.foldl_cons, List.mem_cons, forall_eq_or_imp]
    refine ⟨h1.trans (min_le_left a e), ⟨h1.trans (min_le_right a e), h2⟩, ?_⟩
    rcases h3 with h3 | h3
    · rcases min_choice a e with hc | hc
      · exact Or.inl (h3.trans hc)
      · exact Or.inr (Or.inl (h3.trans hc))
    · exact Or.inr (Or.inr h3)

theorem foldl_max_spec : ∀ (es : List ℚ) (a : ℚ),
    a ≤ es.foldl max a ∧ (∀ e ∈ es, e ≤ es.foldl max a) ∧
      (es.foldl max a = a ∨ es.foldl max a ∈ es) := by
  intro es
  induction es with
  | nil => intro a; simp
  | cons e rest ih =>
    intro a
    obtain ⟨h1, h2, h3⟩ := ih (max a e)
    simp only [List.foldl_cons, List.mem_cons, forall_eq_or_imp]
    refine ⟨(le_max_left a e).trans h1, ⟨(le_max_right a e).trans h1, h2⟩, ?_⟩
    rcases h3 with h3 | h3
    · rcases max_choice a e with hc | hc
      · exact Or.inl (h3.trans hc)
      · exact Or.inr (Or.inl (h3.trans hc))
    · exact Or.inr (Or.inr h3)

/-- C12: after `N >= 1` recorded outcomes with errors `e_1 .. e_N`, `getMinError` returns the
minimum and `getMaxError` the maximum of the recorded errors: each is one of the `e_k` and
bounds all of them.  The initial `minError` and `maxError` are those of the class declaration;
they are taken as given, not below (for `minError`) and not above (for `maxError`) the
recorded errors.  Whatever the initial values, the results are the running minimum and
maximum of the initial value and the recorded errors. -/
theorem extremes_are_recorded (errorMax : ℚ) (outcomes : List (Int × ℚ)) (w : World σ Q M)
    (hN : outcomes ≠ [])
    (hmin : ∀ o ∈ outcomes, o.2 ≤ w.minError) (hmax : ∀ o ∈ outcomes, w.maxError ≤ o.2) :
    getMinError (recordAll errorMax outcomes w) ∈ outcomes.map (fun o => o.2) ∧
      (∀ o ∈ outcomes, getMinError (recordAll errorMax outcomes w) ≤ o.2) ∧
      getMaxError (recordAll errorMax outcomes w) ∈ outcomes.map (fun o => o.2) ∧
      (∀ o ∈ outcomes, o.2 ≤ getMaxError (recordAll errorMax outcomes w)) ∧
      getMinError (recordAll errorMax outcomes w) =
        (outcomes.map (fun o => o.2)).foldl min w.minError ∧
      getMaxError (recordAll errorMax outcomes w) =
        (outcomes.map (fun o => o.2)).foldl max w.maxError := by
  obtain ⟨e1, e2⟩ := recordAll_extremes errorMax outcomes w
  obtain ⟨a1, a2, a3⟩ := foldl_min_spec (outcomes.map (fun o => o.2)) w.minError
  obtain ⟨b1, b2, b3⟩ := foldl_max_spec (outcomes.map (fun o => o.2)) w.maxError
  obtain ⟨o0, ho0⟩ := List.exists_mem_of_ne_nil outcomes hN
  have hm0 : o0.2 ∈ outcomes.map (fun o => o.2) := List.mem_map_of_mem _ ho0
  have e1' : getMinError (recordAll errorMax outcomes w) =
      (outcomes.map (fun o => o.2)).foldl min w.minError := e1
  have e2' : getMaxError (recordAll errorMax outcomes w) =
      (outcomes.map (fun o => o.2)).foldl max w.maxError := e2
  rw [e1', e2']
  refine ⟨?_, fun o ho => a2 _ (List.mem_map_of_mem _ ho), ?_,
    fun o ho => b2 _ (List.mem_map_of_mem _ ho), rfl, rfl⟩
  · rcases a3 with h | h
    · have h5 : w.minError = o0.2 :=
        le_antisymm (by rw [← h]; exact a2 _ hm0) (hmin o0 ho0)
      rw [h, h5]
      exact hm0
    · exact h
  · rcases b3 with h | h
    · have h5 : w.maxError = o0.2 :=
        le_antisymm (hmax o0 ho0) (by rw [← h]; exact b2 _ hm0)
      rw [h, h5]
      exact hm0
    · exact h

/-- C12, for the errors 1/16, 1, 1/20 recorded on a controller whose `minError` starts at
`FLT_MAX` and whose `maxError` starts at 0. -/
theorem extremes_are_recorded_witness :
    getMinError (recordAll (1 / 10) [(3, 1 / 16), (10, 1), (0, 1 / 20)]
        (exampleWorld armHeap [1, 2])) ∈
        ([(3, 1 / 16), (10, 1), (0, 1 / 20)] : List (Int × ℚ)).map (fun o => o.2) ∧
      (∀ o ∈ ([(3, 1 / 16), (10, 1), (0, 1 / 20)] : List (Int × ℚ)),
        getMinError (recordAll (1 / 10) [(3, 1 / 16), (10, 1), (0, 1 / 20)]
          (exampleWorld armHeap [1, 2])) ≤ o.2) ∧
      getMaxError (recordAll (1 / 10) [(3, 1 / 16), (10, 1), (0, 1 / 20)]
        (exampleWorld armHeap [1, 2])) ∈
        ([(3, 1 / 16), (10, 1), (0, 1 / 20)] : List (Int × ℚ)).map (fun o => o.2) ∧
      (∀ o ∈ ([(3, 1 / 16), (10, 1), (0, 1 / 20)] : List (Int × ℚ)),
        o.2 ≤ getMaxError (recordAll (1 / 10) [(3, 1 / 16), (10, 1), (0, 1 / 20)]
          (exampleWorld armHeap [1, 2]))) ∧
      getMinError (recordAll (1 / 10) [(3, 1 / 16), (10, 1), (0, 1 / 20)]
        (exampleWorld armHeap [1, 2])) =
        (([(3, 1 / 16), (10, 1), (0, 1 / 20)] : List (Int × ℚ)).map (fun o => o.2)).foldl min
          (exampleWorld armHeap [1, 2]).minError ∧
      getMaxError (recordAll (1 / 10) [(3, 1 / 16), (10, 1), (0, 1 / 20)]
        (exampleWorld armHeap [1, 2])) =
        (([(3, 1 / 16), (10, 1), (0, 1 / 20)] : List (Int × ℚ)).map (fun o => o.2)).foldl max
          (exampleWorld armHeap [1, 2]).maxError :=
  extremes_are_recorded (1 / 10) [(3, 1 / 16), (10, 1), (0, 1 / 20)]
    (exampleWorld armHeap [1, 2]) (by simp)
    (by simp [exampleWorld, FLT_MAX]; norm_num)
    (by simp [exampleWorld])

/-- C13: with no outcome recorded (`totalNum == 0`) the three average accessors return the
sentinel -1, whatever the sums hold; with `totalNum != 0` each returns the quotient of its
sum by `totalNum`. -/
theorem averages_sentinel (w : World σ Q M) :
    (w.totalNum = 0 →
      getAverageIter w = -1 ∧ getAverageReached w = -1 ∧ getAverageError w = -1) ∧
    (w.totalNum ≠ 0 →
      getAverageIter w = (w.sumIter : ℚ) / (w.totalNum : ℚ) ∧
      getAverageReached w = (w.sumReached : ℚ) / (w.totalNum : ℚ) ∧
      getAverageError w = w.sumError / (w.totalNum : ℚ)) := by
  constructor
  · intro h
    simp [getAverageIter, getAverageReached, getAverageError, h]
  · intro h
    simp [getAverageIter, getAverageReached, getAverageError, h]

/-- C13, for a controller that has recorded nothing. -/
theorem averages_sentinel_witness :
    getAverageIter (exampleWorld armHeap [1, 2]) = -1 ∧
      getAverageReached (exampleWorld armHeap [1, 2]) = -1 ∧
      getAverageError (exampleWorld armHeap [1, 2]) = -1 :=
  (averages_sentinel (exampleWorld armHeap [1, 2])).1 rfl

/-! ## Propagation of the transforms -/

theorem getElem?_set_valid {α : Type} (l : List α) (n p : Nat) (a b : α)
    (hn : l[n]? = some b) : (l.set n a)[p]? = if n = p then some a else l[p]? := by
  rw [List.getElem?_set]
  split_ifs with h1 h2
  · rfl
  · exfalso
    apply h2
    by_contra hlt
    rw [List.getElem?_eq_none (not_lt.mp hlt)] at hn
    exact absurd hn (by simp)
  · rfl

theorem updateBonePosition_eq (K : KoreMath Q M) (bone : Nat) (heap h' : List (BoneNode Q M))
    (h : updateBonePosition K bone heap = .ok h') :
    ∃ b p, heap[bone]? = some b ∧ heap[b.parent]? = some p ∧
      h' = heap.set bone { b with combined := K.mul p.combined b.local_ } := by
  unfold updateBonePosition at h
  cases hb : heap[bone]? with
  | none => simp [hb] at h
  | some b =>
    simp only [hb] at h
    cases hp : heap[b.parent]? with
    | none => simp [hp] at h
    | some p =>
      simp only [hp, Outcome.ok.injEq] at h
      exact ⟨b, p, rfl, hp, h.symm⟩

theorem updateBones_other (K : KoreMath Q M) :
    ∀ (bones : List Nat) (heap h' : List (BoneNode Q M)) (q : Nat),
      updateBones K bones heap = .ok h' → q ∉ bones → h'[q]? = heap[q]? := by
  intro bones
  induction bones with
  | nil =>
    intro heap h' q h _
    simp only [updateBones, Outcome.ok.injEq] at h
    rw [h]
  | cons bone rest ih =>
    intro heap h' q h hq
    simp only [List.mem_cons, not_or] at hq
    simp only [updateBones] at h
    cases h1 : updateBonePosition K bone heap with
    | fault => simp [h1, Outcome.bind] at h
    | timeout => simp [h1, Outcome.bind] at h
    | ok hmid =>
      simp only [h1, Outcome.bind] at h
      obtain ⟨b, p, hb, _, hset⟩ := updateBonePosition_eq K bone heap hmid h1
      rw [ih hmid h' q h hq.2, hset, getElem?_set_valid _ _ _ _ _ hb, if_neg (Ne.symm hq.1)]

theorem parentsFirst_congr {h h' : List (BoneNode Q M)} (hs : SameShape h h') :
    ∀ bones, parentsFirst h bones = parentsFirst h' bones := by
  intro bones
  induction bones with
  | nil => rfl
  | cons bone rest ih =>
    rcases hs.cases bone with ⟨h1, h2⟩ | ⟨b, b', h1, h2, hsh⟩
    · simp [parentsFirst, h1, h2]
    · rw [shape_eq_iff] at hsh
      simp [parentsFirst, h1, h2, hsh.2.1, ih]

theorem updateBones_propagated (K : KoreMath Q M) :
    ∀ (bones : List Nat) (heap h' : List (BoneNode Q M)),
      updateBones K bones heap = .ok h' → parentsFirst heap bones = true →
      ∀ bone ∈ bones, propagated K h' bone := by
  intro bones
  induction bones with
  | nil => intro heap h' _ _ bone hb; exact absurd hb (List.not_mem_nil bone)
  | cons first rest ih =>
    intro heap h' h hpf bone hmem
    simp only [updateBones] at h
    cases h1 : updateBonePosition K first heap with
    | fault => simp [h1, Outcome.bind] at h
    | timeout => simp [h1, Outcome.bind] at h
    | ok hmid =>
      simp only [h1, Outcome.bind] at h
      obtain ⟨b, p, hb, hp, hset⟩ := updateBonePosition_eq K first heap hmid h1
      have hsh : SameShape heap hmid := by
        rw [hset]; exact sameShape_set _ _ _ _ hb rfl
      simp only [parentsFirst, hb, Bool.and_eq_true, decide_eq_true_eq] at hpf
      obtain ⟨⟨hne, hnot⟩, hrest⟩ := hpf
      have hrest' : parentsFirst hmid rest = true := (parentsFirst_congr hsh rest).symm.trans hrest
      by_cases hin : bone ∈ rest
      · exact ih hmid h' h hrest' bone hin
      · have hbf : bone = first := by
          rcases List.mem_cons.mp hmem with h5 | h5
          · exact h5
          · exact absurd h5 hin
        subst hbf
        have e1 : h'[bone]? = some { b with combined := K.mul p.combined b.local_ } := by
          rw [updateBones_other K rest hmid h' bone h hin, hset,
            getElem?_set_valid _ _ _ _ _ hb, if_pos rfl]
        have e2 : h'[b.parent]? = some p := by
          rw [updateBones_other K rest hmid h' b.parent h hnot, hset,
            getElem?_set_valid _ _ _ _ _ hb, if_neg (Ne.symm hne), hp]
        exact ⟨_, p, e1, e2, rfl⟩

/-- C14: after the propagation loop of line 41 over a `bones` vector that lists every bone
after its parent, every bone `b` of the vector satisfies
`combined(b) == combined(parent(b)) * local(b)` in the final memory, hence with the parent's
final combined transform; the loop succeeds when the pointers are valid.  A single
`updateBonePosition(b)` establishes the equation for `b` (whose parent is another bone). -/
theorem propagation_consistent (K : KoreMath Q M) (bones : List Nat)
    (heap : List (BoneNode Q M)) (hv : bonesValid heap bones = true)
    (hpf : parentsFirst heap bones = true) :
    (∃ h', updateBones K bones heap = .ok h' ∧ ∀ bone ∈ bones, propagated K h' bone) ∧
      (∀ bone ∈ bones, ∀ b, heap[bone]? = some b → b.parent ≠ bone →
        ∃ h1, updateBonePosition K bone heap = .ok h1 ∧ propagated K h1 bone) := by
  constructor
  · obtain ⟨h', e, _⟩ := updateBones_ok K bones heap hv
    exact ⟨h', e, updateBones_propagated K bones heap h' e hpf⟩
  · intro bone hmem b hb hne
    have hv1 : bonesValid heap [bone] = true := by
      simp only [bonesValid, List.all_eq_true] at hv ⊢
      intro x hx
      rw [List.mem_singleton] at hx
      subst hx
      exact hv x hmem
    obtain ⟨h1, e, _⟩ := updateBonePosition_ok K bone heap hv1
    obtain ⟨b', p, hb', hp, hset⟩ := updateBonePosition_eq K bone heap h1 e
    rw [hb, Option.some.injEq] at hb'
    subst hb'
    refine ⟨h1, e, { b with combined := K.mul p.combined b.local_ }, p, ?_, ?_, rfl⟩
    · rw [hset, getElem?_set_valid _ _ _ _ _ hb, if_pos rfl]
    · show h1[b.parent]? = some p
      rw [hset, getElem?_set_valid _ _ _ _ _ hb, if_neg (Ne.symm hne), hp]

/-- C14, for the shoulder and the hand of the example arm, in this order. -/
theorem propagation_consistent_witness :
    (∃ h', updateBones planar [1, 2] armHeap = .ok h' ∧
        ∀ bone ∈ [1, 2], propagated planar h' bone) ∧
      (∀ bone ∈ [1, 2], ∀ b, armHeap[bone]? = some b → b.parent ≠ bone →
        ∃ h1, updateBonePosition planar bone armHeap = .ok h1 ∧ propagated planar h1 bone) :=
  propagation_consistent planar [1, 2] armHeap (by decide) (by decide)

/-! ## The joint-limit table written by `setJointConstraints` -/

theorem vec2.scale_one (v : vec2) : v.scale 1 = v := by
  simp [vec2.scale]

theorem setAxes_lookup (node : Nat) (axes : vec3) (heap : List (BoneNode Q M))
    (b : BoneNode Q M) (hb : heap[node]? = some b) :
    ∃ h', setAxes node axes heap = .ok h' ∧
      ∀ q, h'[q]? = if node = q then some { b with axes := axes } else heap[q]? :=
  ⟨_, by simp only [setAxes, hb], fun _ => getElem?_set_valid _ _ _ _ _ hb⟩

theorem pushConstrain_lookup (node : Nat) (c : vec2) (heap : List (BoneNode Q M))
    (b : BoneNode Q M) (hb : heap[node]? = some b) :
    ∃ h', pushConstrain node c heap = .ok h' ∧
      ∀ q, h'[q]? =
        if node = q then some { b with constrain := b.constrain ++ [c] } else heap[q]? :=
  ⟨_, by simp only [pushConstrain, hb], fun _ => getElem?_set_valid _ _ _ _ _ hb⟩

theorem copyAxes_lookup (nodeLeft nodeRight : Nat) (heap : List (BoneNode Q M))
    (bl br : BoneNode Q M) (hbl : heap[nodeLeft]? = some bl) (hbr : heap[nodeRight]? = some br) :
    ∃ h', copyAxes nodeLeft nodeRight heap = .ok h' ∧
      ∀ q, h'[q]? = if nodeRight = q then some { br with axes := bl.axes } else heap[q]? :=
  ⟨_, by simp only [copyAxes, axesOf, hbl, Outcome.bind, setAxes, hbr],
    fun _ => getElem?_set_valid _ _ _ _ _ hbr⟩

theorem copyConstrain_lookup (nodeLeft nodeRight k : Nat) (f : ℚ) (heap : List (BoneNode Q M))
    (bl br : BoneNode Q M) (c : vec2) (hbl : heap[nodeLeft]? = some bl)
    (hc : bl.constrain[k]? = some c) (hbr : heap[nodeRight]? = some br) :
    ∃ h', copyConstrain nodeLeft nodeRight k f heap = .ok h' ∧
      ∀ q, h'[q]? =
        if nodeRight = q then some { br with constrain := br.constrain ++ [c.scale f] }
        else heap[q]? :=
  ⟨_, by simp only [copyConstrain, constrainAt, hbl, hc, Outcome.bind, pushConstrain, hbr],
    fun _ => getElem?_set_valid _ _ _ _ _ hbr⟩

theorem setShoulders_spec (pi : ℚ) (bones : List Nat) (heap : List (BoneNode Q M))
    (nl nr : Nat) (bl br : BoneNode Q M)
    (hl : bones[11]? = some nl) (hr : bones[21]? = some nr) (hne : nl ≠ nr)
    (hbl : heap[nl]? = some bl) (hbr : heap[nr]? = some br)
    (hcl : bl.constrain = []) (hcr : br.constrain = []) :
    ∃ h', setShoulders pi bones heap = .ok h' ∧
      h'[nl]? = some
        { bl with
          axes := ⟨1, 1, 1⟩
          constrain := [⟨-5 * pi / 18, pi⟩, ⟨-pi / 2, pi / 2⟩, ⟨-13 * pi / 18, pi / 2⟩] } ∧
      h'[nr]? = some
        { br with
          axes := ⟨1, 1, 1⟩
          constrain := [⟨-5 * pi / 18, pi⟩, vec2.scale ⟨-pi / 2, pi / 2⟩ (-1), vec2.scale ⟨-13 * pi / 18, pi / 2⟩ (-1)] } ∧
      ∀ q, nl ≠ q → nr ≠ q → h'[q]? = heap[q]? := by
  obtain ⟨h1, e1, l1⟩ := setAxes_lookup nl ⟨1, 1, 1⟩ heap bl hbl
  have a1 : h1[nl]? = some { bl with axes := ⟨1, 1, 1⟩ } := by rw [l1, if_pos rfl]
  obtain ⟨h2, e2, l2⟩ := pushConstrain_lookup nl ⟨-5 * pi / 18, pi⟩ h1 _ a1
  have a2 : h2[nl]? = some { bl with axes := ⟨1, 1, 1⟩, constrain := [⟨-5 * pi / 18, pi⟩] } := by
    rw [l2, if_pos rfl]
    simp only [hcl, List.nil_append, List.cons_append]
  obtain ⟨h3, e3, l3⟩ := pushConstrain_lookup nl ⟨-pi / 2, pi / 2⟩ h2 _ a2
  have a3 : h3[nl]? = some { bl with axes := ⟨1, 1, 1⟩, constrain := [⟨-5 * pi / 18, pi⟩, ⟨-pi / 2, pi / 2⟩] } := by
    rw [l3, if_pos rfl]
    simp only [hcl, List.nil_append, List.cons_append]
  obtain ⟨h4, e4, l4⟩ := pushConstrain_lookup nl ⟨-13 * pi / 18, pi / 2⟩ h3 _ a3
  have a4 : h4[nl]? = some { bl with axes := ⟨1, 1, 1⟩, constrain := [⟨-5 * pi / 18, pi⟩, ⟨-pi / 2, pi / 2⟩, ⟨-13 * pi / 18, pi / 2⟩] } := by
    rw [l4, if_pos rfl]
    simp only [hcl, List.nil_append, List.cons_append]
  have r4 : h4[nr]? = some br := by rw [l4, if_neg hne, l3, if_neg hne, l2, if_neg hne, l1, if_neg hne, hbr]
  obtain ⟨h5, e5, l5⟩ := copyAxes_lookup nl nr h4 _ br a4 r4
  have a5 : h5[nl]? = some { bl with axes := ⟨1, 1, 1⟩, constrain := [⟨-5 * pi / 18, pi⟩, ⟨-pi / 2, pi / 2⟩, ⟨-13 * pi / 18, pi / 2⟩] } := by
    rw [l5, if_neg (Ne.symm hne), a4]
  have r5 : h5[nr]? = some { br with axes := ⟨1, 1, 1⟩ } := by rw [l5, if_pos rfl]
  obtain ⟨h6, e6, l6⟩ := copyConstrain_lookup nl nr 0 1 h5 _ _ ⟨-5 * pi / 18, pi⟩
    a5 rfl r5
  have a6 : h6[nl]? = some { bl with axes := ⟨1, 1, 1⟩, constrain := [⟨-5 * pi / 18, pi⟩, ⟨-pi / 2, pi / 2⟩, ⟨-13 * pi / 18, pi / 2⟩] } := by
    rw [l6, if_neg (Ne.symm hne), a5]
  have r6 : h6[nr]? = some { br with axes := ⟨1, 1, 1⟩, constrain := [⟨-5 * pi / 18, pi⟩] } := by
    rw [l6, if_pos rfl]
    simp only [hcr, List.nil_append, List.cons_append, vec2.scale_one]
  obtain ⟨h7, e7, l7⟩ := copyConstrain_lookup nl nr 1 (-1) h6 _ _ ⟨-pi / 2, pi / 2⟩
    a6 rfl r6
  have a7 : h7[nl]? = some { bl with axes := ⟨1, 1, 1⟩, constrain := [⟨-5 * pi / 18, pi⟩, ⟨-pi / 2, pi / 2⟩, ⟨-13 * pi / 18, pi / 2⟩] } := by
    rw [l7, if_neg (Ne.symm hne), a6]
  have r7 : h7[nr]? = some { br with axes := ⟨1, 1, 1⟩, constrain := [⟨-5 * pi / 18, pi⟩, vec2.scale ⟨-pi / 2, pi / 2⟩ (-1)] } := by
    rw [l7, if_pos rfl]
    simp only [hcr, List.nil_append, List.cons_append, vec2.scale_one]
  obtain ⟨h8, e8, l8⟩ := copyConstrain_lookup nl nr 2 (-1) h7 _ _ ⟨-13 * pi / 18, pi / 2⟩
    a7 rfl r7
  have a8 : h8[nl]? = some { bl with axes := ⟨1, 1, 1⟩, constrain := [⟨-5 * pi / 18, pi⟩, ⟨-pi / 2, pi / 2⟩, ⟨-13 * pi / 18, pi / 2⟩] } := by
    rw [l8, if_neg (Ne.symm hne), a7]
  have r8 : h8[nr]? = some { br with axes := ⟨1, 1, 1⟩, constrain := [⟨-5 * pi / 18, pi⟩, vec2.scale ⟨-pi / 2, pi / 2⟩ (-1), vec2.scale ⟨-13 * pi / 18, pi / 2⟩ (-1)] } := by
    rw [l8, if_pos rfl]
    simp only [hcr, List.nil_append, List.cons_append, vec2.scale_one]
  refine ⟨h8, ?_, a8, r8, ?_⟩
  · simp only [setShoulders, boneAt, hl, hr, Outcome.bind, Nat.reduceSub, e1, e2, e3, e4, e5, e6, e7, e8]
  · intro q h1q h2q
    rw [l8, if_neg h2q, l7, if_neg h2q, l6, if_neg h2q, l5, if_neg h2q, l4, if_neg h1q, l3, if_neg h1q, l2, if_neg h1q, l1, if_neg h1q]

theorem setElbows_spec (pi : ℚ) (bones : List Nat) (heap : List (BoneNode Q M))
    (nl nr : Nat) (bl br : BoneNode Q M)
    (hl : bones[12]? = some nl) (hr : bones[22]? = some nr) (hne : nl ≠ nr)
    (hbl : heap[nl]? = some bl) (hbr : heap[nr]? = some br)
    (hcl : bl.constrain = []) (hcr : br.constrain = []) :
    ∃ h', setElbows pi bones heap = .ok h' ∧
      h'[nl]? = some
        { bl with
          axes := ⟨1, 0, 0⟩
          constrain := [⟨-pi / 18, 7 * pi / 9⟩] } ∧
      h'[nr]? = some
        { br with
          axes := ⟨1, 0, 0⟩
          constrain := [⟨-pi / 18, 7 * pi / 9⟩] } ∧
      ∀ q, nl ≠ q → nr ≠ q → h'[q]? = heap[q]? := by
  obtain ⟨h1, e1, l1⟩ := setAxes_lookup nl ⟨1, 0, 0⟩ heap bl hbl
  have a1 : h1[nl]? = some { bl with axes := ⟨1, 0, 0⟩ } := by rw [l1, if_pos rfl]
  obtain ⟨h2, e2, l2⟩ := pushConstrain_lookup nl ⟨-pi / 18, 7 * pi / 9⟩ h1 _ a1
  have a2 : h2[nl]? = some { bl with axes := ⟨1, 0, 0⟩, constrain := [⟨-pi / 18, 7 * pi / 9⟩] } := by
    rw [l2, if_pos rfl]
    simp only [hcl, List.nil_append, List.cons_append]
  have r2 : h2[nr]? = some br := by rw [l2, if_neg hne, l1, if_neg hne, hbr]
  obtain ⟨h3, e3, l3⟩ := copyAxes_lookup nl nr h2 _ br a2 r2
  have a3 : h3[nl]? = some { bl with axes := ⟨1, 0, 0⟩, constrain := [⟨-pi / 18, 7 * pi / 9⟩] } := by
    rw [l3, if_neg (Ne.symm hne), a2]
  have r3 : h3[nr]? = some { br with axes := ⟨1, 0, 0⟩ } := by rw [l3, if_pos rfl]
  obtain ⟨h4, e4, l4⟩ := copyConstrain_lookup nl nr 0 1 h3 _ _ ⟨-pi / 18, 7 * pi / 9⟩
    a3 rfl r3
  have a4 : h4[nl]? = some { bl with axes := ⟨1, 0, 0⟩, constrain := [⟨-pi / 18, 7 * pi / 9⟩] } := by
    rw [l4, if_neg (Ne.symm hne), a3]
  have r4 : h4[nr]? = some { br with axes := ⟨1, 0, 0⟩, constrain := [⟨-pi / 18, 7 * pi / 9⟩] } := by
    rw [l4, if_pos rfl]
    simp only [hcr, List.nil_append, List.cons_append, vec2.scale_one]
  refine ⟨h4, ?_, a4, r4, ?_⟩
  · simp only [setElbows, boneAt, hl, hr, Outcome.bind, Nat.reduceSub, e1, e2, e3, e4]
  · intro q h1q h2q
    rw [l4, if_neg h2q, l3, if_neg h2q, l2, if_neg h1q, l1, if_neg h1q]

theorem setHands_spec (pi : ℚ) (bones : List Nat) (heap : List (BoneNode Q M))
    (nl nr : Nat) (bl br : BoneNode Q M)
    (hl : bones[13]? = some nl) (hr : bones[23]? = some nr) (hne : nl ≠ nr)
    (hbl : heap[nl]? = some bl) (hbr : heap[nr]? = some br)
    (hcl : bl.constrain = []) (hcr : br.constrain = []) :
    ∃ h', setHands pi bones heap = .ok h' ∧
      h'[nl]? = some
        { bl with
          axes := ⟨1, 0, 1⟩
          constrain := [⟨-2 * pi / 9, pi / 6⟩, ⟨-7 * pi / 18, pi / 3⟩] } ∧
      h'[nr]? = some
        { br with
          axes := ⟨1, 0, 1⟩
          constrain := [⟨-2 * pi / 9, pi / 6⟩, vec2.scale ⟨-7 * pi / 18, pi / 3⟩ (-1)] } ∧
      ∀ q, nl ≠ q → nr ≠ q → h'[q]? = heap[q]? := by
  obtain ⟨h1, e1, l1⟩ := setAxes_lookup nl ⟨1, 0, 1⟩ heap bl hbl
  have a1 : h1[nl]? = some { bl with axes := ⟨1, 0, 1⟩ } := by rw [l1, if_pos rfl]
  obtain ⟨h2, e2, l2⟩ := pushConstrain_lookup nl ⟨-2 * pi / 9, pi / 6⟩ h1 _ a1
  have a2 : h2[nl]? = some { bl with axes := ⟨1, 0, 1⟩, constrain := [⟨-2 * pi / 9, pi / 6⟩] } := by
    rw [l2, if_pos rfl]
    simp only [hcl, List.nil_append, List.cons_append]
  obtain ⟨h3, e3, l3⟩ := pushConstrain_lookup nl ⟨-7 * pi / 18, pi / 3⟩ h2 _ a2
  have a3 : h3[nl]? = some { bl with axes := ⟨1, 0, 1⟩, constrain := [⟨-2 * pi / 9, pi / 6⟩, ⟨-7 * pi / 18, pi / 3⟩] } := by
    rw [l3, if_pos rfl]
    simp only [hcl, List.nil_append, List.cons_append]
  have r3 : h3[nr]? = some br := by rw [l3, if_neg hne, l2, if_neg hne, l1, if_neg hne, hbr]
  obtain ⟨h4, e4, l4⟩ := copyAxes_lookup nl nr h3 _ br a3 r3
  have a4 : h4[nl]? = some { bl with axes := ⟨1, 0, 1⟩, constrain := [⟨-2 * pi / 9, pi / 6⟩, ⟨-7 * pi / 18, pi / 3⟩] } := by
    rw [l4, if_neg (Ne.symm hne), a3]
  have r4 : h4[nr]? = some { br with axes := ⟨1, 0, 1⟩ } := by rw [l4, if_pos rfl]
  obtain ⟨h5, e5, l5⟩ := copyConstrain_lookup nl nr 0 1 h4 _ _ ⟨-2 * pi / 9, pi / 6⟩
    a4 rfl r4
  have a5 : h5[nl]? = some { bl with axes := ⟨1, 0, 1⟩, constrain := [⟨-2 * pi / 9, pi / 6⟩, ⟨-7 * pi / 18, pi / 3⟩] } := by
    rw [l5, if_neg (Ne.symm hne), a4]
  have r5 : h5[nr]? = some { br with axes := ⟨1, 0, 1⟩, constrain := [⟨-2 * pi / 9, pi / 6⟩] } := by
    rw [l5, if_pos rfl]
    simp only [hcr, List.nil_append, List.cons_append, vec2.scale_one]
  obtain ⟨h6, e6, l6⟩ := copyConstrain_lookup nl nr 1 (-1) h5 _ _ ⟨-7 * pi / 18, pi / 3⟩
    a5 rfl r5
  have a6 : h6[nl]? = some { bl with axes := ⟨1, 0, 1⟩, constrain := [⟨-2 * pi / 9, pi / 6⟩, ⟨-7 * pi / 18, pi / 3⟩] } := by
    rw [l6, if_neg (Ne.symm hne), a5]
  have r6 : h6[nr]? = some { br with axes := ⟨1, 0, 1⟩, constrain := [⟨-2 * pi / 9, pi / 6⟩, vec2.scale ⟨-7 * pi / 18, pi / 3⟩ (-1)] } := by
    rw [l6, if_pos rfl]
    simp only [hcr, List.nil_append, List.cons_append, vec2.scale_one]
  refine ⟨h6, ?_, a6, r6, ?_⟩
  · simp only [setHands, boneAt, hl, hr, Outcome.bind, Nat.reduceSub, e1, e2, e3, e4, e5, e6]
  · intro q h1q h2q
    rw [l6, if_neg h2q, l5, if_neg h2q, l4, if_neg h2q, l3, if_neg h1q, l2, if_neg h1q, l1, if_neg h1q]

theorem setThighs_spec (pi : ℚ) (bones : List Nat) (heap : List (BoneNode Q M))
    (nl nr : Nat) (bl br : BoneNode Q M)
    (hl : bones[3]? = some nl) (hr : bones[28]? = some nr) (hne : nl ≠ nr)
    (hbl : heap[nl]? = some bl) (hbr : heap[nr]? = some br)
    (hcl : bl.constrain = []) (hcr : br.constrain = []) :
    ∃ h', setThighs pi bones heap = .ok h' ∧
      h'[nl]? = some
        { bl with
          axes := ⟨1, 1, 1⟩
          constrain := [⟨-13 * pi / 18, pi / 6⟩, ⟨-pi / 3, 2 * pi / 9⟩, ⟨-5 * pi / 18, 5 * pi / 18⟩] } ∧
      h'[nr]? = some
        { br with
          axes := ⟨1, 1, 1⟩
          constrain := [⟨-13 * pi / 18, pi / 6⟩, vec2.scale ⟨-pi / 3, 2 * pi / 9⟩ (-1), vec2.scale ⟨-5 * pi / 18, 5 * pi / 18⟩ (-1)] } ∧
      ∀ q, nl ≠ q → nr ≠ q → h'[q]? = heap[q]? := by
  obtain ⟨h1, e1, l1⟩ := setAxes_lookup nl ⟨1, 1, 1⟩ heap bl hbl
  have a1 : h1[nl]? = some { bl with axes := ⟨1, 1, 1⟩ } := by rw [l1, if_pos rfl]
  obtain ⟨h2, e2, l2⟩ := pushConstrain_lookup nl ⟨-13 * pi / 18, pi / 6⟩ h1 _ a1
  have a2 : h2[nl]? = some { bl with axes := ⟨1, 1, 1⟩, constrain := [⟨-13 * pi / 18, pi / 6⟩] } := by
    rw [l2, if_pos rfl]
    simp only [hcl, List.nil_append, List.cons_append]
  obtain ⟨h3, e3, l3⟩ := pushConstrain_lookup nl ⟨-pi / 3, 2 * pi / 9⟩ h2 _ a2
  have a3 : h3[nl]? = some { bl with axes := ⟨1, 1, 1⟩, constrain := [⟨-13 * pi / 18, pi / 6⟩, ⟨-pi / 3, 2 * pi / 9⟩] } := by
    rw [l3, if_pos rfl]
    simp only [hcl, List.nil_append, List.cons_append]
  obtain ⟨h4, e4, l4⟩ := pushConstrain_lookup nl ⟨-5 * pi / 18, 5 * pi / 18⟩ h3 _ a3
  have a4 : h4[nl]? = some { bl with axes := ⟨1, 1, 1⟩, constrain := [⟨-13 * pi / 18, pi / 6⟩, ⟨-pi / 3, 2 * pi / 9⟩, ⟨-5 * pi / 18, 5 * pi / 18⟩] } := by
    rw [l4, if_pos rfl]
    simp only [hcl, List.nil_append, List.cons_append]
  have r4 : h4[nr]? = some br := by rw [l4, if_neg hne, l3, if_neg hne, l2, if_neg hne, l1, if_neg hne, hbr]
  obtain ⟨h5, e5, l5⟩ := copyAxes_lookup nl nr h4 _ br a4 r4
  have a5 : h5[nl]? = some { bl with axes := ⟨1, 1, 1⟩, constrain := [⟨-13 * pi / 18, pi / 6⟩, ⟨-pi / 3, 2 * pi / 9⟩, ⟨-5 * pi / 18, 5 * pi / 18⟩] } := by
    rw [l5, if_neg (Ne.symm hne), a4]
  have r5 : h5[nr]? = some { br with axes := ⟨1, 1, 1⟩ } := by rw [l5, if_pos rfl]
  obtain ⟨h6, e6, l6⟩ := copyConstrain_lookup nl nr 0 1 h5 _ _ ⟨-13 * pi / 18, pi / 6⟩
    a5 rfl r5
  have a6 : h6[nl]? = some { bl with axes := ⟨1, 1, 1⟩, constrain := [⟨-13 * pi / 18, pi / 6⟩, ⟨-pi / 3, 2 * pi / 9⟩, ⟨-5 * pi / 18, 5 * pi / 18⟩] } := by
    rw [l6, if_neg (Ne.symm hne), a5]
  have r6 : h6[nr]? = some { br with axes := ⟨1, 1, 1⟩, constrain := [⟨-13 * pi / 18, pi / 6⟩] } := by
    rw [l6, if_pos rfl]
    simp only [hcr, List.nil_append, List.cons_append, vec2.scale_one]
  obtain ⟨h7, e7, l7⟩ := copyConstrain_lookup nl nr 1 (-1) h6 _ _ ⟨-pi / 3, 2 * pi / 9⟩
    a6 rfl r6
  have a7 : h7[nl]? = some { bl with axes := ⟨1, 1, 1⟩, constrain := [⟨-13 * pi / 18, pi / 6⟩, ⟨-pi / 3, 2 * pi / 9⟩, ⟨-5 * pi / 18, 5 * pi / 18⟩] } := by
    rw [l7, if_neg (Ne.symm hne), a6]
  have r7 : h7[nr]? = some { br with axes := ⟨1, 1, 1⟩, constrain := [⟨-13 * pi / 18, pi / 6⟩, vec2.scale ⟨-pi / 3, 2 * pi / 9⟩ (-1)] } := by
    rw [l7, if_pos rfl]
    simp only [hcr, List.nil_append, List.cons_append, vec2.scale_one]
  obtain ⟨h8, e8, l8⟩ := copyConstrain_lookup nl nr 2 (-1) h7 _ _ ⟨-5 * pi / 18, 5 * pi / 18⟩
    a7 rfl r7
  have a8 : h8[nl]? = some { bl with axes := ⟨1, 1, 1⟩, constrain := [⟨-13 * pi / 18, pi / 6⟩, ⟨-pi / 3, 2 * pi / 9⟩, ⟨-5 * pi / 18, 5 * pi / 18⟩] } := by
    rw [l8, if_neg (Ne.symm hne), a7]
  have r8 : h8[nr]? = some { br with axes := ⟨1, 1, 1⟩, constrain := [⟨-13 * pi / 18, pi / 6⟩, vec2.scale ⟨-pi / 3, 2 * pi / 9⟩ (-1), vec2.scale ⟨-5 * pi / 18, 5 * pi / 18⟩ (-1)] } := by
    rw [l8, if_pos rfl]
    simp only [hcr, List.nil_append, List.cons_append, vec2.scale_one]
  refine ⟨h8, ?_, a8, r8, ?_⟩
  · simp only [setThighs, boneAt, hl, hr, Outcome.bind, Nat.reduceSub, e1, e2, e3, e4, e5, e6, e7, e8]
  · intro q h1q h2q
    rw [l8, if_neg h2q, l7, if_neg h2q, l6, if_neg h2q, l5, if_neg h2q, l4, if_neg h1q, l3, if_neg h1q, l2, if_neg h1q, l1, if_neg h1q]

theorem setCalves_spec (pi : ℚ) (bones : List Nat) (heap : List (BoneNode Q M))
    (nl nr : Nat) (bl br : BoneNode Q M)
    (hl : bones[4]? = some nl) (hr : bones[29]? = some nr) (hne : nl ≠ nr)
    (hbl : heap[nl]? = some bl) (hbr : heap[nr]? = some br)
    (hcl : bl.constrain = []) (hcr : br.constrain = []) :
    ∃ h', setCalves pi bones heap = .ok h' ∧
      h'[nl]? = some
        { bl with
          axes := ⟨1, 0, 0⟩
          constrain := [⟨0, 7 * pi / 9⟩] } ∧
      h'[nr]? = some
        { br with
          axes := ⟨1, 0, 0⟩
          constrain := [⟨0, 7 * pi / 9⟩] } ∧
      ∀ q, nl ≠ q → nr ≠ q → h'[q]? = heap[q]? := by
  obtain ⟨h1, e1, l1⟩ := setAxes_lookup nl ⟨1, 0, 0⟩ heap bl hbl
  have a1 : h1[nl]? = some { bl with axes := ⟨1, 0, 0⟩ } := by rw [l1, if_pos rfl]
  obtain ⟨h2, e2, l2⟩ := pushConstrain_lookup nl ⟨0, 7 * pi / 9⟩ h1 _ a1
  have a2 : h2[nl]? = some { bl with axes := ⟨1, 0, 0⟩, constrain := [⟨0, 7 * pi / 9⟩] } := by
    rw [l2, if_pos rfl]
    simp only [hcl, List.nil_append, List.cons_append]
  have r2 : h2[nr]? = some br := by rw [l2, if_neg hne, l1, if_neg hne, hbr]
  obtain ⟨h3, e3, l3⟩ := copyAxes_lookup nl nr h2 _ br a2 r2
  have a3 : h3[nl]? = some { bl with axes := ⟨1, 0, 0⟩, constrain := [⟨0, 7 * pi / 9⟩] } := by
    rw [l3, if_neg (Ne.symm hne), a2]
  have r3 : h3[nr]? = some { br with axes := ⟨1, 0, 0⟩ } := by rw [l3, if_pos rfl]
  obtain ⟨h4, e4, l4⟩ := copyConstrain_lookup nl nr 0 1 h3 _ _ ⟨0, 7 * pi / 9⟩
    a3 rfl r3
  have a4 : h4[nl]? = some { bl with axes := ⟨1, 0, 0⟩, constrain := [⟨0, 7 * pi / 9⟩] } := by
    rw [l4, if_neg (Ne.symm hne), a3]
  have r4 : h4[nr]? = some { br with axes := ⟨1, 0, 0⟩, constrain := [⟨0, 7 * pi / 9⟩] } := by
    rw [l4, if_pos rfl]
    simp only [hcr, List.nil_append, List.cons_append, vec2.scale_one]
  refine ⟨h4, ?_, a4, r4, ?_⟩
  · simp only [setCalves, boneAt, hl, hr, Outcome.bind, Nat.reduceSub, e1, e2, e3, e4]
  · intro q h1q h2q
    rw [l4, if_neg h2q, l3, if_neg h2q, l2, if_neg h1q, l1, if_neg h1q]

theorem freshJoints_slot (S : Settings) (bones : List Nat) (heap : List (BoneNode Q M))
    (hf : freshJoints S bones heap = true) (k : Nat) (hk : k ∈ jointSlots S) :
    ∃ node b, bones[k]? = some node ∧ heap[node]? = some b ∧ b.constrain = [] := by
  simp only [freshJoints, Bool.and_eq_true, List.all_eq_true] at hf
  have h := hf.2 k hk
  cases hb : bones[k]? with
  | none => simp [hb] at h
  | some node =>
    cases hh : heap[node]? with
    | none => simp [hb, hh] at h
    | some b =>
      simp only [hb, hh, List.isEmpty_iff] at h
      exact ⟨node, b, rfl, hh, h⟩

theorem freshJoints_distinct (S : Settings) (bones : List Nat) (heap : List (BoneNode Q M))
    (hf : freshJoints S bones heap = true) (k k' n n' : Nat) (hk : k ∈ jointSlots S)
    (hk' : k' ∈ jointSlots S) (hne : k ≠ k') (hn : bones[k]? = some n)
    (hn' : bones[k']? = some n') : n ≠ n' := by
  simp only [freshJoints, Bool.and_eq_true, decide_eq_true_eq] at hf
  intro heq
  apply hne
  apply List.inj_on_of_nodup_map hf.1 hk hk'
  rw [hn, hn', heq]

/-- The table `setJointConstraints` writes into joints that are distinct bones with empty
limit lists: the free axes and the limits of the left and of the right joint of each pair. -/
theorem setJointConstraints_table (S : Settings) (bones : List Nat)
    (heap : List (BoneNode Q M)) (hf : freshJoints S bones heap = true) :
    ∃ h', setJointConstraints S bones heap = .ok h' ∧
      jointPair h' bones 11 21 ⟨1, 1, 1⟩
        [⟨-5 * S.pi / 18, S.pi⟩, ⟨-S.pi / 2, S.pi / 2⟩, ⟨-13 * S.pi / 18, S.pi / 2⟩]
        [⟨-5 * S.pi / 18, S.pi⟩, vec2.scale ⟨-S.pi / 2, S.pi / 2⟩ (-1), vec2.scale ⟨-13 * S.pi / 18, S.pi / 2⟩ (-1)] ∧
      jointPair h' bones 12 22 ⟨1, 0, 0⟩
        [⟨-S.pi / 18, 7 * S.pi / 9⟩]
        [⟨-S.pi / 18, 7 * S.pi / 9⟩] ∧
      (S.handJointDOFs = 6 →
        jointPair h' bones 13 23 ⟨1, 0, 1⟩
          [⟨-2 * S.pi / 9, S.pi / 6⟩, ⟨-7 * S.pi / 18, S.pi / 3⟩]
          [⟨-2 * S.pi / 9, S.pi / 6⟩, vec2.scale ⟨-7 * S.pi / 18, S.pi / 3⟩ (-1)]) ∧
      jointPair h' bones 3 28 ⟨1, 1, 1⟩
        [⟨-13 * S.pi / 18, S.pi / 6⟩, ⟨-S.pi / 3, 2 * S.pi / 9⟩, ⟨-5 * S.pi / 18, 5 * S.pi / 18⟩]
        [⟨-13 * S.pi / 18, S.pi / 6⟩, vec2.scale ⟨-S.pi / 3, 2 * S.pi / 9⟩ (-1), vec2.scale ⟨-5 * S.pi / 18, 5 * S.pi / 18⟩ (-1)] ∧
      jointPair h' bones 4 29 ⟨1, 0, 0⟩
        [⟨0, 7 * S.pi / 9⟩]
        [⟨0, 7 * S.pi / 9⟩] := by
  by_cases hd : S.handJointDOFs = 6
  · have mem : ∀ k, k ∈ [11, 12, 13, 3, 4, 21, 22, 23, 28, 29] → k ∈ jointSlots S := by
      intro k hk
      simpa [jointSlots, jointPairs, hd] using hk
    obtain ⟨n11, b11, p11, q11, c11⟩ := freshJoints_slot S bones heap hf 11 (mem 11 (by simp))
    obtain ⟨n21, b21, p21, q21, c21⟩ := freshJoints_slot S bones heap hf 21 (mem 21 (by simp))
    obtain ⟨n12, b12, p12, q12, c12⟩ := freshJoints_slot S bones heap hf 12 (mem 12 (by simp))
    obtain ⟨n22, b22, p22, q22, c22⟩ := freshJoints_slot S bones heap hf 22 (mem 22 (by simp))
    obtain ⟨n13, b13, p13, q13, c13⟩ := freshJoints_slot S bones heap hf 13 (mem 13 (by simp))
    obtain ⟨n23, b23, p23, q23, c23⟩ := freshJoints_slot S bones heap hf 23 (mem 23 (by simp))
    obtain ⟨n3, b3, p3, q3, c3⟩ := freshJoints_slot S bones heap hf 3 (mem 3 (by simp))
    obtain ⟨n28, b28, p28, q28, c28⟩ := freshJoints_slot S bones heap hf 28 (mem 28 (by simp))
    obtain ⟨n4, b4, p4, q4, c4⟩ := freshJoints_slot S bones heap hf 4 (mem 4 (by simp))
    obtain ⟨n29, b29, p29, q29, c29⟩ := freshJoints_slot S bones heap hf 29 (mem 29 (by simp))
    have ne : ∀ k k' n n', k ∈ jointSlots S → k' ∈ jointSlots S → k ≠ k' →
        bones[k]? = some n → bones[k']? = some n' → n ≠ n' :=
      fun k k' n n' => freshJoints_distinct S bones heap hf k k' n n'
    have hbl1 : heap[n11]? = some b11 := q11
    have hbr1 : heap[n21]? = some b21 := q21
    obtain ⟨H1, E1, L1, R1, F1⟩ := setShoulders_spec S.pi bones heap n11 n21 b11 b21
      p11 p21 (ne 11 21 _ _ (mem 11 (by simp)) (mem 21 (by simp)) (by decide) p11 p21)
      hbl1 hbr1 c11 c21
    have hbl2 : H1[n12]? = some b12 := by
      rw [F1 _ (ne 11 12 _ _ (mem 11 (by simp)) (mem 12 (by simp)) (by decide) p11 p12)
        (ne 21 12 _ _ (mem 21 (by simp)) (mem 12 (by simp)) (by decide) p21 p12)]
      exact q12
    have hbr2 : H1[n22]? = some b22 := by
      rw [F1 _ (ne 11 22 _ _ (mem 11 (by simp)) (mem 22 (by simp)) (by decide) p11 p22)
        (ne 21 22 _ _ (mem 21 (by simp)) (mem 22 (by simp)) (by decide) p21 p22)]
      exact q22
    obtain ⟨H2, E2, L2, R2, F2⟩ := setElbows_spec S.pi bones H1 n12 n22 b12 b22
      p12 p22 (ne 12 22 _ _ (mem 12 (by simp)) (mem 22 (by simp)) (by decide) p12 p22)
      hbl2 hbr2 c12 c22
    have hbl3 : H2[n13]? = some b13 := by
      rw [F2 _ (ne 12 13 _ _ (mem 12 (by simp)) (mem 13 (by simp)) (by decide) p12 p13)
        (ne 22 13 _ _ (mem 22 (by simp)) (mem 13 (by simp)) (by decide) p22 p13), 
        F1 _ (ne 11 13 _ _ (mem 11 (by simp)) (mem 13 (by simp)) (by decide) p11 p13)
        (ne 21 13 _ _ (mem 21 (by simp)) (mem 13 (by simp)) (by decide) p21 p13)]
      exact q13
    have hbr3 : H2[n23]? = some b23 := by
      rw [F2 _ (ne 12 23 _ _ (mem 12 (by simp)) (mem 23 (by simp)) (by decide) p12 p23)
        (ne 22 23 _ _ (mem 22 (by simp)) (mem 23 (by simp)) (by decide) p22 p23), 
        F1 _ (ne 11 23 _ _ (mem 11 (by simp)) (mem 23 (by simp)) (by decide) p11 p23)
        (ne 21 23 _ _ (mem 21 (by simp)) (mem 23 (by simp)) (by decide) p21 p23)]
      exact q23
    obtain ⟨H3, E3, L3, R3, F3⟩ := setHands_spec S.pi bones H2 n13 n23 b13 b23
      p13 p23 (ne 13 23 _ _ (mem 13 (by simp)) (mem 23 (by simp)) (by decide) p13 p23)
      hbl3 hbr3 c13 c23
    have hbl4 : H3[n3]? = some b3 := by
      rw [F3 _ (ne 13 3 _ _ (mem 13 (by simp)) (mem 3 (by simp)) (by decide) p13 p3)
        (ne 23 3 _ _ (mem 23 (by simp)) (mem 3 (by simp)) (by decide) p23 p3), 
        F2 _ (ne 12 3 _ _ (mem 12 (by simp)) (mem 3 (by simp)) (by decide) p12 p3)
        (ne 22 3 _ _ (mem 22 (by simp)) (mem 3 (by simp)) (by decide) p22 p3), 
        F1 _ (ne 11 3 _ _ (mem 11 (by simp)) (mem 3 (by simp)) (by decide) p11 p3)
        (ne 21 3 _ _ (mem 21 (by simp)) (mem 3 (by simp)) (by decide) p21 p3)]
      exact q3
    have hbr4 : H3[n28]? = some b28 := by
      rw [F3 _ (ne 13 28 _ _ (mem 13 (by simp)) (mem 28 (by simp)) (by decide) p13 p28)
        (ne 23 28 _ _ (mem 23 (by simp)) (mem 28 (by simp)) (by decide) p23 p28), 
        F2 _ (ne 12 28 _ _ (mem 12 (by simp)) (mem 28 (by simp)) (by decide) p12 p28)
        (ne 22 28 _ _ (mem 22 (by simp)) (mem 28 (by simp)) (by decide) p22 p28), 
        F1 _ (ne 11 28 _ _ (mem 11 (by simp)) (mem 28 (by simp)) (by decide) p11 p28)
        (ne 21 28 _ _ (mem 21 (by simp)) (mem 28 (by simp)) (by decide) p21 p28)]
      exact q28
    obtain ⟨H4, E4, L4, R4, F4⟩ := setThighs_spec S.pi bones H3 n3 n28 b3 b28
      p3 p28 (ne 3 28 _ _ (mem 3 (by simp)) (mem 28 (by simp)) (by decide) p3 p28)
      hbl4 hbr4 c3 c28
    have hbl5 : H4[n4]? = some b4 := by
      rw [F4 _ (ne 3 4 _ _ (mem 3 (by simp)) (mem 4 (by simp)) (by decide) p3 p4)
        (ne 28 4 _ _ (mem 28 (by simp)) (mem 4 (by simp)) (by decide) p28 p4), 
        F3 _ (ne 13 4 _ _ (mem 13 (by simp)) (mem 4 (by simp)) (by decide) p13 p4)
        (ne 23 4 _ _ (mem 23 (by simp)) (mem 4 (by simp)) (by decide) p23 p4), 
        F2 _ (ne 12 4 _ _ (mem 12 (by simp)) (mem 4 (by simp)) (by decide) p12 p4)
        (ne 22 4 _ _ (mem 22 (by simp)) (mem 4 (by simp)) (by decide) p22 p4), 
        F1 _ (ne 11 4 _ _ (mem 11 (by simp)) (mem 4 (by simp)) (by decide) p11 p4)
        (ne 21 4 _ _ (mem 21 (by simp)) (mem 4 (by simp)) (by decide) p21 p4)]
      exact q4
    have hbr5 : H4[n29]? = some b29 := by
      rw [F4 _ (ne 3 29 _ _ (mem 3 (by simp)) (mem 29 (by simp)) (by decide) p3 p29)
        (ne 28 29 _ _ (mem 28 (by simp)) (mem 29 (by simp)) (by decide) p28 p29), 
        F3 _ (ne 13 29 _ _ (mem 13 (by simp)) (mem 29 (by simp)) (by decide) p13 p29)
        (ne 23 29 _ _ (mem 23 (by simp)) (mem 29 (by simp)) (by decide) p23 p29), 
        F2 _ (ne 12 29 _ _ (mem 12 (by simp)) (mem 29 (by simp)) (by decide) p12 p29)
        (ne 22 29 _ _ (mem 22 (by simp)) (mem 29 (by simp)) (by decide) p22 p29), 
        F1 _ (ne 11 29 _ _ (mem 11 (by simp)) (mem 29 (by simp)) (by decide) p11 p29)
        (ne 21 29 _ _ (mem 21 (by simp)) (mem 29 (by simp)) (by decide) p21 p29)]
      exact q29
    obtain ⟨H5, E5, L5, R5, F5⟩ := setCalves_spec S.pi bones H4 n4 n29 b4 b29
      p4 p29 (ne 4 29 _ _ (mem 4 (by simp)) (mem 29 (by simp)) (by decide) p4 p29)
      hbl5 hbr5 c4 c29
    have finl1 := L1
    have gl1 : H5[n11]? = H1[n11]? := by
      rw [F5 _ (ne 4 11 _ _ (mem 4 (by simp)) (mem 11 (by simp)) (by decide) p4 p11)
        (ne 29 11 _ _ (mem 29 (by simp)) (mem 11 (by simp)) (by decide) p29 p11), 
        F4 _ (ne 3 11 _ _ (mem 3 (by simp)) (mem 11 (by simp)) (by decide) p3 p11)
        (ne 28 11 _ _ (mem 28 (by simp)) (mem 11 (by simp)) (by decide) p28 p11), 
        F3 _ (ne 13 11 _ _ (mem 13 (by simp)) (mem 11 (by simp)) (by decide) p13 p11)
        (ne 23 11 _ _ (mem 23 (by simp)) (mem 11 (by simp)) (by decide) p23 p11), 
        F2 _ (ne 12 11 _ _ (mem 12 (by simp)) (mem 11 (by simp)) (by decide) p12 p11)
        (ne 22 11 _ _ (mem 22 (by simp)) (mem 11 (by simp)) (by decide) p22 p11)]
    have finr1 := R1
    have gr1 : H5[n21]? = H1[n21]? := by
      rw [F5 _ (ne 4 21 _ _ (mem 4 (by simp)) (mem 21 (by simp)) (by decide) p4 p21)
        (ne 29 21 _ _ (mem 29 (by simp)) (mem 21 (by simp)) (by decide) p29 p21), 
        F4 _ (ne 3 21 _ _ (mem 3 (by simp)) (mem 21 (by simp)) (by decide) p3 p21)
        (ne 28 21 _ _ (mem 28 (by simp)) (mem 21 (by simp)) (by decide) p28 p21), 
        F3 _ (ne 13 21 _ _ (mem 13 (by simp)) (mem 21 (by simp)) (by decide) p13 p21)
        (ne 23 21 _ _ (mem 23 (by simp)) (mem 21 (by simp)) (by decide) p23 p21), 
        F2 _ (ne 12 21 _ _ (mem 12 (by simp)) (mem 21 (by simp)) (by decide) p12 p21)
        (ne 22 21 _ _ (mem 22 (by simp)) (mem 21 (by simp)) (by decide) p22 p21)]
    have finl2 := L2
    have gl2 : H5[n12]? = H2[n12]? := by
      rw [F5 _ (ne 4 12 _ _ (mem 4 (by simp)) (mem 12 (by simp)) (by decide) p4 p12)
        (ne 29 12 _ _ (mem 29 (by simp)) (mem 12 (by simp)) (by decide) p29 p12), 
        F4 _ (ne 3 12 _ _ (mem 3 (by simp)) (mem 12 (by simp)) (by decide) p3 p12)
        (ne 28 12 _ _ (mem 28 (by simp)) (mem 12 (by simp)) (by decide) p28 p12), 
        F3 _ (ne 13 12 _ _ (mem 13 (by simp)) (mem 12 (by simp)) (by decide) p13 p12)
        (ne 23 12 _ _ (mem 23 (by simp)) (mem 12 (by simp)) (by decide) p23 p12)]
    have finr2 := R2
    have gr2 : H5[n22]? = H2[n22]? := by
      rw [F5 _ (ne 4 22 _ _ (mem 4 (by simp)) (mem 22 (by simp)) (by decide) p4 p22)
        (ne 29 22 _ _ (mem 29 (by simp)) (mem 22 (by simp)) (by decide) p29 p22), 
        F4 _ (ne 3 22 _ _ (mem 3 (by simp)) (mem 22 (by simp)) (by decide) p3 p22)
        (ne 28 22 _ _ (mem 28 (by simp)) (mem 22 (by simp)) (by decide) p28 p22), 
        F3 _ (ne 13 22 _ _ (mem 13 (by simp)) (mem 22 (by simp)) (by decide) p13 p22)
        (ne 23 22 _ _ (mem 23 (by simp)) (mem 22 (by simp)) (by decide) p23 p22)]
    have finl3 := L3
    have gl3 : H5[n13]? = H3[n13]? := by
      rw [F5 _ (ne 4 13 _ _ (mem 4 (by simp)) (mem 13 (by simp)) (by decide) p4 p13)
        (ne 29 13 _ _ (mem 29 (by simp)) (mem 13 (by simp)) (by decide) p29 p13), 
        F4 _ (ne 3 13 _ _ (mem 3 (by simp)) (mem 13 (by simp)) (by decide) p3 p13)
        (ne 28 13 _ _ (mem 28 (by simp)) (mem 13 (by simp)) (by decide) p28 p13)]
    have finr3 := R3
    have gr3 : H5[n23]? = H3[n23]? := by
      rw [F5 _ (ne 4 23 _ _ (mem 4 (by simp)) (mem 23 (by simp)) (by decide) p4 p23)
        (ne 29 23 _ _ (mem 29 (by simp)) (mem 23 (by simp)) (by decide) p29 p23), 
        F4 _ (ne 3 23 _ _ (mem 3 (by simp)) (mem 23 (by simp)) (by decide) p3 p23)
        (ne 28 23 _ _ (mem 28 (by simp)) (mem 23 (by simp)) (by decide) p28 p23)]
    have finl4 := L4
    have gl4 : H5[n3]? = H4[n3]? := by
      rw [F5 _ (ne 4 3 _ _ (mem 4 (by simp)) (mem 3 (by simp)) (by decide) p4 p3)
        (ne 29 3 _ _ (mem 29 (by simp)) (mem 3 (by simp)) (by decide) p29 p3)]
    have finr4 := R4
    have gr4 : H5[n28]? = H4[n28]? := by
      rw [F5 _ (ne 4 28 _ _ (mem 4 (by simp)) (mem 28 (by simp)) (by decide) p4 p28)
        (ne 29 28 _ _ (mem 29 (by simp)) (mem 28 (by simp)) (by decide) p29 p28)]
    have gl5 : H5[n4]? = H5[n4]? := rfl
    have gr5 : H5[n29]? = H5[n29]? := rfl
    refine ⟨H5, ?_, ?_⟩
    · simp only [setJointConstraints, E1, E2, E3, E4, E5, hd, if_true, if_false, Outcome.bind]
    · exact ⟨⟨n11, n21, _, _, p11, p21, gl1.trans L1, gr1.trans R1, rfl, rfl, rfl, rfl⟩,
        ⟨n12, n22, _, _, p12, p22, gl2.trans L2, gr2.trans R2, rfl, rfl, rfl, rfl⟩,
        fun _ => ⟨n13, n23, _, _, p13, p23, gl3.trans L3, gr3.trans R3, rfl, rfl, rfl, rfl⟩,
        ⟨n3, n28, _, _, p3, p28, gl4.trans L4, gr4.trans R4, rfl, rfl, rfl, rfl⟩,
        ⟨n4, n29, _, _, p4, p29, gl5.trans L5, gr5.trans R5, rfl, rfl, rfl, rfl⟩⟩
  · have mem : ∀ k, k ∈ [11, 12, 3, 4, 21, 22, 28, 29] → k ∈ jointSlots S := by
      intro k hk
      simpa [jointSlots, jointPairs, hd] using hk
    obtain ⟨n11, b11, p11, q11, c11⟩ := freshJoints_slot S bones heap hf 11 (mem 11 (by simp))
    obtain ⟨n21, b21, p21, q21, c21⟩ := freshJoints_slot S bones heap hf 21 (mem 21 (by simp))
    obtain ⟨n12, b12, p12, q12, c12⟩ := freshJoints_slot S bones heap hf 12 (mem 12 (by simp))
    obtain ⟨n22, b22, p22, q22, c22⟩ := freshJoints_slot S bones heap hf 22 (mem 22 (by simp))
    obtain ⟨n3, b3, p3, q3, c3⟩ := freshJoints_slot S bones heap hf 3 (mem 3 (by simp))
    obtain ⟨n28, b28, p28, q28, c28⟩ := freshJoints_slot S bones heap hf 28 (mem 28 (by simp))
    obtain ⟨n4, b4, p4, q4, c4⟩ := freshJoints_slot S bones heap hf 4 (mem 4 (by simp))
    obtain ⟨n29, b29, p29, q29, c29⟩ := freshJoints_slot S bones heap hf 29 (mem 29 (by simp))
    have ne : ∀ k k' n n', k ∈ jointSlots S → k' ∈ jointSlots S → k ≠ k' →
        bones[k]? = some n → bones[k']? = some n' → n ≠ n' :=
      fun k k' n n' => freshJoints_distinct S bones heap hf k k' n n'
    have hbl1 : heap[n11]? = some b11 := q11
    have hbr1 : heap[n21]? = some b21 := q21
    obtain ⟨H1, E1, L1, R1, F1⟩ := setShoulders_spec S.pi bones heap n11 n21 b11 b21
      p11 p21 (ne 11 21 _ _ (mem 11 (by simp)) (mem 21 (by simp)) (by decide) p11 p21)
      hbl1 hbr1 c11 c21
    have hbl2 : H1[n12]? = some b12 := by
      rw [F1 _ (ne 11 12 _ _ (mem 11 (by simp)) (mem 12 (by simp)) (by decide) p11 p12)
        (ne 21 12 _ _ (mem 21 (by simp)) (mem 12 (by simp)) (by decide) p21 p12)]
      exact q12
    have hbr2 : H1[n22]? = some b22 := by
      rw [F1 _ (ne 11 22 _ _ (mem 11 (by simp)) (mem 22 (by simp)) (by decide) p11 p22)
        (ne 21 22 _ _ (mem 21 (by simp)) (mem 22 (by simp)) (by decide) p21 p22)]
      exact q22
    obtain ⟨H2, E2, L2, R2, F2⟩ := setElbows_spec S.pi bones H1 n12 n22 b12 b22
      p12 p22 (ne 12 22 _ _ (mem 12 (by simp)) (mem 22 (by simp)) (by decide) p12 p22)
      hbl2 hbr2 c12 c22
    have hbl3 : H2[n3]? = some b3 := by
      rw [F2 _ (ne 12 3 _ _ (mem 12 (by simp)) (mem 3 (by simp)) (by decide) p12 p3)
        (ne 22 3 _ _ (mem 22 (by simp)) (mem 3 (by simp)) (by decide) p22 p3), 
        F1 _ (ne 11 3 _ _ (mem 11 (by simp)) (mem 3 (by simp)) (by decide) p11 p3)
        (ne 21 3 _ _ (mem 21 (by simp)) (mem 3 (by simp)) (by decide) p21 p3)]
      exact q3
    have hbr3 : H2[n28]? = some b28 := by
      rw [F2 _ (ne 12 28 _ _ (mem 12 (by simp)) (mem 28 (by simp)) (by decide) p12 p28)
        (ne 22 28 _ _ (mem 22 (by simp)) (mem 28 (by simp)) (by decide) p22 p28), 
        F1 _ (ne 11 28 _ _ (mem 11 (by simp)) (mem 28 (by simp)) (by decide) p11 p28)
        (ne 21 28 _ _ (mem 21 (by simp)) (mem 28 (by simp)) (by decide) p21 p28)]
      exact q28
    obtain ⟨H3, E3, L3, R3, F3⟩ := setThighs_spec S.pi bones H2 n3 n28 b3 b28
      p3 p28 (ne 3 28 _ _ (mem 3 (by simp)) (mem 28 (by simp)) (by decide) p3 p28)
      hbl3 hbr3 c3 c28
    have hbl4 : H3[n4]? = some b4 := by
      rw [F3 _ (ne 3 4 _ _ (mem 3 (by simp)) (mem 4 (by simp)) (by decide) p3 p4)
        (ne 28 4 _ _ (mem 28 (by simp)) (mem 4 (by simp)) (by decide) p28 p4), 
        F2 _ (ne 12 4 _ _ (mem 12 (by simp)) (mem 4 (by simp)) (by decide) p12 p4)
        (ne 22 4 _ _ (mem 22 (by simp)) (mem 4 (by simp)) (by decide) p22 p4), 
        F1 _ (ne 11 4 _ _ (mem 11 (by simp)) (mem 4 (by simp)) (by decide) p11 p4)
        (ne 21 4 _ _ (mem 21 (by simp)) (mem 4 (by simp)) (by decide) p21 p4)]
      exact q4
    have hbr4 : H3[n29]? = some b29 := by
      rw [F3 _ (ne 3 29 _ _ (mem 3 (by simp)) (mem 29 (by simp)) (by decide) p3 p29)
        (ne 28 29 _ _ (mem 28 (by simp)) (mem 29 (by simp)) (by decide) p28 p29), 
        F2 _ (ne 12 29 _ _ (mem 12 (by simp)) (mem 29 (by simp)) (by decide) p12 p29)
        (ne 22 29 _ _ (mem 22 (by simp)) (mem 29 (by simp)) (by decide) p22 p29), 
        F1 _ (ne 11 29 _ _ (mem 11 (by simp)) (mem 29 (by simp)) (by decide) p11 p29)
        (ne 21 29 _ _ (mem 21 (by simp)) (mem 29 (by simp)) (by decide) p21 p29)]
      exact q29
    obtain ⟨H4, E4, L4, R4, F4⟩ := setCalves_spec S.pi bones H3 n4 n29 b4 b29
      p4 p29 (ne 4 29 _ _ (mem 4 (by simp)) (mem 29 (by simp)) (by decide) p4 p29)
      hbl4 hbr4 c4 c29
    have finl1 := L1
    have gl1 : H4[n11]? = H1[n11]? := by
      rw [F4 _ (ne 4 11 _ _ (mem 4 (by simp)) (mem 11 (by simp)) (by decide) p4 p11)
        (ne 29 11 _ _ (mem 29 (by simp)) (mem 11 (by simp)) (by decide) p29 p11), 
        F3 _ (ne 3 11 _ _ (mem 3 (by simp)) (mem 11 (by simp)) (by decide) p3 p11)
        (ne 28 11 _ _ (mem 28 (by simp)) (mem 11 (by simp)) (by decide) p28 p11), 
        F2 _ (ne 12 11 _ _ (mem 12 (by simp)) (mem 11 (by simp)) (by decide) p12 p11)
        (ne 22 11 _ _ (mem 22 (by simp)) (mem 11 (by simp)) (by decide) p22 p11)]
    have finr1 := R1
    have gr1 : H4[n21]? = H1[n21]? := by
      rw [F4 _ (ne 4 21 _ _ (mem 4 (by simp)) (mem 21 (by simp)) (by decide) p4 p21)
        (ne 29 21 _ _ (mem 29 (by simp)) (mem 21 (by simp)) (by decide) p29 p21), 
        F3 _ (ne 3 21 _ _ (mem 3 (by simp)) (mem 21 (by simp)) (by decide) p3 p21)
        (ne 28 21 _ _ (mem 28 (by simp)) (mem 21 (by simp)) (by decide) p28 p21), 
        F2 _ (ne 12 21 _ _ (mem 12 (by simp)) (mem 21 (by simp)) (by decide) p12 p21)
        (ne 22 21 _ _ (mem 22 (by simp)) (mem 21 (by simp)) (by decide) p22 p21)]
    have finl2 := L2
    have gl2 : H4[n12]? = H2[n12]? := by
      rw [F4 _ (ne 4 12 _ _ (mem 4 (by simp)) (mem 12 (by simp)) (by decide) p4 p12)
        (ne 29 12 _ _ (mem 29 (by simp)) (mem 12 (by simp)) (by decide) p29 p12), 
        F3 _ (ne 3 12 _ _ (mem 3 (by simp)) (mem 12 (by simp)) (by decide) p3 p12)
        (ne 28 12 _ _ (mem 28 (by simp)) (mem 12 (by simp)) (by decide) p28 p12)]
    have finr2 := R2
    have gr2 : H4[n22]? = H2[n22]? := by
      rw [F4 _ (ne 4 22 _ _ (mem 4 (by simp)) (mem 22 (by simp)) (by decide) p4 p22)
        (ne 29 22 _ _ (mem 29 (by simp)) (mem 22 (by simp)) (by decide) p29 p22), 
        F3 _ (ne 3 22 _ _ (mem 3 (by simp)) (mem 22 (by simp)) (by decide) p3 p22)
        (ne 28 22 _ _ (mem 28 (by simp)) (mem 22 (by simp)) (by decide) p28 p22)]
    have finl3 := L3
    have gl3 : H4[n3]? = H3[n3]? := by
      rw [F4 _ (ne 4 3 _ _ (mem 4 (by simp)) (mem 3 (by simp)) (by decide) p4 p3)
        (ne 29 3 _ _ (mem 29 (by simp)) (mem 3 (by simp)) (by decide) p29 p3)]
    have finr3 := R3
    have gr3 : H4[n28]? = H3[n28]? := by
      rw [F4 _ (ne 4 28 _ _ (mem 4 (by simp)) (mem 28 (by simp)) (by decide) p4 p28)
        (ne 29 28 _ _ (mem 29 (by simp)) (mem 28 (by simp)) (by decide) p29 p28)]
    have gl4 : H4[n4]? = H4[n4]? := rfl
    have gr4 : H4[n29]? = H4[n29]? := rfl
    refine ⟨H4, ?_, ?_⟩
    · simp only [setJointConstraints, E1, E2, E3, E4, hd, if_true, if_false, Outcome.bind]
    · exact ⟨⟨n11, n21, _, _, p11, p21, gl1.trans L1, gr1.trans R1, rfl, rfl, rfl, rfl⟩,
        ⟨n12, n22, _, _, p12, p22, gl2.trans L2, gr2.trans R2, rfl, rfl, rfl, rfl⟩,
        fun h => absurd h hd,
        ⟨n3, n28, _, _, p3, p28, gl3.trans L3, gr3.trans R3, rfl, rfl, rfl, rfl⟩,
        ⟨n4, n29, _, _, p4, p29, gl4.trans L4, gr4.trans R4, rfl, rfl, rfl, rfl⟩⟩

/-- C15 fails on the code: lines 75-77 index `constrain` by the number of the axis (0 for x,
1 for y, 2 for z), not by the position of the axis among the flagged ones.  A bone with free
axes (x, z) and two limits has its z angle clamped against `constrain[2]`, which does not
exist: the access is out of range, for every pair of limits and every rotation.  The hands
that `setJointConstraints` configures for `handJointDOFs == 6` are such bones:
`applyJointConstraints` on the configured left hand (bone 13 of the example body) ends in
that invalid access, while on the configured elbow it does not. -/
theorem applyJointConstraints_indexes_by_axis :
    (∀ (c0 c1 : vec2) (rot : vec3), clampAxes ⟨1, 0, 1⟩ [c0, c1] rot = .fault) ∧
      (∀ (c0 c1 : vec2) (v : ℚ), clampAxis 1 [c0, c1] 2 v = .fault ∧
        clampAxis 1 [c0, c1] 1 v = .ok (clampValue c1.x c1.y v).2) ∧
      (setJointConstraints sixDofSettings (List.range 30) bodyHeap).bind
          (fun h => applyJointConstraints planar 5 13 h) = .fault ∧
      (setJointConstraints sixDofSettings (List.range 30) bodyHeap).bind
          (fun h => applyJointConstraints planar 5 12 h) ≠ .fault := by
  refine ⟨?_, ?_, by decide!, by decide!⟩
  · intro c0 c1 rot
    simp [clampAxes, clampAxis, Outcome.bind]
  · intro c0 c1 v
    simp [clampAxis]

/-- C16: after `setJointConstraints` has run on joints that are distinct bones whose limit
lists start empty, every joint it configures (shoulders, elbows, hands when
`handJointDOFs == 6`, thighs, calves; left and right) has as many limits as flagged free
axes, for either value of `handJointDOFs`. -/
theorem setJointConstraints_lengths (S : Settings) (bones : List Nat)
    (heap : List (BoneNode Q M)) (hf : freshJoints S bones heap = true) :
    ∃ h', setJointConstraints S bones heap = .ok h' ∧
      ∀ k ∈ jointSlots S, ∃ node b, bones[k]? = some node ∧ h'[node]? = some b ∧
        b.constrain.length = (freeAxes b.axes).length := by
  obtain ⟨h', e, ⟨l1, r1, bl1, br1, p1, q1, hl1, hr1, a1, a1', c1, c1'⟩,
    ⟨l2, r2, bl2, br2, p2, q2, hl2, hr2, a2, a2', c2, c2'⟩, hands,
    ⟨l4, r4, bl4, br4, p4, q4, hl4, hr4, a4, a4', c4, c4'⟩,
    ⟨l5, r5, bl5, br5, p5, q5, hl5, hr5, a5, a5', c5, c5'⟩⟩ :=
    setJointConstraints_table S bones heap hf
  refine ⟨h', e, ?_⟩
  intro k hk
  by_cases hd : S.handJointDOFs = 6
  · obtain ⟨l3, r3, bl3, br3, p3, q3, hl3, hr3, a3, a3', c3, c3'⟩ := hands hd
    simp only [jointSlots, jointPairs, hd, if_true, List.map_append, List.map_cons,
      List.map_nil, List.mem_append, List.mem_cons, List.mem_singleton, List.not_mem_nil,
      or_false, or_assoc, Nat.reduceSub] at hk
    rcases hk with rfl | rfl | rfl | rfl | rfl | rfl | rfl | rfl | rfl | rfl
    · exact ⟨l1, bl1, p1, hl1, by simp [a1, c1, freeAxes]⟩
    · exact ⟨l2, bl2, p2, hl2, by simp [a2, c2, freeAxes]⟩
    · exact ⟨l3, bl3, p3, hl3, by simp [a3, c3, freeAxes]⟩
    · exact ⟨l4, bl4, p4, hl4, by simp [a4, c4, freeAxes]⟩
    · exact ⟨l5, bl5, p5, hl5, by simp [a5, c5, freeAxes]⟩
    · exact ⟨r1, br1, q1, hr1, by simp [a1', c1', freeAxes]⟩
    · exact ⟨r2, br2, q2, hr2, by simp [a2', c2', freeAxes]⟩
    · exact ⟨r3, br3, q3, hr3, by simp [a3', c3', freeAxes]⟩
    · exact ⟨r4, br4, q4, hr4, by simp [a4', c4', freeAxes]⟩
    · exact ⟨r5, br5, q5, hr5, by simp [a5', c5', freeAxes]⟩
  · simp only [jointSlots, jointPairs, hd, if_false, List.map_append, List.map_cons,
      List.map_nil, List.mem_append, List.mem_cons, List.mem_singleton, List.not_mem_nil,
      or_false, or_assoc, List.append_nil, Nat.reduceSub] at hk
    rcases hk with rfl | rfl | rfl | rfl | rfl | rfl | rfl | rfl
    · exact ⟨l1, bl1, p1, hl1, by simp [a1, c1, freeAxes]⟩
    · exact ⟨l2, bl2, p2, hl2, by simp [a2, c2, freeAxes]⟩
    · exact ⟨l4, bl4, p4, hl4, by simp [a4, c4, freeAxes]⟩
    · exact ⟨l5, bl5, p5, hl5, by simp [a5, c5, freeAxes]⟩
    · exact ⟨r1, br1, q1, hr1, by simp [a1', c1', freeAxes]⟩
    · exact ⟨r2, br2, q2, hr2, by simp [a2', c2', freeAxes]⟩
    · exact ⟨r4, br4, q4, hr4, by simp [a4', c4', freeAxes]⟩
    · exact ⟨r5, br5, q5, hr5, by simp [a5', c5', freeAxes]⟩

/-- C16, for the example body with `handJointDOFs == 6`. -/
theorem setJointConstraints_lengths_witness :
    ∃ h', setJointConstraints sixDofSettings (List.range 30) bodyHeap = .ok h' ∧
      ∀ k ∈ jointSlots sixDofSettings, ∃ node b, (List.range 30)[k]? = some node ∧
        h'[node]? = some b ∧ b.constrain.length = (freeAxes b.axes).length :=
  setJointConstraints_lengths sixDofSettings (List.range 30) bodyHeap (by decide)

theorem clampValue_neg (lo hi v : ℚ) :
    clampValue (-lo) (-hi) (-v) = ((clampValue lo hi v).1, -(clampValue lo hi v).2) := by
  have hmm : min lo hi ≤ max lo hi := min_le_max
  rw [clampValue_eq, clampValue_eq, min_neg_neg, max_neg_neg]
  by_cases h1 : v < min lo hi
  · have h2 : ¬ -v < -max lo hi := by
      intro h; have := neg_lt_neg_iff.mp h; linarith
    have h3 : -min lo hi < -v := neg_lt_neg_iff.mpr h1
    simp only [h1, h2, h3, if_true, if_false]
  · by_cases h2 : max lo hi < v
    · have h3 : -v < -max lo hi := neg_lt_neg_iff.mpr h2
      simp only [h1, h2, h3, if_true, if_false]
    · have h3 : ¬ -v < -max lo hi := fun h => h2 (neg_lt_neg_iff.mp h)
      have h4 : ¬ -min lo hi < -v := fun h => h1 (neg_lt_neg_iff.mp h)
      simp only [h1, h2, h3, h4, if_false]

theorem mirroredLimits_cons (pi : ℚ) (a : vec2) (rest : List vec2)
    (hord : ∀ c ∈ rest, 0 < pi → c.x < c.y) :
    mirroredLimits pi (a :: rest) (a :: rest.map (fun c => c.scale (-1))) := by
  refine ⟨by simp, by simp, ?_⟩
  intro j cl hj hcl
  obtain ⟨j', rfl⟩ : ∃ j', j = j' + 1 := ⟨j - 1, by omega⟩
  simp only [List.getElem?_cons_succ] at hcl ⊢
  have hmem : cl ∈ rest := List.getElem?_mem hcl
  refine ⟨cl.scale (-1), by simp [List.getElem?_map, hcl], rfl, by simp [vec2.scale],
    by simp [vec2.scale], ?_, ?_⟩
  · intro hpi
    have := hord cl hmem hpi
    simp only [vec2.scale]
    linarith
  · intro v
    have := clampValue_neg cl.x cl.y v
    simpa [vec2.scale] using this

/-- C17: the joint limits `setJointConstraints` writes are mirrored between left and right.
For every configured pair the right joint has the axes of the left one and as many limits;
the first entries are equal; every later right entry is the left entry multiplied by -1
(stored as `(-min, -max)`, first component above the second for `pi > 0`), and clamping `-v`
against it yields the negation of clamping `v` against the left entry, with the same flag,
for every angle `v`. -/
theorem setJointConstraints_mirrored (S : Settings) (bones : List Nat)
    (heap : List (BoneNode Q M)) (hf : freshJoints S bones heap = true) :
    ∃ h', setJointConstraints S bones heap = .ok h' ∧
      ∀ pair ∈ jointPairs S, ∃ nl nr bl br, bones[pair.1]? = some nl ∧
        bones[pair.2]? = some nr ∧ h'[nl]? = some bl ∧ h'[nr]? = some br ∧
        br.axes = bl.axes ∧ mirroredLimits S.pi bl.constrain br.constrain := by
  obtain ⟨h', e, ⟨l1, r1, bl1, br1, p1, q1, hl1, hr1, a1, a1', c1, c1'⟩,
    ⟨l2, r2, bl2, br2, p2, q2, hl2, hr2, a2, a2', c2, c2'⟩, hands,
    ⟨l4, r4, bl4, br4, p4, q4, hl4, hr4, a4, a4', c4, c4'⟩,
    ⟨l5, r5, bl5, br5, p5, q5, hl5, hr5, a5, a5', c5, c5'⟩⟩ :=
    setJointConstraints_table S bones heap hf
  have m1 : mirroredLimits S.pi bl1.constrain br1.constrain := by
    rw [c1, c1']
    apply mirroredLimits_cons
    intro c hc hpi
    simp only [List.mem_cons, List.mem_singleton, List.not_mem_nil, or_false] at hc
    rcases hc with rfl | rfl <;> simp only <;> linarith
  have m2 : mirroredLimits S.pi bl2.constrain br2.constrain := by
    rw [c2, c2']
    apply mirroredLimits_cons
    intro c hc
    exact absurd hc (List.not_mem_nil c)
  have m4 : mirroredLimits S.pi bl4.constrain br4.constrain := by
    rw [c4, c4']
    apply mirroredLimits_cons
    intro c hc hpi
    simp only [List.mem_cons, List.mem_singleton, List.not_mem_nil, or_false] at hc
    rcases hc with rfl | rfl <;> simp only <;> linarith
  have m5 : mirroredLimits S.pi bl5.constrain br5.constrain := by
    rw [c5, c5']
    apply mirroredLimits_cons
    intro c hc
    exact absurd hc (List.not_mem_nil c)
  refine ⟨h', e, ?_⟩
  intro pair hpair
  by_cases hd : S.handJointDOFs = 6
  · obtain ⟨l3, r3, bl3, br3, p3, q3, hl3, hr3, a3, a3', c3, c3'⟩ := hands hd
    have m3 : mirroredLimits S.pi bl3.constrain br3.constrain := by
      rw [c3, c3']
      apply mirroredLimits_cons
      intro c hc hpi
      simp only [List.mem_singleton] at hc
      subst hc
      simp only
      linarith
    simp only [jointPairs, hd, if_true, List.mem_append, List.mem_cons, List.mem_singleton,
      List.not_mem_nil, or_false, or_assoc, Nat.reduceSub] at hpair
    rcases hpair with rfl | rfl | rfl | rfl | rfl
    · exact ⟨l1, r1, bl1, br1, p1, q1, hl1, hr1, a1'.trans a1.symm, m1⟩
    · exact ⟨l2, r2, bl2, br2, p2, q2, hl2, hr2, a2'.trans a2.symm, m2⟩
    · exact ⟨l3, r3, bl3, br3, p3, q3, hl3, hr3, a3'.trans a3.symm, m3⟩
    · exact ⟨l4, r4, bl4, br4, p4, q4, hl4, hr4, a4'.trans a4.symm, m4⟩
    · exact ⟨l5, r5, bl5, br5, p5, q5, hl5, hr5, a5'.trans a5.symm, m5⟩
  · simp only [jointPairs, hd, if_false, List.mem_append, List.mem_cons, List.mem_singleton,
      List.not_mem_nil, or_false, or_assoc, List.append_nil, Nat.reduceSub] at hpair
    rcases hpair with rfl | rfl | rfl | rfl
    · exact ⟨l1, r1, bl1, br1, p1, q1, hl1, hr1, a1'.trans a1.symm, m1⟩
    · exact ⟨l2, r2, bl2, br2, p2, q2, hl2, hr2, a2'.trans a2.symm, m2⟩
    · exact ⟨l4, r4, bl4, br4, p4, q4, hl4, hr4, a4'.trans a4.symm, m4⟩
    · exact ⟨l5, r5, bl5, br5, p5, q5, hl5, hr5, a5'.trans a5.symm, m5⟩

/-- C17, for the example body with `handJointDOFs == 6`. -/
theorem setJointConstraints_mirrored_witness :
    ∃ h', setJointConstraints sixDofSettings (List.range 30) bodyHeap = .ok h' ∧
      ∀ pair ∈ jointPairs sixDofSettings, ∃ nl nr bl br, (List.range 30)[pair.1]? = some nl ∧
        (List.range 30)[pair.2]? = some nr ∧ h'[nl]? = some bl ∧ h'[nr]? = some br ∧
        br.axes = bl.axes ∧ mirroredLimits sixDofSettings.pi bl.constrain br.constrain :=
  setJointConstraints_mirrored sixDofSettings (List.range 30) bodyHeap (by decide)

/-! ## The chain walked by `applyJointConstraints` -/

theorem chainEnds_succ (heap : List (BoneNode Q M)) :
    ∀ d bone, chainEnds heap d bone = true → chainEnds heap (d + 1) bone = true := by
  intro d
  induction d with
  | zero =>
    intro bone h
    unfold chainEnds at h ⊢
    cases hb : heap[bone]? with
    | none => simp [hb] at h
    | some b =>
      simp only [hb] at h
      simp [h]
  | succ d ih =>
    intro bone h
    unfold chainEnds at h ⊢
    cases hb : heap[bone]? with
    | none => simp [hb] at h
    | some b =>
      simp only [hb, Bool.or_eq_true, Bool.and_eq_true] at h ⊢
      rcases h with h | ⟨h1, h2⟩
      · exact Or.inl h
      · exact Or.inr ⟨h1, ih _ h2⟩

theorem chainEnds_of_mem (heap : List (BoneNode Q M)) :
    ∀ d q p, p ∈ chainBones heap d q → ∀ k, chainEnds heap k q = true →
      chainEnds heap k p = true := by
  intro d
  induction d with
  | zero => intro q p hp; exact absurd hp (List.not_mem_nil p)
  | succ d ih =>
    intro q p hp k hk
    unfold chainBones at hp
    cases hb : heap[q]? with
    | none => simp [hb] at hp
    | some b =>
      simp only [hb] at hp
      by_cases hinit : b.initialized = true
      · simp only [hinit, if_true, List.mem_cons] at hp
        rcases hp with rfl | hp
        · exact hk
        · cases k with
          | zero => simp [chainEnds, hb, hinit] at hk
          | succ k =>
            have hk' : chainEnds heap k b.parent = true := by
              simp only [chainEnds, hb, hinit, Bool.not_true, Bool.false_or,
                Bool.and_eq_true] at hk
              exact hk.2
            exact chainEnds_succ heap k p (ih b.parent p hp k hk')
      · simp [hinit] at hp

theorem not_mem_chainBones_parent (heap : List (BoneNode Q M)) (bone : Nat)
    (b : BoneNode Q M) (hb : heap[bone]? = some b) (hinit : b.initialized = true) (d : Nat) :
    ∀ k, chainEnds heap k bone = true → bone ∉ chainBones heap d b.parent := by
  intro k
  induction k with
  | zero => intro hk; simp [chainEnds, hb, hinit] at hk
  | succ k ih =>
    intro hk hmem
    have hk' : chainEnds heap k b.parent = true := by
      simp only [chainEnds, hb, hinit, Bool.not_true, Bool.false_or, Bool.and_eq_true] at hk
      exact hk.2
    exact ih (chainEnds_of_mem heap d b.parent bone hmem k hk') hmem

theorem chainBones_congr {h h' : List (BoneNode Q M)} (hs : SameShape h h') :
    ∀ d p, chainBones h d p = chainBones h' d p := by
  intro d
  induction d with
  | zero => intro p; rfl
  | succ d ih =>
    intro p
    rcases hs.cases p with ⟨h1, h2⟩ | ⟨b, b', h1, h2, hsh⟩
    · simp [chainBones, h1, h2]
    · rw [shape_eq_iff] at hsh
      simp [chainBones, h1, h2, hsh.2.2.1, hsh.2.1, ih]

theorem applyJointConstraints_chain (K : KoreMath Q M) :
    ∀ (d fuel bone : Nat) (heap : List (BoneNode Q M)),
      chainEnds heap d bone = true → d < fuel →
      ∃ h', applyJointConstraints K fuel bone heap = .ok h' ∧
        ∀ p, h'[p]? = if p ∈ chainBones heap d bone then (heap[p]?).map (constrained K)
          else heap[p]? := by
  intro d
  induction d with
  | zero =>
    intro fuel bone heap hc hf
    obtain ⟨f, rfl⟩ : ∃ f, fuel = f + 1 := ⟨fuel - 1, by omega⟩
    unfold applyJointConstraints
    cases hb : heap[bone]? with
    | none => simp [chainEnds, hb] at hc
    | some b =>
      simp only [chainEnds, hb, Bool.not_eq_true'] at hc
      simp only [hc, Bool.false_eq_true, if_false]
      exact ⟨heap, rfl, fun p => by simp [chainBones]⟩
  | succ d ih =>
    intro fuel bone heap hc hf
    obtain ⟨f, rfl⟩ : ∃ f, fuel = f + 1 := ⟨fuel - 1, by omega⟩
    unfold applyJointConstraints
    cases hb : heap[bone]? with
    | none => simp [chainEnds, hb] at hc
    | some b =>
      simp only []
      by_cases hinit : b.initialized = true
      · have hc' := hc
        simp only [chainEnds, hb, hinit, Bool.not_true, Bool.false_or,
          Bool.and_eq_true] at hc'
        obtain ⟨rot, hrot⟩ := clampAxes_ok b.axes b.constrain (K.quatToEuler b.quaternion) hc'.1
        have hcon : constrained K b = { b with
            quaternion := K.normalize (K.eulerToQuat rot.x rot.y rot.z)
            local_ := K.mul b.transform
              (K.transpose (K.matrix (K.normalize (K.eulerToQuat rot.x rot.y rot.z)))) } := by
          simp only [constrained, hrot]
        have hsh := sameShape_set heap bone b (constrained K b) hb (by rw [hcon]; rfl)
        obtain ⟨h', h1, h2⟩ := ih f b.parent (heap.set bone (constrained K b))
          ((chainEnds_congr hsh d b.parent).symm.trans hc'.2) (by omega)
        refine ⟨h', ?_, ?_⟩
        · rw [if_pos hinit]
          simp only [hrot]
          rw [← hcon]
          exact h1
        · intro p
          have hnot := not_mem_chainBones_parent heap bone b hb hinit d (d + 1) hc
          rw [h2 p, ← chainBones_congr hsh d b.parent, getElem?_set_valid _ _ _ _ _ hb]
          simp only [chainBones, hb, hinit, if_true, List.mem_cons]
          by_cases hp : bone = p
          · subst hp
            simp [hnot, hb]
          · have hp' : ¬ p = bone := fun h => hp h.symm
            simp only [hp, hp', if_false, false_or]
      · have hinit' : b.initialized = false := by simpa using hinit
        refine ⟨heap, by simp [hinit'], fun p => ?_⟩
        simp [chainBones, hb, hinit']

/-- C18: on a parent chain in which the target bone or one of its ancestors has
`initialized == false` (pointers valid, limits present for the flagged axes),
`applyJointConstraints` terminates whenever the fuel exceeds the length of the chain.  It
processes exactly the bones from the target upward to, and excluding, the first uninitialized
bone: these bones are pairwise distinct, each ends as `constrained` of its own state before
the call (once, and independently of the other bones), and every other bone is left as it
was, rotation and local transform included. -/
theorem applyJointConstraints_walks_chain (K : KoreMath Q M) (d fuel targetBone : Nat)
    (heap : List (BoneNode Q M)) (hc : chainEnds heap d targetBone = true) (hf : d < fuel) :
    ∃ h', applyJointConstraints K fuel targetBone heap = .ok h' ∧
      (chainBones heap d targetBone).Nodup ∧
      (∀ p ∈ chainBones heap d targetBone, ∃ b, heap[p]? = some b ∧ b.initialized = true ∧
        h'[p]? = some (constrained K b)) ∧
      (∀ p, p ∉ chainBones heap d targetBone → h'[p]? = heap[p]?) := by
  obtain ⟨h', e, hl⟩ := applyJointConstraints_chain K d fuel targetBone heap hc hf
  refine ⟨h', e, ?_, ?_, ?_⟩
  · clear hl e hf
    induction d generalizing targetBone with
    | zero => exact List.nodup_nil
    | succ d ih =>
      unfold chainBones
      cases hb : heap[targetBone]? with
      | none => exact List.nodup_nil
      | some b =>
        simp only []
        by_cases hinit : b.initialized = true
        · rw [if_pos hinit]
          have hc' := hc
          simp only [chainEnds, hb, hinit, Bool.not_true, Bool.false_or,
            Bool.and_eq_true] at hc'
          exact List.nodup_cons.mpr
            ⟨not_mem_chainBones_parent heap targetBone b hb hinit d (d + 1) hc, ih _ hc'.2⟩
        · rw [if_neg hinit]
          exact List.nodup_nil
  · intro p hp
    have hmem : ∀ (d q : Nat), p ∈ chainBones heap d q →
        ∃ b, heap[p]? = some b ∧ b.initialized = true := by
      intro d
      induction d with
      | zero => intro q hq; exact absurd hq (List.not_mem_nil p)
      | succ d ih =>
        intro q hq
        unfold chainBones at hq
        cases hb : heap[q]? with
        | none => simp [hb] at hq
        | some b =>
          simp only [hb] at hq
          by_cases hinit : b.initialized = true
          · rw [if_pos hinit, List.mem_cons] at hq
            rcases hq with rfl | hq
            · exact ⟨b, hb, hinit⟩
            · exact ih _ hq
          · rw [if_neg hinit] at hq
            exact absurd hq (List.not_mem_nil p)
    obtain ⟨b, hb, hinit⟩ := hmem d targetBone hp
    refine ⟨b, hb, hinit, ?_⟩
    rw [hl p, if_pos hp, hb]
    rfl
  · intro p hp
    rw [hl p, if_neg hp]

/-- C18, for the chain hand, shoulder of the example arm. -/
theorem applyJointConstraints_walks_chain_witness :
    ∃ h', applyJointConstraints planar 5 2 armHeap = .ok h' ∧
      (chainBones armHeap 2 2).Nodup ∧
      (∀ p ∈ chainBones armHeap 2 2, ∃ b, armHeap[p]? = some b ∧ b.initialized = true ∧
        h'[p]? = some (constrained planar b)) ∧
      (∀ p, p ∉ chainBones armHeap 2 2 → h'[p]? = armHeap[p]?) :=
  applyJointConstraints_walks_chain planar 2 5 2 armHeap (by decide) (by decide)

/-! ## Targets that are neither hand nor foot -/

theorem rounds_shape (E : Env σ Q M) (fuel d : Nat) (nodeIndex : Int) (targetBone : Nat)
    (desPosition : vec3) (desRotation : Q) (hf : d < fuel) :
    ∀ (k : Nat) (it x : Iter σ Q M), chainEnds it.world.heap d targetBone = true →
      bonesValid it.world.heap it.world.bones = true →
      rounds E fuel nodeIndex targetBone desPosition desRotation k it = .ok x →
      SameShape it.world.heap x.world.heap := by
  intro k
  induction k with
  | zero =>
    intro it x _ _ hr
    simp only [rounds, Outcome.ok.injEq] at hr
    subst hr
    exact SameShape.refl _
  | succ k ih =>
    intro it x hc hv hr
    obtain ⟨e1, e2, _, _⟩ :=
      evaluate_frame E nodeIndex targetBone desPosition desRotation it
    obtain ⟨w1, hw, hsh⟩ := applyStep_ok E.kore fuel d
      (evaluate E nodeIndex targetBone desPosition desRotation it).deltaTheta targetBone
      (evaluate E nodeIndex targetBone desPosition desRotation it).world
      (by rw [e1]; exact hc) (by rw [e1, e2]; exact hv) hf
    rw [e1] at hsh
    have hwb : w1.bones = it.world.bones := by
      rw [applyStep_frame _ _ _ _ _ _ hw]; exact e2
    simp only [rounds, hw, Outcome.bind] at hr
    have := ih { evaluate E nodeIndex targetBone desPosition desRotation it with world := w1 } x
      ((chainEnds_congr hsh d targetBone).symm.trans hc)
      (by
        show bonesValid w1.heap w1.bones = true
        rw [hwb]
        exact (bonesValid_congr hsh it.world.bones).symm.trans hv)
      hr
    exact hsh.trans this

theorem chainEnds_valid (heap : List (BoneNode Q M)) (d bone : Nat)
    (h : chainEnds heap d bone = true) : ∃ b, heap[bone]? = some b := by
  cases hb : heap[bone]? with
  | none => cases d <;> simp [chainEnds, hb] at h
  | some b => exact ⟨b, rfl⟩

theorem record_bounded (maxSteps : Int) (errorMax : ℚ) (k : Nat) (e : ℚ) (w w' : World σ Q M)
    (hk : (k : Int) ≤ maxSteps) (hw : countersBounded maxSteps w)
    (hst : stats w' = stats (record errorMax k e w)) : countersBounded maxSteps w' := by
  simp only [stats, record, Prod.mk.injEq] at hst
  obtain ⟨a1, a2, a3, _⟩ := hst
  obtain ⟨b1, b2, b3, b4, b5⟩ := hw
  unfold countersBounded
  rw [a1, a2, a3]
  have hk0 : (0 : Int) ≤ k := Int.natCast_nonneg k
  refine ⟨by omega, ?_, ?_, by omega, ?_⟩
  · split_ifs <;> omega
  · split_ifs <;> omega
  · have : maxSteps * (w.totalNum + 1) = maxSteps * w.totalNum + maxSteps := by ring
    rw [this]
    omega

/-! ## Rounding to `float` -/

theorem roundEven_floor_le (x : ℚ) : ⌊x⌋ ≤ roundEven x := by
  unfold roundEven
  split_ifs <;> omega

theorem roundEven_le_floor_succ (x : ℚ) : roundEven x ≤ ⌊x⌋ + 1 := by
  unfold roundEven
  split_ifs <;> omega

theorem roundEven_intCast (n : Int) : roundEven (n : ℚ) = n := by
  unfold roundEven
  simp

theorem roundEven_mono {x y : ℚ} (h : x ≤ y) : roundEven x ≤ roundEven y := by
  have hf : ⌊x⌋ ≤ ⌊y⌋ := Int.floor_mono h
  rcases lt_or_eq_of_le hf with hlt | heq
  · calc roundEven x ≤ ⌊x⌋ + 1 := roundEven_le_floor_succ x
      _ ≤ ⌊y⌋ := hlt
      _ ≤ roundEven y := roundEven_floor_le y
  · have hfr : x - ⌊x⌋ ≤ y - ⌊y⌋ := by rw [heq]; linarith
    unfold roundEven
    rw [heq] at hfr ⊢
    split_ifs <;> first | omega | (exfalso; linarith)

theorem roundEven_le_of_le_intCast {x : ℚ} {n : Int} (h : x ≤ n) : roundEven x ≤ n := by
  have := roundEven_mono h
  rwa [roundEven_intCast] at this

theorem le_roundEven_of_intCast_le {x : ℚ} {n : Int} (h : (n : ℚ) ≤ x) : n ≤ roundEven x := by
  have := roundEven_mono h
  rwa [roundEven_intCast] at this

theorem roundEven_dist (x : ℚ) : |(roundEven x : ℚ) - x| ≤ 1 / 2 := by
  have h1 : (⌊x⌋ : ℚ) ≤ x := Int.floor_le x
  have h2 : x < ⌊x⌋ + 1 := Int.lt_floor_add_one x
  unfold roundEven
  rw [abs_le]
  split_ifs with a b c
  · constructor <;> linarith
  · push_cast; constructor <;> linarith
  · have : x - ⌊x⌋ = 1 / 2 := le_antisymm (not_lt.mp b) (not_lt.mp a)
    constructor <;> linarith
  · have : x - ⌊x⌋ = 1 / 2 := le_antisymm (not_lt.mp b) (not_lt.mp a)
    push_cast; constructor <;> linarith


theorem two_zpow_pos (z : Int) : (0 : ℚ) < 2 ^ z := zpow_pos (by norm_num) z

/-- For positive `q`, with `e` the exponent of its binade: `2^e <= q < 2^(e+1)`. -/
theorem binade_spec {q : ℚ} (hq : 0 < q) :
    (2 : ℚ) ^ Int.log 2 q ≤ q ∧ q < 2 ^ (Int.log 2 q + 1) := by
  have h1 := Int.zpow_log_le_self (b := 2) (r := q) (by norm_num) hq
  have h2 := Int.lt_zpow_succ_log_self (b := 2) (by norm_num) q
  exact ⟨by exact_mod_cast h1, by exact_mod_cast h2⟩

theorem binade_eq {q : ℚ} {e : Int} (hq : 0 < q) (h1 : (2 : ℚ) ^ e ≤ q)
    (h2 : q < 2 ^ (e + 1)) : Int.log 2 q = e := by
  have a : e ≤ Int.log 2 q :=
    (Int.zpow_le_iff_le_log (b := 2) (by norm_num) hq).mp (by exact_mod_cast h1)
  have b : Int.log 2 q < e + 1 :=
    (Int.lt_zpow_iff_log_lt (b := 2) (by norm_num) hq).mp (by exact_mod_cast h2)
  omega

theorem roundFloat_pos_eq {q : ℚ} (hq : 0 < q) :
    roundFloat q =
      (roundEven (q / 2 ^ (Int.log 2 q - 23)) : ℚ) * 2 ^ (Int.log 2 q - 23) := by
  unfold roundFloat
  rw [if_neg (ne_of_gt hq), if_pos hq]

theorem roundFloat_neg (q : ℚ) : roundFloat (-q) = -roundFloat q := by
  rcases lt_trichotomy q 0 with h | h | h
  · have h' : 0 < -q := by linarith
    have h'' : ¬ 0 < q := by linarith
    unfold roundFloat
    rw [if_neg (ne_of_gt h'), if_pos h', if_neg (ne_of_lt h), if_neg h'', neg_neg]
  · subst h
    simp [roundFloat]
  · have h' : ¬ 0 < -q := by linarith
    have h'' : -q ≠ 0 := by linarith
    unfold roundFloat
    rw [if_neg h'', if_neg h', if_neg (ne_of_gt h), if_pos h, neg_neg]

theorem zpow_split23 (z : Int) : (2 : ℚ) ^ z = 8388608 * 2 ^ (z - 23) := by
  have h : (8388608 : ℚ) = 2 ^ (23 : Int) := by norm_num
  rw [h, ← zpow_add₀ (by norm_num : (2 : ℚ) ≠ 0)]
  congr 1
  omega

theorem zpow_split24 (z : Int) : (2 : ℚ) ^ (z + 1) = 16777216 * 2 ^ (z - 23) := by
  have h : (16777216 : ℚ) = 2 ^ (24 : Int) := by norm_num
  rw [h, ← zpow_add₀ (by norm_num : (2 : ℚ) ≠ 0)]
  congr 1
  omega

/-- The scaled significand of a positive `q` lies between `2^23` and `2^24`. -/
theorem significand_bounds {q : ℚ} (hq : 0 < q) :
    ((8388608 : Int) : ℚ) ≤ q / 2 ^ (Int.log 2 q - 23) ∧
      q / 2 ^ (Int.log 2 q - 23) ≤ ((16777216 : Int) : ℚ) := by
  obtain ⟨h1, h2⟩ := binade_spec hq
  have hu := two_zpow_pos (Int.log 2 q - 23)
  have e1 := zpow_split23 (Int.log 2 q)
  have e2 := zpow_split24 (Int.log 2 q)
  constructor
  · rw [le_div_iff₀ hu]
    push_cast
    rw [← e1]
    exact h1
  · rw [div_le_iff₀ hu]
    push_cast
    rw [← e2]
    exact h2.le

theorem roundFloat_bounds {q : ℚ} (hq : 0 < q) :
    (2 : ℚ) ^ Int.log 2 q ≤ roundFloat q ∧ roundFloat q ≤ 2 ^ (Int.log 2 q + 1) := by
  obtain ⟨s1, s2⟩ := significand_bounds hq
  have hu := two_zpow_pos (Int.log 2 q - 23)
  have r1 : ((8388608 : Int) : ℚ) ≤ (roundEven (q / 2 ^ (Int.log 2 q - 23)) : ℚ) := by
    exact_mod_cast le_roundEven_of_intCast_le s1
  have r2 : (roundEven (q / 2 ^ (Int.log 2 q - 23)) : ℚ) ≤ ((16777216 : Int) : ℚ) := by
    exact_mod_cast roundEven_le_of_le_intCast s2
  have e1 := zpow_split23 (Int.log 2 q)
  have e2 := zpow_split24 (Int.log 2 q)
  rw [roundFloat_pos_eq hq, e1, e2]
  push_cast at r1 r2
  exact ⟨mul_le_mul_of_nonneg_right r1 hu.le, mul_le_mul_of_nonneg_right r2 hu.le⟩

theorem roundFloat_pos {q : ℚ} (hq : 0 < q) : 0 < roundFloat q :=
  lt_of_lt_of_le (two_zpow_pos _) (roundFloat_bounds hq).1

theorem roundFloat_zero : roundFloat 0 = 0 := by
  simp [roundFloat]

theorem roundFloat_mono_pos {q r : ℚ} (hq : 0 < q) (h : q ≤ r) :
    roundFloat q ≤ roundFloat r := by
  have hr : 0 < r := lt_of_lt_of_le hq h
  have hlog : Int.log 2 q ≤ Int.log 2 r := Int.log_mono_right hq h
  rcases lt_or_eq_of_le hlog with hlt | heq
  · calc roundFloat q ≤ 2 ^ (Int.log 2 q + 1) := (roundFloat_bounds hq).2
      _ ≤ 2 ^ Int.log 2 r := zpow_le_zpow_right₀ (by norm_num) (by omega)
      _ ≤ roundFloat r := (roundFloat_bounds hr).1
  · rw [roundFloat_pos_eq hq, roundFloat_pos_eq hr, heq]
    have hu := two_zpow_pos (Int.log 2 r - 23)
    apply mul_le_mul_of_nonneg_right _ hu.le
    have : q / 2 ^ (Int.log 2 r - 23) ≤ r / 2 ^ (Int.log 2 r - 23) :=
      div_le_div_of_nonneg_right h hu.le
    exact_mod_cast roundEven_mono this

/-- Rounding to `float` is monotone. -/
theorem roundFloat_mono {q r : ℚ} (h : q ≤ r) : roundFloat q ≤ roundFloat r := by
  rcases lt_trichotomy q 0 with hq | hq | hq
  · have hq' : roundFloat q < 0 := by
      have := roundFloat_pos (q := -q) (by linarith)
      rw [roundFloat_neg] at this
      linarith
    rcases lt_trichotomy r 0 with hr | hr | hr
    · have := roundFloat_mono_pos (q := -r) (r := -q) (by linarith) (by linarith)
      rw [roundFloat_neg, roundFloat_neg] at this
      linarith
    · subst hr
      rw [roundFloat_zero]
      exact hq'.le
    · exact (hq'.trans (roundFloat_pos hr)).le
  · subst hq
    rw [roundFloat_zero]
    rcases eq_or_lt_of_le h with hr | hr
    · rw [← hr, roundFloat_zero]
    · exact (roundFloat_pos hr).le
  · exact roundFloat_mono_pos hq h


theorem roundFloat_of_significand {q : ℚ} (hq : 0 < q) (m : Int)
    (hm : q / 2 ^ (Int.log 2 q - 23) = m) : roundFloat q = q := by
  have hu := two_zpow_pos (Int.log 2 q - 23)
  rw [roundFloat_pos_eq hq, hm, roundEven_intCast, ← hm, div_mul_cancel₀ _ (ne_of_gt hu)]

/-- Every integer of magnitude at most `2^24` is a `float`: the cast is exact. -/
theorem roundFloat_intCast (n : Int) (h1 : -16777216 ≤ n) (h2 : n ≤ 16777216) :
    roundFloat (n : ℚ) = n := by
  have key : ∀ k : Int, 0 < k → k ≤ 16777216 → roundFloat (k : ℚ) = k := by
    intro k hk hk2
    have hq : (0 : ℚ) < k := by exact_mod_cast hk
    obtain ⟨b1, b2⟩ := binade_spec hq
    have hlo : 0 ≤ Int.log 2 (k : ℚ) := by
      have : (1 : ℚ) ≤ k := by exact_mod_cast hk
      have h := (Int.zpow_le_iff_le_log (b := 2) (x := 0) (by norm_num) hq).mp
        (by simpa using this)
      exact h
    have hhi : Int.log 2 (k : ℚ) < 25 := by
      apply (Int.lt_zpow_iff_log_lt (b := 2) (by norm_num) hq).mp
      have : (k : ℚ) ≤ 16777216 := by exact_mod_cast hk2
      norm_num
      linarith
    rcases lt_or_eq_of_le (show Int.log 2 (k : ℚ) ≤ 24 by omega) with hlt | heq
    · obtain ⟨j, hj⟩ : ∃ j : Nat, (j : Int) = 23 - Int.log 2 (k : ℚ) :=
        ⟨(23 - Int.log 2 (k : ℚ)).toNat, Int.toNat_of_nonneg (by omega)⟩
      have hz : (2 : ℚ) ^ (Int.log 2 (k : ℚ) - 23) = ((2 : ℚ) ^ j)⁻¹ := by
        rw [← zpow_natCast, ← zpow_neg]
        congr 1
        omega
      apply roundFloat_of_significand hq (k * 2 ^ j)
      rw [hz, div_inv_eq_mul]
      push_cast
      rfl
    · have hk3 : (k : ℚ) = 16777216 := by
        rw [heq] at b1
        have : (16777216 : ℚ) ≤ k := by
          have h24 : (2 : ℚ) ^ (24 : Int) = 16777216 := by norm_num
          rw [h24] at b1
          exact b1
        have : (k : ℚ) ≤ 16777216 := by exact_mod_cast hk2
        linarith
      apply roundFloat_of_significand hq 8388608
      rw [heq, hk3]
      norm_num
  rcases lt_trichotomy n 0 with h | h | h
  · have := key (-n) (by omega) (by omega)
    push_cast at this
    rw [roundFloat_neg] at this
    linarith
  · subst h
    simpa using roundFloat_zero
  · exact key n h h2

/-- Rounding a positive rational to `float` changes it by at most the fraction `2^-24`. -/
theorem roundFloat_error {q : ℚ} (hq : 0 < q) : |roundFloat q - q| ≤ q / 16777216 := by
  obtain ⟨b1, _⟩ := binade_spec hq
  have hu := two_zpow_pos (Int.log 2 q - 23)
  have hd := roundEven_dist (q / 2 ^ (Int.log 2 q - 23))
  have e1 := zpow_split23 (Int.log 2 q)
  have heq : roundFloat q - q =
      ((roundEven (q / 2 ^ (Int.log 2 q - 23)) : ℚ) - q / 2 ^ (Int.log 2 q - 23)) *
        2 ^ (Int.log 2 q - 23) := by
    rw [roundFloat_pos_eq hq, sub_mul, div_mul_cancel₀ _ (ne_of_gt hu)]
  rw [heq, abs_mul, abs_of_pos hu]
  have h3 : (2 : ℚ) ^ (Int.log 2 q - 23) ≤ q / 8388608 := by
    rw [le_div_iff₀ (by norm_num)]
    rw [e1] at b1
    linarith
  calc |(roundEven (q / 2 ^ (Int.log 2 q - 23)) : ℚ) - q / 2 ^ (Int.log 2 q - 23)| *
        2 ^ (Int.log 2 q - 23)
      ≤ 1 / 2 * 2 ^ (Int.log 2 q - 23) := mul_le_mul_of_nonneg_right hd hu.le
    _ ≤ 1 / 2 * (q / 8388608) := mul_le_mul_of_nonneg_left h3 (by norm_num)
    _ = q / 16777216 := by ring

theorem roundFloat_eval {q : ℚ} (e m : Int) (hq : 0 < q) (h1 : (2 : ℚ) ^ e ≤ q)
    (h2 : q < 2 ^ (e + 1)) (hm : roundEven (q / 2 ^ (e - 23)) = m) :
    roundFloat q = m * 2 ^ (e - 23) := by
  rw [roundFloat_pos_eq hq, binade_eq hq h1 h2, hm]

theorem roundFloat_nonneg {q : ℚ} (hq : 0 ≤ q) : 0 ≤ roundFloat q := by
  have := roundFloat_mono hq
  rwa [roundFloat_zero] at this

theorem roundFloat_error_nonneg {q : ℚ} (hq : 0 ≤ q) : |roundFloat q - q| ≤ q / 16777216 := by
  rcases eq_or_lt_of_le hq with h | h
  · rw [← h, roundFloat_zero]
    norm_num
  · exact roundFloat_error h

/-- Scaling by a power of two commutes with rounding. -/
theorem roundFloat_scale {q : ℚ} (hq : 0 < q) (z : Int) :
    roundFloat (q * 2 ^ z) = roundFloat q * 2 ^ z := by
  have hz := two_zpow_pos z
  have hqz : 0 < q * 2 ^ z := mul_pos hq hz
  obtain ⟨b1, b2⟩ := binade_spec hq
  have two : (2 : ℚ) ≠ 0 := by norm_num
  have hlog : Int.log 2 (q * 2 ^ z) = Int.log 2 q + z := by
    apply binade_eq hqz
    · rw [zpow_add₀ two]
      exact mul_le_mul_of_nonneg_right b1 hz.le
    · have : Int.log 2 q + z + 1 = (Int.log 2 q + 1) + z := by ring
      rw [this, zpow_add₀ two]
      exact mul_lt_mul_of_pos_right b2 hz
  have hexp : (2 : ℚ) ^ (Int.log 2 q + z - 23) = 2 ^ (Int.log 2 q - 23) * 2 ^ z := by
    rw [← zpow_add₀ two]
    congr 1
    ring
  have hu := two_zpow_pos (Int.log 2 q - 23)
  have hsig : q * 2 ^ z / (2 ^ (Int.log 2 q - 23) * 2 ^ z) = q / 2 ^ (Int.log 2 q - 23) := by
    field_simp
    ring
  rw [roundFloat_pos_eq hqz, roundFloat_pos_eq hq, hlog, hexp, hsig]
  ring

/-- Every integer from 0 to `2^24` times a power of two is a `float`. -/
theorem roundFloat_natCast_scaled (k : Nat) (z : Int) (hk : k ≤ 16777216) :
    roundFloat ((k : ℚ) * 2 ^ z) = (k : ℚ) * 2 ^ z := by
  rcases Nat.eq_zero_or_pos k with h | h
  · subst h
    simp [roundFloat_zero]
  · have hq : (0 : ℚ) < (k : ℚ) := by exact_mod_cast h
    have := roundFloat_intCast (k : Int) (by omega) (by omega)
    rw [roundFloat_scale hq]
    have h' : roundFloat (k : ℚ) = (k : ℚ) := by exact_mod_cast this
    rw [h']

theorem roundFloat_le_mul {q : ℚ} (hq : 0 ≤ q) :
    (1 - 1 / 16777216) * q ≤ roundFloat q ∧ roundFloat q ≤ (1 + 1 / 16777216) * q := by
  have h := abs_le.mp (roundFloat_error_nonneg hq)
  constructor <;> linarith [h.1, h.2]

/-- The float sum of errors that are 0 or at least `lo`, and at most `hi`, is 0 or at least
`lo`, and at most the number of terms times `hi`. -/
theorem floatSum_range (lo hi : ℚ) (hlo : 0 < lo) (hhi : 0 ≤ hi)
    (flo : roundFloat lo = lo)
    (fhi : ∀ k : Nat, k ≤ 16777216 → roundFloat ((k : ℚ) * hi) = (k : ℚ) * hi) :
    ∀ (es : List ℚ) (s : ℚ) (k : Nat),
      (∀ e ∈ es, e = 0 ∨ (lo ≤ e ∧ e ≤ hi)) → (s = 0 ∨ lo ≤ s) → s ≤ (k : ℚ) * hi →
      k + es.length ≤ 16777216 →
      (es.foldl (fun s e => roundFloat (s + e)) s = 0 ∨
          lo ≤ es.foldl (fun s e => roundFloat (s + e)) s) ∧
        es.foldl (fun s e => roundFloat (s + e)) s ≤ ((k + es.length : Nat) : ℚ) * hi := by
  intro es
  induction es with
  | nil =>
    intro s k _ h1 h2 _
    simpa using ⟨h1, h2⟩
  | cons e rest ih =>
    intro s k he h1 h2 hk
    simp only [List.length_cons] at hk
    have he0 := he e (List.mem_cons_self e rest)
    have hs0 : 0 ≤ s := by rcases h1 with h | h <;> linarith
    have hee : 0 ≤ e ∧ e ≤ hi := by
      rcases he0 with h | h
      · rw [h]; exact ⟨le_refl _, hhi⟩
      · exact ⟨by linarith, h.2⟩
    have hup : roundFloat (s + e) ≤ ((k + 1 : Nat) : ℚ) * hi := by
      rw [← fhi (k + 1) (by omega)]
      apply roundFloat_mono
      push_cast
      linarith
    have hlow : roundFloat (s + e) = 0 ∨ lo ≤ roundFloat (s + e) := by
      by_cases hz : s + e = 0
      · left; rw [hz, roundFloat_zero]
      · right
        rw [← flo]
        apply roundFloat_mono
        rcases h1 with h | h
        · rcases he0 with h' | h'
          · exact absurd (by rw [h, h']; norm_num) hz
          · linarith
        · linarith
    have := ih (roundFloat (s + e)) (k + 1)
      (fun x hx => he x (List.mem_cons_of_mem e hx)) hlow hup (by omega)
    simp only [List.foldl_cons, List.length_cons]
    have hcast : k + (rest.length + 1) = k + 1 + rest.length := by omega
    rw [hcast]
    exact this

/-- The float sum of non-negative errors is the exact sum up to the factor
`(1 ± 2^-24)` per addition. -/
theorem floatSum_accuracy :
    ∀ (es : List ℚ) (s t : ℚ) (k : Nat), (∀ e ∈ es, 0 ≤ e) → 0 ≤ t →
      (1 - 1 / 16777216) ^ k * t ≤ s → s ≤ (1 + 1 / 16777216) ^ k * t →
      (1 - 1 / 16777216) ^ (k + es.length) * (t + es.sum) ≤
          es.foldl (fun s e => roundFloat (s + e)) s ∧
        es.foldl (fun s e => roundFloat (s + e)) s ≤
          (1 + 1 / 16777216) ^ (k + es.length) * (t + es.sum) := by
  intro es
  induction es with
  | nil =>
    intro s t k _ _ h1 h2
    simp only [List.length_nil, add_zero, List.sum_nil, List.foldl_nil]
    exact ⟨h1, h2⟩
  | cons e rest ih =>
    intro s t k he ht h1 h2
    have he0 := he e (List.mem_cons_self e rest)
    have hA0 : (0 : ℚ) ≤ 1 - 1 / 16777216 := by norm_num
    have hA1 : (1 - 1 / 16777216 : ℚ) ≤ 1 := by norm_num
    have hB1 : (1 : ℚ) ≤ 1 + 1 / 16777216 := by norm_num
    have hAk0 : (0 : ℚ) ≤ (1 - 1 / 16777216) ^ k := pow_nonneg hA0 k
    have hAk1 : ((1 - 1 / 16777216 : ℚ)) ^ k ≤ 1 := pow_le_one₀ hA0 hA1
    have hBk1 : (1 : ℚ) ≤ (1 + 1 / 16777216) ^ k := one_le_pow₀ hB1
    have hs0 : 0 ≤ s := le_trans (mul_nonneg hAk0 ht) h1
    obtain ⟨r1, r2⟩ := roundFloat_le_mul (add_nonneg hs0 he0)
    have l1 : (1 - 1 / 16777216) ^ (k + 1) * (t + e) ≤ roundFloat (s + e) := by
      have : (1 - 1 / 16777216 : ℚ) ^ k * (t + e) ≤ s + e := by
        have : (1 - 1 / 16777216 : ℚ) ^ k * e ≤ e := by
          have := mul_le_mul_of_nonneg_right hAk1 he0
          linarith
        linarith
      calc (1 - 1 / 16777216 : ℚ) ^ (k + 1) * (t + e)
          = (1 - 1 / 16777216) * ((1 - 1 / 16777216) ^ k * (t + e)) := by ring
        _ ≤ (1 - 1 / 16777216) * (s + e) := mul_le_mul_of_nonneg_left this hA0
        _ ≤ roundFloat (s + e) := r1
    have l2 : roundFloat (s + e) ≤ (1 + 1 / 16777216) ^ (k + 1) * (t + e) := by
      have : s + e ≤ (1 + 1 / 16777216 : ℚ) ^ k * (t + e) := by
        have : e ≤ (1 + 1 / 16777216 : ℚ) ^ k * e := by
          have := mul_le_mul_of_nonneg_right hBk1 he0
          linarith
        linarith
      calc roundFloat (s + e) ≤ (1 + 1 / 16777216) * (s + e) := r2
        _ ≤ (1 + 1 / 16777216) * ((1 + 1 / 16777216) ^ k * (t + e)) :=
            mul_le_mul_of_nonneg_left this (by linarith)
        _ = (1 + 1 / 16777216 : ℚ) ^ (k + 1) * (t + e) := by ring
    have := ih (roundFloat (s + e)) (t + e) (k + 1)
      (fun x hx => he x (List.mem_cons_of_mem e hx)) (add_nonneg ht he0) l1 l2
    simp only [List.foldl_cons, List.length_cons, List.sum_cons]
    have hcast : k + (rest.length + 1) = k + 1 + rest.length := by omega
    rw [hcast, ← add_assoc]
    exact this

/-! ## The averages in machine arithmetic -/

theorem recordAllF_sums (errorMax : ℚ) :
    ∀ (outcomes : List (Int × ℚ)) (w : World σ Q M),
      (recordAllF errorMax outcomes w).totalNum = w.totalNum + outcomes.length ∧
      (recordAllF errorMax outcomes w).sumIter =
        w.sumIter + (outcomes.map (fun o => o.1)).sum ∧
      (recordAllF errorMax outcomes w).sumReached =
        w.sumReached + (outcomes.filter (fun o => decide (o.2 < errorMax))).length ∧
      (recordAllF errorMax outcomes w).sumError =
        (outcomes.map (fun o => o.2)).foldl (fun s e => roundFloat (s + e)) w.sumError := by
  intro outcomes
  induction outcomes with
  | nil => intro w; simp [recordAllF]
  | cons o rest ih =>
    intro w
    obtain ⟨h1, h2, h3, h4⟩ := ih (recordF errorMax o.1 o.2 w)
    have hstep : recordAllF errorMax (o :: rest) w =
        recordAllF errorMax rest (recordF errorMax o.1 o.2 w) := rfl
    rw [hstep, h1, h2, h3, h4]
    refine ⟨?_, ?_, ?_, ?_⟩
    · simp only [recordF, record, List.length_cons]; push_cast; ring
    · simp only [recordF, record, List.map_cons, List.sum_cons]; ring
    · by_cases he : o.2 < errorMax
      · simp only [recordF, record, he, if_true, List.filter_cons, decide_True,
          List.length_cons]
        push_cast; ring
      · simp only [recordF, record, he, if_false, List.filter_cons, decide_False, add_zero]
        simp
    · simp only [recordF, List.map_cons, List.foldl_cons]

theorem sum_nonneg_of_forall (l : List Int) (h : ∀ x ∈ l, 0 ≤ x) : 0 ≤ l.sum := by
  induction l with
  | nil => simp
  | cons a rest ih =>
    rw [List.sum_cons]
    have h1 := h a (List.mem_cons_self a rest)
    have h2 := ih (fun x hx => h x (List.mem_cons_of_mem a hx))
    omega

/-- C11 fails on the code: the accessors return floats.  For the outcomes (3, 1/16),
(10, 1), (0, 1/32) with `errorMax = 1/8`, recorded from zeroed counters, the exact means are
13/3, 2/3 and 35/96, while `getAverageIter` returns 9087659/2097152 (4.3333335),
`getAverageReached` returns 11184811/16777216 (0.6666667) and `getAverageError` returns
12233387/33554432 (0.36458334). -/
theorem averages_are_means_counterexample :
    meanIter [(3, 1 / 16), (10, 1), (0, 1 / 32)] = 13 / 3 ∧
      getAverageIterF (recordAllF (1 / 8) [(3, 1 / 16), (10, 1), (0, 1 / 32)]
        (exampleWorld armHeap [1, 2])) = 9087659 / 2097152 ∧
      meanReached (1 / 8) [(3, 1 / 16), (10, 1), (0, 1 / 32)] = 2 / 3 ∧
      getAverageReachedF (recordAllF (1 / 8) [(3, 1 / 16), (10, 1), (0, 1 / 32)]
        (exampleWorld armHeap [1, 2])) = 11184811 / 16777216 ∧
      meanError [(3, 1 / 16), (10, 1), (0, 1 / 32)] = 35 / 96 ∧
      getAverageErrorF (recordAllF (1 / 8) [(3, 1 / 16), (10, 1), (0, 1 / 32)]
        (exampleWorld armHeap [1, 2])) = 12233387 / 33554432 ∧
      getAverageIterF (recordAllF (1 / 8) [(3, 1 / 16), (10, 1), (0, 1 / 32)]
        (exampleWorld armHeap [1, 2])) ≠ meanIter [(3, 1 / 16), (10, 1), (0, 1 / 32)] ∧
      getAverageReachedF (recordAllF (1 / 8) [(3, 1 / 16), (10, 1), (0, 1 / 32)]
        (exampleWorld armHeap [1, 2])) ≠
        meanReached (1 / 8) [(3, 1 / 16), (10, 1), (0, 1 / 32)] ∧
      getAverageErrorF (recordAllF (1 / 8) [(3, 1 / 16), (10, 1), (0, 1 / 32)]
        (exampleWorld armHeap [1, 2])) ≠ meanError [(3, 1 / 16), (10, 1), (0, 1 / 32)] := by
  decide!

/-- C11, amended: starting from zeroed counters, after `N >= 1` recorded outcomes with
iteration counts `>= 0`, and `N` and the iteration sum within the range of `int`,
`getTotalNum` returns `N`, no counter has left the range of `int`, and `getAverageIter` and
`getAverageReached` return the float quotient of the float casts of their sum and of `N`.
When `N <= 2^24`: `getAverageReached` returns the exact fraction of reached outcomes rounded
to the nearest float, within the fraction `2^-24` of it; so does `getAverageIter` for the
exact mean when the iteration sum is at most `2^24`; and when every error is 0 or between
`2^-102` and `2^103`, `getAverageError` returns the float quotient by `N` of the sum
accumulated in `float` (rounded after every addition), no operation leaves the normal range
of `float`, and the result is the exact mean up to the factor `(1 ± 2^-24)^(N+1)`. -/
theorem averages_are_rounded_means (errorMax : ℚ) (outcomes : List (Int × ℚ))
    (w : World σ Q M) (hN : outcomes ≠ []) (h1 : w.totalNum = 0) (h2 : w.sumIter = 0)
    (h3 : w.sumReached = 0) (h4 : w.sumError = 0) (hi : ∀ o ∈ outcomes, 0 ≤ o.1)
    (hlen : (outcomes.length : Int) ≤ INT_MAX)
    (hsum : (outcomes.map (fun o => o.1)).sum ≤ INT_MAX) :
    getTotalNum (recordAllF errorMax outcomes w) = outcomes.length ∧
      (0 ≤ (recordAllF errorMax outcomes w).totalNum ∧
        (recordAllF errorMax outcomes w).totalNum ≤ INT_MAX ∧
        0 ≤ (recordAllF errorMax outcomes w).sumIter ∧
        (recordAllF errorMax outcomes w).sumIter ≤ INT_MAX ∧
        0 ≤ (recordAllF errorMax outcomes w).sumReached ∧
        (recordAllF errorMax outcomes w).sumReached ≤ INT_MAX) ∧
      getAverageIterF (recordAllF errorMax outcomes w) =
        roundFloat (roundFloat (((outcomes.map (fun o => o.1)).sum : Int) : ℚ) /
          roundFloat (outcomes.length : ℚ)) ∧
      getAverageReachedF (recordAllF errorMax outcomes w) =
        roundFloat (roundFloat
          ((outcomes.filter (fun o => decide (o.2 < errorMax))).length : ℚ) /
          roundFloat (outcomes.length : ℚ)) ∧
      ((outcomes.length : Int) ≤ 16777216 →
        (getAverageReachedF (recordAllF errorMax outcomes w) =
            roundFloat (meanReached errorMax outcomes) ∧
          |getAverageReachedF (recordAllF errorMax outcomes w) -
              meanReached errorMax outcomes| ≤ meanReached errorMax outcomes / 16777216) ∧
        ((outcomes.map (fun o => o.1)).sum ≤ 16777216 →
          getAverageIterF (recordAllF errorMax outcomes w) = roundFloat (meanIter outcomes) ∧
          |getAverageIterF (recordAllF errorMax outcomes w) - meanIter outcomes| ≤
            meanIter outcomes / 16777216) ∧
        ((∀ o ∈ outcomes, o.2 = 0 ∨ (1 / 2 ^ 102 ≤ o.2 ∧ o.2 ≤ 2 ^ 103)) →
          getAverageErrorF (recordAllF errorMax outcomes w) =
            roundFloat (floatSum (outcomes.map (fun o => o.2)) / (outcomes.length : ℚ)) ∧
          (floatSum (outcomes.map (fun o => o.2)) = 0 ∨
            1 / 2 ^ 102 ≤ floatSum (outcomes.map (fun o => o.2))) ∧
          floatSum (outcomes.map (fun o => o.2)) ≤ 2 ^ 127 ∧
          (getAverageErrorF (recordAllF errorMax outcomes w) = 0 ∨
            1 / 2 ^ 126 ≤ getAverageErrorF (recordAllF errorMax outcomes w)) ∧
          getAverageErrorF (recordAllF errorMax outcomes w) ≤ 2 ^ 103 ∧
          (1 - 1 / 16777216) ^ (outcomes.length + 1) * meanError outcomes ≤
            getAverageErrorF (recordAllF errorMax outcomes w) ∧
          getAverageErrorF (recordAllF errorMax outcomes w) ≤
            (1 + 1 / 16777216) ^ (outcomes.length + 1) * meanError outcomes)) := by
  obtain ⟨a1, a2, a3, a4⟩ := recordAllF_sums errorMax outcomes w
  rw [h1, zero_add] at a1
  rw [h2, zero_add] at a2
  rw [h3, zero_add] at a3
  rw [h4] at a4
  have hlen0 : (outcomes.length : Int) ≠ 0 := by
    have : outcomes.length ≠ 0 := fun h => hN (List.length_eq_zero.mp h)
    exact_mod_cast this
  have hs0 : 0 ≤ (outcomes.map (fun o => o.1)).sum := by
    apply sum_nonneg_of_forall
    intro x hx
    obtain ⟨o, ho, rfl⟩ := List.mem_map.mp hx
    exact hi o ho
  have hcount : (outcomes.filter (fun o => decide (o.2 < errorMax))).length ≤
      outcomes.length := List.length_filter_le _ _
  have e1 : getAverageIterF (recordAllF errorMax outcomes w) =
      roundFloat (roundFloat (((outcomes.map (fun o => o.1)).sum : Int) : ℚ) /
        roundFloat (outcomes.length : ℚ)) := by
    simp only [getAverageIterF, a1, a2, ne_eq, hlen0, not_false_eq_true, if_true]
    push_cast
    rfl
  have e2 : getAverageReachedF (recordAllF errorMax outcomes w) =
      roundFloat (roundFloat
        ((outcomes.filter (fun o => decide (o.2 < errorMax))).length : ℚ) /
        roundFloat (outcomes.length : ℚ)) := by
    simp only [getAverageReachedF, a1, a3, ne_eq, hlen0, not_false_eq_true, if_true]
    push_cast
    rfl
  have e3 : getAverageErrorF (recordAllF errorMax outcomes w) =
      roundFloat (floatSum (outcomes.map (fun o => o.2)) / roundFloat (outcomes.length : ℚ)) := by
    simp only [getAverageErrorF, a1, a4, ne_eq, hlen0, not_false_eq_true, if_true, floatSum]
    push_cast
    rfl
  refine ⟨a1, ⟨?_, ?_, ?_, ?_, ?_, ?_⟩, e1, e2, ?_⟩
  · rw [a1]; omega
  · rw [a1]; exact hlen
  · rw [a2]; exact hs0
  · rw [a2]; exact hsum
  · rw [a3]; omega
  · rw [a3]; omega
  intro hl
  have hlnat : outcomes.length ≤ 16777216 := by exact_mod_cast hl
  have c2 : roundFloat (outcomes.length : ℚ) = (outcomes.length : ℚ) := by
    have := roundFloat_intCast (outcomes.length : Int) (by omega) hl
    exact_mod_cast this
  have c3 : roundFloat ((outcomes.filter (fun o => decide (o.2 < errorMax))).length : ℚ) =
      ((outcomes.filter (fun o => decide (o.2 < errorMax))).length : ℚ) := by
    have := roundFloat_intCast
      ((outcomes.filter (fun o => decide (o.2 < errorMax))).length : Int) (by omega)
      (by omega)
    exact_mod_cast this
  have hpos : (0 : ℚ) < (outcomes.length : ℚ) := by
    have : 0 < outcomes.length := List.length_pos.mpr hN
    exact_mod_cast this
  have hle : (outcomes.length : ℚ) ≤ 16777216 := by exact_mod_cast hlnat
  have m2 : 0 ≤ meanReached errorMax outcomes := by
    unfold meanReached
    exact div_nonneg (by positivity) hpos.le
  have f2 : getAverageReachedF (recordAllF errorMax outcomes w) =
      roundFloat (meanReached errorMax outcomes) := by
    rw [e2, c3, c2]
    rfl
  refine ⟨⟨f2, ?_⟩, ?_, ?_⟩
  · rw [f2]
    exact roundFloat_error_nonneg m2
  · intro hsm
    have c1 : roundFloat (((outcomes.map (fun o => o.1)).sum : Int) : ℚ) =
        (((outcomes.map (fun o => o.1)).sum : Int) : ℚ) :=
      roundFloat_intCast _ (by omega) hsm
    have m1 : 0 ≤ meanIter outcomes := by
      unfold meanIter
      exact div_nonneg (by exact_mod_cast hs0) hpos.le
    have f1 : getAverageIterF (recordAllF errorMax outcomes w) =
        roundFloat (meanIter outcomes) := by
      rw [e1, c1, c2]
      rfl
    refine ⟨f1, ?_⟩
    rw [f1]
    exact roundFloat_error_nonneg m1
  · intro herr
    have hmem : ∀ e ∈ outcomes.map (fun o => o.2), e = 0 ∨ (1 / 2 ^ 102 ≤ e ∧ e ≤ 2 ^ 103) := by
      intro e he
      obtain ⟨o, ho, rfl⟩ := List.mem_map.mp he
      exact herr o ho
    have hnn : ∀ e ∈ outcomes.map (fun o => o.2), (0 : ℚ) ≤ e := by
      intro e he
      rcases hmem e he with h | h
      · rw [h]
      · exact le_trans (by positivity) h.1
    have flo : roundFloat ((1 : ℚ) / 2 ^ 102) = 1 / 2 ^ 102 := by
      have := roundFloat_natCast_scaled 1 (-102) (by norm_num)
      have hz : ((1 : Nat) : ℚ) * 2 ^ (-102 : Int) = 1 / 2 ^ 102 := by
        rw [zpow_neg]
        norm_num
      rw [hz] at this
      exact this
    have flo2 : roundFloat ((1 : ℚ) / 2 ^ 126) = 1 / 2 ^ 126 := by
      have := roundFloat_natCast_scaled 1 (-126) (by norm_num)
      have hz : ((1 : Nat) : ℚ) * 2 ^ (-126 : Int) = 1 / 2 ^ 126 := by
        rw [zpow_neg]
        norm_num
      rw [hz] at this
      exact this
    have fhi : ∀ k : Nat, k ≤ 16777216 →
        roundFloat ((k : ℚ) * 2 ^ 103) = (k : ℚ) * 2 ^ 103 := by
      intro k hk
      have := roundFloat_natCast_scaled k 103 hk
      have hz : (2 : ℚ) ^ (103 : Int) = 2 ^ 103 := by norm_num
      rw [hz] at this
      exact this
    obtain ⟨g1, g2⟩ := floatSum_range (1 / 2 ^ 102) (2 ^ 103) (by positivity) (by positivity)
      flo fhi (outcomes.map (fun o => o.2)) 0 0 hmem (Or.inl rfl) (by simp)
      (by simpa using hlnat)
    obtain ⟨g3, g4⟩ := floatSum_accuracy (outcomes.map (fun o => o.2)) 0 0 0 hnn (le_refl _)
      (by simp) (by simp)
    simp only [zero_add, List.length_map] at g2 g3 g4
    have hF : floatSum (outcomes.map (fun o => o.2)) =
        (outcomes.map (fun o => o.2)).foldl (fun s e => roundFloat (s + e)) 0 := rfl
    rw [← hF] at g1 g2 g3 g4
    have hF0 : 0 ≤ floatSum (outcomes.map (fun o => o.2)) := by
      rcases g1 with h | h
      · rw [h]
      · exact le_trans (by positivity) h
    have hq0 : 0 ≤ floatSum (outcomes.map (fun o => o.2)) / (outcomes.length : ℚ) :=
      div_nonneg hF0 hpos.le
    have e3' : getAverageErrorF (recordAllF errorMax outcomes w) =
        roundFloat (floatSum (outcomes.map (fun o => o.2)) / (outcomes.length : ℚ)) := by
      rw [e3, c2]
    obtain ⟨r1, r2⟩ := roundFloat_le_mul hq0
    have hA0 : (0 : ℚ) ≤ 1 - 1 / 16777216 := by norm_num
    have hB0 : (0 : ℚ) ≤ 1 + 1 / 16777216 := by norm_num
    have hmean : meanError outcomes =
        (outcomes.map (fun o => o.2)).sum / (outcomes.length : ℚ) := rfl
    refine ⟨e3', g1, ?_, ?_, ?_, ?_, ?_⟩
    · calc floatSum (outcomes.map (fun o => o.2)) ≤ (outcomes.length : ℚ) * 2 ^ 103 := g2
        _ ≤ 16777216 * 2 ^ 103 := mul_le_mul_of_nonneg_right hle (by positivity)
        _ = 2 ^ 127 := by norm_num
    · rw [e3']
      rcases g1 with h | h
      · left
        rw [h, zero_div, roundFloat_zero]
      · right
        rw [← flo2]
        apply roundFloat_mono
        rw [le_div_iff₀ hpos]
        calc (1 : ℚ) / 2 ^ 126 * (outcomes.length : ℚ) ≤ 1 / 2 ^ 126 * 16777216 :=
              mul_le_mul_of_nonneg_left hle (by positivity)
          _ = 1 / 2 ^ 102 := by norm_num
          _ ≤ floatSum (outcomes.map (fun o => o.2)) := h
    · rw [e3']
      have h103 := fhi 1 (by norm_num)
      simp only [Nat.cast_one, one_mul] at h103
      rw [← h103]
      apply roundFloat_mono
      rw [div_le_iff₀ hpos]
      linarith
    · rw [e3', hmean]
      calc (1 - 1 / 16777216 : ℚ) ^ (outcomes.length + 1) *
            ((outcomes.map (fun o => o.2)).sum / (outcomes.length : ℚ))
          = (1 - 1 / 16777216) * ((1 - 1 / 16777216) ^ outcomes.length *
              (outcomes.map (fun o => o.2)).sum / (outcomes.length : ℚ)) := by ring
        _ ≤ (1 - 1 / 16777216) *
              (floatSum (outcomes.map (fun o => o.2)) / (outcomes.length : ℚ)) :=
            mul_le_mul_of_nonneg_left (div_le_div_of_nonneg_right g3 hpos.le) hA0
        _ ≤ _ := r1
    · rw [e3', hmean]
      calc roundFloat (floatSum (outcomes.map (fun o => o.2)) / (outcomes.length : ℚ))
          ≤ (1 + 1 / 16777216) *
              (floatSum (outcomes.map (fun o => o.2)) / (outcomes.length : ℚ)) := r2
        _ ≤ (1 + 1 / 16777216) * ((1 + 1 / 16777216) ^ outcomes.length *
              (outcomes.map (fun o => o.2)).sum / (outcomes.length : ℚ)) :=
            mul_le_mul_of_nonneg_left (div_le_div_of_nonneg_right g4 hpos.le) hB0
        _ = _ := by ring

/-- C11 amended, for the three outcomes (3, 1/16), (10, 1), (0, 1/32) with
`errorMax = 1/8`. -/
theorem averages_are_rounded_means_witness :
    getTotalNum (recordAllF (1 / 8) [(3, 1 / 16), (10, 1), (0, 1 / 32)]
        (exampleWorld armHeap [1, 2])) = ([(3, 1 / 16), (10, 1), (0, 1 / 32)] :
          List (Int × ℚ)).length ∧
      getAverageIterF (recordAllF (1 / 8) [(3, 1 / 16), (10, 1), (0, 1 / 32)]
        (exampleWorld armHeap [1, 2])) =
        roundFloat (meanIter [(3, 1 / 16), (10, 1), (0, 1 / 32)]) ∧
      |getAverageIterF (recordAllF (1 / 8) [(3, 1 / 16), (10, 1), (0, 1 / 32)]
          (exampleWorld armHeap [1, 2])) - meanIter [(3, 1 / 16), (10, 1), (0, 1 / 32)]| ≤
        meanIter [(3, 1 / 16), (10, 1), (0, 1 / 32)] / 16777216 ∧
      getAverageReachedF (recordAllF (1 / 8) [(3, 1 / 16), (10, 1), (0, 1 / 32)]
        (exampleWorld armHeap [1, 2])) =
        roundFloat (meanReached (1 / 8) [(3, 1 / 16), (10, 1), (0, 1 / 32)]) ∧
      |getAverageReachedF (recordAllF (1 / 8) [(3, 1 / 16), (10, 1), (0, 1 / 32)]
          (exampleWorld armHeap [1, 2])) -
          meanReached (1 / 8) [(3, 1 / 16), (10, 1), (0, 1 / 32)]| ≤
        meanReached (1 / 8) [(3, 1 / 16), (10, 1), (0, 1 / 32)] / 16777216 ∧
      (1 - 1 / 16777216) ^ (([(3, 1 / 16), (10, 1), (0, 1 / 32)] : List (Int × ℚ)).length + 1) *
          meanError [(3, 1 / 16), (10, 1), (0, 1 / 32)] ≤
        getAverageErrorF (recordAllF (1 / 8) [(3, 1 / 16), (10, 1), (0, 1 / 32)]
          (exampleWorld armHeap [1, 2])) ∧
      getAverageErrorF (recordAllF (1 / 8) [(3, 1 / 16), (10, 1), (0, 1 / 32)]
          (exampleWorld armHeap [1, 2])) ≤
        (1 + 1 / 16777216) ^ (([(3, 1 / 16), (10, 1), (0, 1 / 32)] : List (Int × ℚ)).length + 1) *
          meanError [(3, 1 / 16), (10, 1), (0, 1 / 32)] :=
  have h := averages_are_rounded_means (1 / 8) [(3, 1 / 16), (10, 1), (0, 1 / 32)]
    (exampleWorld armHeap [1, 2]) (by simp) rfl rfl rfl rfl (by decide) (by decide)
    (by decide)
  have h5 := h.2.2.2.2 (by decide)
  have h6 := h5.2.1 (by decide)
  have h7 := h5.2.2 (fun o ho => by
    simp only [List.mem_cons, List.mem_singleton, List.not_mem_nil, or_false] at ho
    rcases ho with rfl | rfl | rfl <;> norm_num)
  ⟨h.1, h6.1, h6.2, h5.1.1, h5.1.2, h7.2.2.2.2.2.1, h7.2.2.2.2.2.2⟩

/-! ## Sequences of calls -/

theorem evaluate_error_limb (E : Env σ Q M) (nodeIndex : Int) (targetBone : Nat)
    (desPosition : vec3) (desRotation : Q) (it : Iter σ Q M)
    (hl : isLimb E.settings nodeIndex) :
    (∃ s, (evaluate E nodeIndex targetBone desPosition desRotation it).error =
        E.hand.getError s) ∨
      ∃ s, (evaluate E nodeIndex targetBone desPosition desRotation it).error =
        E.foot.getError s := by
  unfold evaluate
  split_ifs with h1 h2
  · exact Or.inl ⟨_, rfl⟩
  · exact Or.inr ⟨_, rfl⟩
  · exfalso
    rcases hl with h | h | h | h
    · exact h1 (Or.inl h)
    · exact h1 (Or.inr h)
    · exact h2 (Or.inl h)
    · exact h2 (Or.inr h)

/-- A call on well-formed memory returns, keeps the shape of the bones, and either leaves the
statistics as they were (line 17) or records one outcome at a step `k <= maxSteps`. -/
theorem inverseKinematics_call_stats (E : Env σ Q M) (fuel d targetBone : Nat)
    (desPosition : vec3) (desRotation : Q) (w : World σ Q M)
    (hc : chainEnds w.heap d targetBone = true) (hv : bonesValid w.heap w.bones = true)
    (hs : 0 ≤ E.settings.maxSteps) (hf : d < fuel) (hn : E.settings.maxSteps < fuel) :
    ∃ r w', inverseKinematics E fuel targetBone desPosition desRotation w = .ok (r, w') ∧
      SameShape w.heap w'.heap ∧ w'.bones = w.bones ∧
      (stats w' = stats w ∨ ∃ (k : Nat) (e : ℚ), (k : Int) ≤ E.settings.maxSteps ∧
        stats w' = stats (record E.settings.errorMax k e w)) := by
  obtain ⟨tb, hb⟩ := chainEnds_valid w.heap d targetBone hc
  cases hinit : tb.initialized with
  | false =>
    refine ⟨false, w, ?_, SameShape.refl _, rfl, Or.inl rfl⟩
    unfold inverseKinematics
    simp only [hb, hinit, if_true]
  | true =>
    obtain ⟨k, x, hk, hr, _, _, hrun⟩ :=
      inverseKinematics_run E fuel d targetBone desPosition desRotation w tb hb hinit hc hv hs
        hf hn
    obtain ⟨hbones, hst, _, _, _⟩ :=
      rounds_frame E fuel _ targetBone desPosition desRotation k _ x hr
    obtain ⟨e1, e2, e3, _⟩ :=
      evaluate_frame E tb.nodeIndex targetBone desPosition desRotation x
    have hsh := rounds_shape E fuel d tb.nodeIndex targetBone desPosition desRotation hf k
      (start w) x hc hv hr
    refine ⟨_, _, hrun, ?_, ?_, Or.inr ⟨k,
      (evaluate E tb.nodeIndex targetBone desPosition desRotation x).error, hk, ?_⟩⟩
    · show SameShape w.heap
        (evaluate E tb.nodeIndex targetBone desPosition desRotation x).world.heap
      rw [e1]
      exact hsh
    · show (evaluate E tb.nodeIndex targetBone desPosition desRotation x).world.bones = w.bones
      rw [e2]
      exact hbones
    · have h1 := e3.trans hst
      simp only [stats, start, Prod.mk.injEq] at h1
      obtain ⟨a1, a2, a3, a4, a5, a6⟩ := h1
      simp only [stats, record, a1, a2, a3, a4, a5, a6]

/-- Any sequence of calls on well-formed memory returns and keeps the bounds on the counters;
`totalNum` grows by at most one per call. -/
theorem solveAll_total (E : Env σ Q M) (fuel : Nat) (hs : 0 ≤ E.settings.maxSteps)
    (hn : E.settings.maxSteps < fuel) :
    ∀ (requests : List (Request Q)) (w : World σ Q M),
      bonesValid w.heap w.bones = true →
      (∀ r ∈ requests, ∃ d, d < fuel ∧ chainEnds w.heap d r.targetBone = true) →
      countersBounded E.settings.maxSteps w →
      ∃ w', solveAll E fuel requests w = .ok w' ∧ countersBounded E.settings.maxSteps w' ∧
        w'.totalNum ≤ w.totalNum + requests.length := by
  intro requests
  induction requests with
  | nil => intro w _ _ hw; exact ⟨w, rfl, hw, by simp⟩
  | cons r rest ih =>
    intro w hv hreq hw
    obtain ⟨d, hd, hc⟩ := hreq r (List.mem_cons_self r rest)
    obtain ⟨res, w1, hcall, hsh, hbones, hst⟩ :=
      inverseKinematics_call_stats E fuel d r.targetBone r.desPosition r.desRotation w hc hv hs
        hd hn
    have hw1 : countersBounded E.settings.maxSteps w1 ∧ w1.totalNum ≤ w.totalNum + 1 := by
      rcases hst with h | ⟨k, e, hk, h⟩
      · simp only [stats, Prod.mk.injEq] at h
        obtain ⟨a1, a2, a3, _⟩ := h
        unfold countersBounded
        rw [a1, a2, a3]
        exact ⟨hw, by omega⟩
      · refine ⟨record_bounded E.settings.maxSteps E.settings.errorMax k e w w1 hk hw h, ?_⟩
        simp only [stats, record, Prod.mk.injEq] at h
        rw [h.1]
    obtain ⟨w', h1, h2, h3⟩ := ih w1
      (by rw [hbones]; exact (bonesValid_congr hsh w.bones).symm.trans hv)
      (fun r' hr' => by
        obtain ⟨d', hd', hc'⟩ := hreq r' (List.mem_cons_of_mem r hr')
        exact ⟨d', hd', (chainEnds_congr hsh d' r'.targetBone).symm.trans hc'⟩)
      hw1.1
    refine ⟨w', by simp only [solveAll, hcall, Outcome.bind, h1], h2, ?_⟩
    have := hw1.2
    simp only [List.length_cons, Nat.cast_add, Nat.cast_one]
    omega

/-- The same request for an initialized hand or foot, made `N` times to solvers that never
report an error below `errorMax`, is recorded `N` times at step `maxSteps`. -/
theorem solveAll_stuck (E : Env σ Q M) (fuel d : Nat) (r : Request Q)
    (hs : 0 ≤ E.settings.maxSteps) (hf : d < fuel) (hn : E.settings.maxSteps < fuel)
    (hstuck : ∀ s, ¬ E.hand.getError s < E.settings.errorMax ∧
      ¬ E.foot.getError s < E.settings.errorMax) :
    ∀ (N : Nat) (w : World σ Q M), bonesValid w.heap w.bones = true →
      chainEnds w.heap d r.targetBone = true →
      (∃ tb, w.heap[r.targetBone]? = some tb ∧ tb.initialized = true ∧
        isLimb E.settings tb.nodeIndex) →
      ∃ w', solveAll E fuel (List.replicate N r) w = .ok w' ∧
        w'.totalNum = w.totalNum + N ∧ w'.sumIter = w.sumIter + E.settings.maxSteps * N ∧
        w'.sumReached = w.sumReached := by
  intro N
  induction N with
  | zero => intro w _ _ _; exact ⟨w, rfl, by simp, by simp, rfl⟩
  | succ N ih =>
    intro w hv hc ht
    obtain ⟨tb, hb, hinit, hlimb⟩ := ht
    have hlim : ∀ it : Iter σ Q M,
        ¬ (evaluate E tb.nodeIndex r.targetBone r.desPosition r.desRotation it).error <
          E.settings.errorMax := by
      intro it
      rcases evaluate_error_limb E tb.nodeIndex r.targetBone r.desPosition r.desRotation it
        hlimb with ⟨s, h⟩ | ⟨s, h⟩
      · rw [h]; exact (hstuck s).1
      · rw [h]; exact (hstuck s).2
    obtain ⟨x, hr, hrun⟩ := inverseKinematics_exhausted E fuel d r.targetBone r.desPosition
      r.desRotation w tb hb hinit hc hv hs hf hn
      (fun j e _ h => by
        simp only [errorAt] at h
        cases hr : rounds E fuel tb.nodeIndex r.targetBone r.desPosition r.desRotation j
            (start w) with
        | fault => simp [hr, Outcome.bind] at h
        | timeout => simp [hr, Outcome.bind] at h
        | ok y =>
          simp only [hr, Outcome.bind, Outcome.ok.injEq] at h
          subst h
          exact hlim y)
    obtain ⟨hbones, hst, _, _, _⟩ :=
      rounds_frame E fuel _ r.targetBone r.desPosition r.desRotation _ _ x hr
    obtain ⟨e1, e2, e3, _⟩ :=
      evaluate_frame E tb.nodeIndex r.targetBone r.desPosition r.desRotation x
    have hsh : SameShape w.heap x.world.heap :=
      rounds_shape E fuel d tb.nodeIndex r.targetBone r.desPosition r.desRotation hf _
        (start w) x hc hv hr
    have h1 := e3.trans hst
    simp only [stats, start, Prod.mk.injEq] at h1
    obtain ⟨a1, a2, a3, _⟩ := h1
    obtain ⟨w', hw', t1, t2, t3⟩ := ih
      (record E.settings.errorMax E.settings.maxSteps
        (evaluate E tb.nodeIndex r.targetBone r.desPosition r.desRotation x).error
        (evaluate E tb.nodeIndex r.targetBone r.desPosition r.desRotation x).world)
      (by
        show bonesValid
          (evaluate E tb.nodeIndex r.targetBone r.desPosition r.desRotation x).world.heap
          (evaluate E tb.nodeIndex r.targetBone r.desPosition r.desRotation x).world.bones = true
        rw [e1, e2, hbones]
        exact (bonesValid_congr hsh w.bones).symm.trans hv)
      (by
        show chainEnds
          (evaluate E tb.nodeIndex r.targetBone r.desPosition r.desRotation x).world.heap d
          r.targetBone = true
        rw [e1]
        exact (chainEnds_congr hsh d r.targetBone).symm.trans hc)
      (by
        show ∃ tb', (evaluate E tb.nodeIndex r.targetBone r.desPosition r.desRotation
          x).world.heap[r.targetBone]? = some tb' ∧ _
        rw [e1]
        rcases hsh.cases r.targetBone with ⟨h3, _⟩ | ⟨b, b', h3, h4, h5⟩
        · rw [hb] at h3
          exact absurd h3 (by simp)
        · rw [hb, Option.some.injEq] at h3
          subst h3
          obtain ⟨s1, _, s3, _⟩ := shape_eq_iff.mp h5
          exact ⟨b', h4, s3.trans hinit, by rw [s1]; exact hlimb⟩)
    refine ⟨w', ?_, ?_, ?_, ?_⟩
    · simp only [List.replicate_succ, solveAll, hrun, Outcome.bind]
      exact hw'
    · rw [t1]
      simp only [record, a1, Nat.cast_add, Nat.cast_one]
      ring
    · rw [t2]
      simp only [record, a2, Nat.cast_add, Nat.cast_one]
      ring
    · rw [t3]
      simp only [record, a3, if_neg (hlim x), add_zero]

/-! ## The bounds on the statistics in machine arithmetic -/

/-- Within the range of `int` the field holds the exact counter. -/
theorem wrapInt_of_range (n : Int) (h1 : -2147483648 ≤ n) (h2 : n ≤ INT_MAX) :
    wrapInt n = n := by
  unfold wrapInt
  unfold INT_MAX at h2
  omega

/-- C20 as worded fails in `float`: after 16777217 calls for the left hand of the example
arm with `maxSteps = 3` and a solver that never reports an error below `errorMax`, every
counter is within the range of `int` and the integer bounds hold (`totalNum = 2^24 + 1`,
`sumIter = 3 * totalNum`, `sumReached = 0`), but the cast of `totalNum` rounds down to `2^24`,
the cast of `sumIter = 50331651` rounds up to `50331652`, and `getAverageIter` returns
`12582913 / 4194304 = 3.00000023...`, above `maxSteps`. -/
theorem statistics_bounded_counterexample :
    ∃ w', solveAll (exampleEnv stuckSolver 3) 20 (List.replicate 16777217 ⟨2, ⟨0, 0, 0⟩, 0⟩)
        (exampleWorld armHeap [1, 2]) = .ok w' ∧
      w'.totalNum = 16777217 ∧ w'.sumIter = 50331651 ∧ w'.sumReached = 0 ∧
      w'.totalNum ≤ INT_MAX ∧ w'.sumIter ≤ INT_MAX ∧
      w'.sumIter ≤ (exampleEnv stuckSolver 3).settings.maxSteps * w'.totalNum ∧
      roundFloat (w'.totalNum : ℚ) = 16777216 ∧ roundFloat (w'.sumIter : ℚ) = 50331652 ∧
      getAverageIterF w' = 12582913 / 4194304 ∧
      ¬ getAverageIterF w' ≤ ((exampleEnv stuckSolver 3).settings.maxSteps : ℚ) := by
  obtain ⟨w', hw', t1, t2, t3⟩ := solveAll_stuck (exampleEnv stuckSolver 3) 20 2
    ⟨2, ⟨0, 0, 0⟩, 0⟩ (by decide) (by decide) (by decide)
    (fun s => by
      simp only [exampleEnv, exampleSettings, stuckSolver]
      norm_num)
    16777217 (exampleWorld armHeap [1, 2]) (by decide) (by decide)
    ⟨{ nodeIndex := 14, parent := 1, initialized := true, axes := ⟨0, 0, 0⟩, constrain := [],
       quaternion := 0, transform := 0, local_ := 0, combined := 1 }, rfl, rfl, Or.inl rfl⟩
  have s1 : w'.totalNum = 16777217 := by
    rw [t1]; simp [exampleWorld]
  have s2 : w'.sumIter = 50331651 := by
    rw [t2]; simp [exampleWorld, exampleEnv, exampleSettings]
  have s3 : w'.sumReached = 0 := by
    rw [t3]; rfl
  have f1 : roundFloat (16777217 : ℚ) = 16777216 := by
    rw [roundFloat_eval 24 8388608 (by norm_num) (by norm_num) (by norm_num) (by decide!)]
    norm_num
  have f2 : roundFloat (50331651 : ℚ) = 50331652 := by
    rw [roundFloat_eval 25 12582913 (by norm_num) (by norm_num) (by norm_num) (by decide!)]
    norm_num
  have f3 : roundFloat ((50331652 : ℚ) / 16777216) = 12582913 / 4194304 := by
    rw [roundFloat_eval 1 12582913 (by norm_num) (by norm_num) (by norm_num) (by decide!)]
    norm_num
  have g : getAverageIterF w' = 12582913 / 4194304 := by
    simp only [getAverageIterF, s1, s2, ne_eq, OfNat.ofNat_ne_zero, not_false_eq_true, if_true,
      Int.cast_ofNat, f1, f2, f3]
  refine ⟨w', hw', s1, s2, s3, ?_, ?_, ?_, ?_, ?_, g, ?_⟩
  · rw [s1]; decide
  · rw [s2]; decide
  · rw [s1, s2]; decide
  · rw [s1]; exact_mod_cast f1
  · rw [s2]; exact_mod_cast f2
  · rw [g]
    simp only [exampleEnv, exampleSettings]
    norm_num

/-- The bound `maxSteps * N <= INT_MAX` cannot be dropped: two exhausted calls at
`maxSteps = INT_MAX` make the exact `sumIter` equal to `4294967294`, outside the range of
`int`; what two's-complement arithmetic keeps of it is `-2`, and the float quotient of `-2`
by `totalNum = 2` is the sentinel `-1`. -/
theorem statistics_overflow :
    ∃ w', solveAll (exampleEnv stuckSolver 2147483647) 2147483648
        (List.replicate 2 ⟨2, ⟨0, 0, 0⟩, 0⟩) (exampleWorld armHeap [1, 2]) = .ok w' ∧
      w'.totalNum = 2 ∧ w'.sumIter = 4294967294 ∧ INT_MAX < w'.sumIter ∧
      wrapInt w'.sumIter = -2 ∧
      getAverageIterF { w' with sumIter := wrapInt w'.sumIter } = -1 := by
  obtain ⟨w', hw', t1, t2, _⟩ := solveAll_stuck (exampleEnv stuckSolver 2147483647) 2147483648
    2 ⟨2, ⟨0, 0, 0⟩, 0⟩ (by decide) (by decide) (by decide)
    (fun s => by
      simp only [exampleEnv, exampleSettings, stuckSolver]
      norm_num)
    2 (exampleWorld armHeap [1, 2]) (by decide) (by decide)
    ⟨{ nodeIndex := 14, parent := 1, initialized := true, axes := ⟨0, 0, 0⟩, constrain := [],
       quaternion := 0, transform := 0, local_ := 0, combined := 1 }, rfl, rfl, Or.inl rfl⟩
  have s1 : w'.totalNum = 2 := by
    rw [t1]; simp [exampleWorld]
  have s2 : w'.sumIter = 4294967294 := by
    rw [t2]; simp [exampleWorld, exampleEnv, exampleSettings]
  have s4 : wrapInt w'.sumIter = -2 := by
    rw [s2]; decide
  refine ⟨w', hw', s1, s2, by rw [s2]; decide, s4, ?_⟩
  simp only [getAverageIterF, s1, s4, ne_eq, OfNat.ofNat_ne_zero, not_false_eq_true, if_true]
  have f1 : roundFloat ((2 : Int) : ℚ) = ((2 : Int) : ℚ) :=
    roundFloat_intCast 2 (by decide) (by decide)
  have f2 : roundFloat ((-2 : Int) : ℚ) = ((-2 : Int) : ℚ) :=
    roundFloat_intCast (-2) (by decide) (by decide)
  have f3 : roundFloat (((-1 : Int) : ℚ)) = ((-1 : Int) : ℚ) :=
    roundFloat_intCast (-1) (by decide) (by decide)
  rw [f1, f2]
  have : (((-2 : Int) : ℚ)) / ((2 : Int) : ℚ) = ((-1 : Int) : ℚ) := by norm_num
  rw [this, f3]
  norm_num

/-- C20, amended: starting from zeroed counters, after any sequence of `N` calls of
`inverseKinematics` on well-formed memory, for a fixed `maxSteps >= 0` with `N` and
`maxSteps * N` within the range of `int`: every call returns, `totalNum <= N`,
`0 <= sumReached <= totalNum`, `0 <= sumIter <= maxSteps * totalNum`, and no counter has left
the range of `int`.  Hence whenever `totalNum != 0`, the float that `getAverageReached`
returns lies in `[0, 1]`, the float that `getAverageIter` returns is at least 0, and neither
is the sentinel -1; `getAverageIter` returns at most
`maxSteps * (1 + 2^-24)^2 / (1 - 2^-24)`, and at most `maxSteps` when `totalNum` and
`maxSteps * totalNum` are at most `2^24`. -/
theorem statistics_bounded_in_range (E : Env σ Q M) (fuel : Nat)
    (requests : List (Request Q)) (w : World σ Q M) (hs : 0 ≤ E.settings.maxSteps)
    (hn : E.settings.maxSteps < fuel) (hv : bonesValid w.heap w.bones = true)
    (hreq : ∀ r ∈ requests, ∃ d, d < fuel ∧ chainEnds w.heap d r.targetBone = true)
    (h1 : w.totalNum = 0) (h2 : w.sumIter = 0) (h3 : w.sumReached = 0)
    (hlen : (requests.length : Int) ≤ INT_MAX)
    (hmul : E.settings.maxSteps * requests.length ≤ INT_MAX) :
    ∃ w', solveAll E fuel requests w = .ok w' ∧
      0 ≤ w'.totalNum ∧ w'.totalNum ≤ requests.length ∧
      0 ≤ w'.sumReached ∧ w'.sumReached ≤ w'.totalNum ∧
      0 ≤ w'.sumIter ∧ w'.sumIter ≤ E.settings.maxSteps * w'.totalNum ∧
      w'.totalNum ≤ INT_MAX ∧ w'.sumReached ≤ INT_MAX ∧ w'.sumIter ≤ INT_MAX ∧
      (w'.totalNum ≠ 0 →
        0 ≤ getAverageReachedF w' ∧ getAverageReachedF w' ≤ 1 ∧
        0 ≤ getAverageIterF w' ∧
        getAverageReachedF w' ≠ -1 ∧ getAverageIterF w' ≠ -1 ∧
        (1 - 1 / 16777216) * getAverageIterF w' ≤
          (1 + 1 / 16777216) ^ 2 * (E.settings.maxSteps : ℚ) ∧
        (w'.totalNum ≤ 16777216 → E.settings.maxSteps * w'.totalNum ≤ 16777216 →
          getAverageIterF w' ≤ (E.settings.maxSteps : ℚ))) := by
  have h0 : countersBounded E.settings.maxSteps w := by
    unfold countersBounded
    rw [h1, h2, h3]
    simp
  obtain ⟨w', e, ⟨b1, b2, b3, b4, b5⟩, b6⟩ :=
    solveAll_total E fuel hs hn requests w hv hreq h0
  rw [h1, zero_add] at b6
  have hprod : E.settings.maxSteps * w'.totalNum ≤ E.settings.maxSteps * requests.length :=
    mul_le_mul_of_nonneg_left b6 hs
  refine ⟨w', e, b1, b6, b2, b3, b4, b5, by omega, by omega, by omega, ?_⟩
  intro hne
  have hpos : 0 < w'.totalNum := lt_of_le_of_ne b1 (Ne.symm hne)
  have hposq : (0 : ℚ) < (w'.totalNum : ℚ) := by exact_mod_cast hpos
  have c2 : (0 : ℚ) ≤ (w'.sumReached : ℚ) := by exact_mod_cast b2
  have c3 : (w'.sumReached : ℚ) ≤ (w'.totalNum : ℚ) := by exact_mod_cast b3
  have c4 : (0 : ℚ) ≤ (w'.sumIter : ℚ) := by exact_mod_cast b4
  have c5 : (w'.sumIter : ℚ) ≤ (E.settings.maxSteps : ℚ) * (w'.totalNum : ℚ) := by
    exact_mod_cast b5
  have fpos : 0 < roundFloat (w'.totalNum : ℚ) := roundFloat_pos hposq
  have one : roundFloat 1 = 1 := by
    have := roundFloat_intCast 1 (by decide) (by decide)
    exact_mod_cast this
  have r1 : 0 ≤ getAverageReachedF w' := by
    simp only [getAverageReachedF, ne_eq, hne, not_false_eq_true, if_true]
    exact roundFloat_nonneg (div_nonneg (roundFloat_nonneg c2) fpos.le)
  have r2 : 0 ≤ getAverageIterF w' := by
    simp only [getAverageIterF, ne_eq, hne, not_false_eq_true, if_true]
    exact roundFloat_nonneg (div_nonneg (roundFloat_nonneg c4) fpos.le)
  refine ⟨r1, ?_, r2, ?_, ?_, ?_, ?_⟩
  · simp only [getAverageReachedF, ne_eq, hne, not_false_eq_true, if_true]
    exact le_of_le_of_eq (roundFloat_mono ((div_le_one fpos).mpr (roundFloat_mono c3))) one
  · intro h; rw [h] at r1; norm_num at r1
  · intro h; rw [h] at r2; norm_num at r2
  · simp only [getAverageIterF, ne_eq, hne, not_false_eq_true, if_true]
    obtain ⟨_, s2⟩ := roundFloat_le_mul c4
    obtain ⟨n1, _⟩ := roundFloat_le_mul hposq.le
    have hq0 : 0 ≤ roundFloat (w'.sumIter : ℚ) / roundFloat (w'.totalNum : ℚ) :=
      div_nonneg (roundFloat_nonneg c4) fpos.le
    obtain ⟨_, q2⟩ := roundFloat_le_mul hq0
    have hqN : roundFloat (w'.sumIter : ℚ) / roundFloat (w'.totalNum : ℚ) *
        roundFloat (w'.totalNum : ℚ) = roundFloat (w'.sumIter : ℚ) :=
      div_mul_cancel₀ _ (ne_of_gt fpos)
    have k1 : roundFloat (w'.sumIter : ℚ) / roundFloat (w'.totalNum : ℚ) *
        ((1 - 1 / 16777216) * (w'.totalNum : ℚ)) ≤
        (1 + 1 / 16777216) * ((E.settings.maxSteps : ℚ) * (w'.totalNum : ℚ)) :=
      calc roundFloat (w'.sumIter : ℚ) / roundFloat (w'.totalNum : ℚ) *
            ((1 - 1 / 16777216) * (w'.totalNum : ℚ))
          ≤ roundFloat (w'.sumIter : ℚ) / roundFloat (w'.totalNum : ℚ) *
              roundFloat (w'.totalNum : ℚ) := mul_le_mul_of_nonneg_left n1 hq0
        _ = roundFloat (w'.sumIter : ℚ) := hqN
        _ ≤ (1 + 1 / 16777216) * (w'.sumIter : ℚ) := s2
        _ ≤ (1 + 1 / 16777216) * ((E.settings.maxSteps : ℚ) * (w'.totalNum : ℚ)) :=
            mul_le_mul_of_nonneg_left c5 (by norm_num)
    have k2 : roundFloat (w'.sumIter : ℚ) / roundFloat (w'.totalNum : ℚ) *
        (1 - 1 / 16777216) ≤ (1 + 1 / 16777216) * (E.settings.maxSteps : ℚ) := by
      apply le_of_mul_le_mul_right _ hposq
      linarith [k1]
    calc (1 - 1 / 16777216) *
          roundFloat (roundFloat (w'.sumIter : ℚ) / roundFloat (w'.totalNum : ℚ))
        ≤ (1 - 1 / 16777216) * ((1 + 1 / 16777216) *
            (roundFloat (w'.sumIter : ℚ) / roundFloat (w'.totalNum : ℚ))) :=
          mul_le_mul_of_nonneg_left q2 (by norm_num)
      _ = (1 + 1 / 16777216) * (roundFloat (w'.sumIter : ℚ) /
            roundFloat (w'.totalNum : ℚ) * (1 - 1 / 16777216)) := by ring
      _ ≤ (1 + 1 / 16777216) * ((1 + 1 / 16777216) * (E.settings.maxSteps : ℚ)) :=
          mul_le_mul_of_nonneg_left k2 (by norm_num)
      _ = (1 + 1 / 16777216) ^ 2 * (E.settings.maxSteps : ℚ) := by ring
  · intro ht hm
    have hsteps : E.settings.maxSteps ≤ 16777216 := by
      have : E.settings.maxSteps * 1 ≤ E.settings.maxSteps * w'.totalNum :=
        mul_le_mul_of_nonneg_left (by omega) hs
      omega
    have x1 : roundFloat (w'.totalNum : ℚ) = (w'.totalNum : ℚ) :=
      roundFloat_intCast _ (by omega) ht
    have x2 : roundFloat (w'.sumIter : ℚ) = (w'.sumIter : ℚ) :=
      roundFloat_intCast _ (by omega) (by omega)
    have x3 : roundFloat (E.settings.maxSteps : ℚ) = (E.settings.maxSteps : ℚ) :=
      roundFloat_intCast _ (by omega) hsteps
    simp only [getAverageIterF, ne_eq, hne, not_false_eq_true, if_true]
    rw [x1, x2, ← x3]
    apply roundFloat_mono
    exact (div_le_iff₀ hposq).mpr c5

/-- C20 amended, for three calls on the example arm: left hand, shoulder, left hand. -/
theorem statistics_bounded_in_range_witness :
    ∃ w', solveAll (exampleEnv halvingSolver 10) 20
        [⟨2, ⟨0, 0, 0⟩, 0⟩, ⟨1, ⟨0, 0, 0⟩, 0⟩, ⟨2, ⟨0, 0, 0⟩, 0⟩]
        (exampleWorld armHeap [1, 2]) = .ok w' ∧
      0 ≤ w'.totalNum ∧ w'.totalNum ≤ 3 ∧
      0 ≤ w'.sumReached ∧ w'.sumReached ≤ w'.totalNum ∧
      0 ≤ w'.sumIter ∧ w'.sumIter ≤ 10 * w'.totalNum ∧
      w'.totalNum ≤ INT_MAX ∧ w'.sumReached ≤ INT_MAX ∧ w'.sumIter ≤ INT_MAX ∧
      (w'.totalNum ≠ 0 →
        0 ≤ getAverageReachedF w' ∧ getAverageReachedF w' ≤ 1 ∧
        0 ≤ getAverageIterF w' ∧
        getAverageReachedF w' ≠ -1 ∧ getAverageIterF w' ≠ -1 ∧
        (1 - 1 / 16777216) * getAverageIterF w' ≤ (1 + 1 / 16777216) ^ 2 * 10 ∧
        (w'.totalNum ≤ 16777216 → 10 * w'.totalNum ≤ 16777216 →
          getAverageIterF w' ≤ 10)) :=
  statistics_bounded_in_range (exampleEnv halvingSolver 10) 20
    [⟨2, ⟨0, 0, 0⟩, 0⟩, ⟨1, ⟨0, 0, 0⟩, 0⟩, ⟨2, ⟨0, 0, 0⟩, 0⟩]
    (exampleWorld armHeap [1, 2]) (by decide) (by decide) (by decide)
    (fun r hr => ⟨2, by decide, by
      simp only [List.mem_cons, List.mem_singleton, List.not_mem_nil, or_false] at hr
      rcases hr with rfl | rfl | rfl <;> decide⟩)
    rfl rfl rfl (by decide) (by decide)

end BodyTracking
